import Mathlib

/-!
# GnuCash libgda backend

A shallow embedding of `src/backend/gda/gnc-backend-gda.c`: the commit protocol, the
generic query compiler, query execution and release, the initial load, the full
rebuild, the file-acceptance probe and the split of the connection locator.

* Handler callbacks (`commit`, `compile_query`, ...), the split synchronisation
  `gnc_gda_transaction_commit_splits`, the save routines of the object types and the
  calls into libgda are external collaborators.  A call to one of
  them is recorded, with its arguments, in the `trace` of the `World`; what the callee
  does to the database is outside the model.
* `g_critical` messages and the warnings of a failing `g_return_if_fail` are recorded
  in the `log` of the `World`.  Debug tracing (`ENTER`, `LEAVE`, `g_debug`) is not
  modelled.
* The registry walked by `qof_object_foreach_backend` is a list of
  `(type, pData)` pairs in the (unspecified) order of the walk; every theorem holds
  for every order.
-/

namespace GncGda

/-! ## Data model -/

/-- Modelled from the spec: the registry's expected schema-version stamp
(`GNC_GDA_BACKEND_VERSION` of `gnc-backend-gda.h`, a header that is not among the
sources).  No theorem depends on the numeric value. -/
def GNC_GDA_BACKEND_VERSION : Int := 1

/-- A domain object `QofInstance`: its type tag `e_type`, the dirty flag, the
destroying (`do_free`) flag, whether the GObject type check `GNC_IS_TRANS(inst)`
succeeds, and the handle of the book that owns it (the back-reference to its owning
collection, which `gnc_gda_commit_edit` never reads). -/
structure QofInstance where
  e_type : String
  dirty : Bool
  destroying : Bool
  is_trans : Bool
  book : Nat
deriving DecidableEq, Repr

/-- The session object `GncGdaBackend`: the two mode flags and the attached book
(`none` is the NULL pointer; a book is named by a handle). -/
structure GncGdaBackend where
  loading : Bool
  in_query : Bool
  primary_book : Option Nat
deriving DecidableEq, Repr

/-- The enumeration `QofQueryCompare` stored in the field `how` of a predicate;
`invalid` stands for a value of the field that is none of the six enumerators. -/
inductive QofQueryCompare where
  | QOF_COMPARE_LT
  | QOF_COMPARE_LTE
  | QOF_COMPARE_EQUAL
  | QOF_COMPARE_GT
  | QOF_COMPARE_GTE
  | QOF_COMPARE_NEQ
  | invalid
deriving DecidableEq, Repr

/-- The typed operand of a predicate, one constructor for each `type_name` that
`handle_and_term` compares against, and `other` for every other `type_name`.
Values formatted by functions outside the sources are given by the text those
functions write: `date` by the text of `gnc_timespec_to_iso8601_buff`, `guid` by the
text of `guid_to_string_buff` for the first identifier, `double` by the text that
`sprintf` writes for `%f`.  The operand of `numeric` is never read. -/
inductive PredValue where
  | string (matchstring : String)
  | date (iso8601 : String)
  | numeric
  | guid (text : String)
  | gint32 (val : Int)
  | gint64 (val : Int)
  | double (printed : String)
  | boolean (val : Int)
  | other (type_name : String)
deriving DecidableEq, Repr

/-- The predicate `QofQueryPredData`: the comparison `how` and the typed operand. -/
structure QofQueryPredData where
  how : QofQueryCompare
  value : PredValue
deriving DecidableEq, Repr

/-- One leaf term `QofQueryTerm`: property path, predicate and inversion flag. -/
structure QofQueryTerm where
  param_path : List String
  pred_data : QofQueryPredData
  invert : Bool
deriving DecidableEq, Repr

/-- A query `QofQuery`: the type searched for and the OR-list of AND-groups. -/
structure QofQuery where
  search_for : String
  terms : List (List QofQueryTerm)
deriving DecidableEq, Repr

/-- The opaque payload of a compiled query: a handler's native object (named by a
handle) or the SQL text of the generic fallback. -/
inductive CompiledPayload where
  | native (handle : Nat)
  | sql (text : String)
deriving DecidableEq, Repr

/-- The record `gnc_gda_query_info`: the target type and the opaque payload. -/
structure gnc_gda_query_info where
  searchObj : String
  pCompiledQuery : CompiledPayload
deriving DecidableEq, Repr

/-- The pointer handed to a handler's `run_query` or `free_query`, or to `g_free`:
the payload `pQueryInfo->pCompiledQuery`, or the record `pQueryInfo` itself. -/
inductive QueryPointer where
  | payload (p : CompiledPayload)
  | query_info (info : gnc_gda_query_info)
deriving DecidableEq, Repr

/-- The outcome of `gda_drop_table`: the table is dropped, or the call fails. -/
inductive DropResult where
  | dropped
  | failed
deriving DecidableEq, Repr

/-- Calls made to external collaborators, with their arguments. -/
inductive Event where
  /-- The call `(pData->commit)( be, inst )` of the registry entry `type`; `fn` is the callee. -/
  | commit (type : String) (fn : Nat) (be : GncGdaBackend) (inst : QofInstance)
  /-- The call `gnc_gda_transaction_commit_splits( be, GNC_TRANS(inst) )`. -/
  | commit_splits (be : GncGdaBackend) (inst : QofInstance)
  /-- The call `qof_instance_mark_clean( inst )` on a domain object. -/
  | instance_mark_clean (inst : QofInstance)
  /-- The call `qof_book_mark_saved( book )`. -/
  | book_mark_saved (book : Option Nat)
  /-- The call `(pData->compile_query)( be, pQuery )` of the registry entry `type`. -/
  | compile_query (type : String) (be : GncGdaBackend) (pQuery : QofQuery)
  /-- The call `(pData->run_query)( be, pCompiledQuery )` of the registry entry `type`. -/
  | run_query (type : String) (fn : Nat) (be : GncGdaBackend) (arg : QueryPointer)
  /-- The call `(pData->free_query)( be, pCompiledQuery )` of the registry entry `type`. -/
  | free_query (type : String) (fn : Nat) (be : GncGdaBackend) (arg : QueryPointer)
  /-- The call `g_free( ptr )` of the generic release. -/
  | g_free (ptr : QueryPointer)
  /-- The call `qof_event_suspend()`; `be` is the session at the time of the call. -/
  | event_suspend (be : GncGdaBackend)
  /-- The call `qof_event_resume()`; `be` is the session at the time of the call. -/
  | event_resume (be : GncGdaBackend)
  /-- The call `qof_instance_mark_clean( QOF_INSTANCE(book) )` on a book. -/
  | book_instance_mark_clean (book : Option Nat)
  /-- The call `(pData->initial_load)( be )` of the registry entry `type`. -/
  | initial_load (type : String) (fn : Nat) (be : GncGdaBackend)
  /-- The call `(pData->create_tables)( be )` of the registry entry `type`. -/
  | create_tables (type : String) (fn : Nat) (be : GncGdaBackend)
  /-- The call `gda_drop_table( pConnection, table_name, &error )` and its outcome. -/
  | drop_table (table_name : String) (result : DropResult)
  /-- The call `gda_dict_update_dbms_meta_data( pDict, 0, NULL, &error )`. -/
  | update_dbms_meta_data
  /-- The call `gnc_gda_save_commodity( be, commodity )`. -/
  | save_commodity (commodity : Nat)
  /-- The call `gnc_gda_save_account( be, account )`. -/
  | save_account (account : Nat)
  /-- The call `gnc_gda_save_price( be, price )`. -/
  | save_price (price : Nat)
  /-- The call `gnc_gda_save_transaction( be, tx )`. -/
  | save_transaction (tx : Nat)
  /-- The call `gnc_gda_save_schedxaction( be, sx )`. -/
  | save_schedxaction (sx : Nat)
  /-- The call `gnc_gda_save_budget( be, budget )`. -/
  | save_budget (budget : Nat)
deriving DecidableEq, Repr

/-- Messages written at the critical log level. -/
inductive LogMsg where
  /-- A failed `g_return_if_fail( expr )` inside the function `func`. -/
  | return_if_fail (func : String) (expr : String)
  /-- The message `gnc_gda_commit_edit(): Unknown object type %s`. -/
  | unknown_object_type (e_type : String)
  /-- The message `Unable to drop table %s`. -/
  | unable_to_drop_table (table_name : String)
deriving DecidableEq, Repr

/-- Everything the backend functions can change besides the object they are given:
the session, the dirty flag of each book, the calls made and the messages logged. -/
structure World where
  be : GncGdaBackend
  book_dirty : Nat → Bool
  trace : List Event
  log : List LogMsg

/-- The handler descriptor `GncGdaDataType_t`.  A function pointer is `none` when it
is NULL; a callback without a result is named by a handle, `compile_query` is the
function from the query to the handle of the native object it returns. -/
structure GncGdaDataType_t where
  version : Int
  type_name : String
  create_tables : Option Nat
  initial_load : Option Nat
  commit : Option Nat
  compile_query : Option (QofQuery → Nat)
  run_query : Option Nat
  free_query : Option Nat

/-- The local callback structure `gda_backend` as far as the commit callback uses it,
together with the calls made and the messages logged so far. -/
structure CommitData where
  ok : Bool
  be : GncGdaBackend
  inst : QofInstance
  trace : List Event
  log : List LogMsg

/-! ## Collaborators outside the sources -/

/-- Modelled from the spec: `for_each(handler_fn)` invokes a callback on every
registered handler with its type tag (`qof_object_foreach_backend`); the registry is
given as the list of entries in the order of the walk. -/
def qof_object_foreach_backend {H S : Type} (registry : List (String × H))
    (cb : String → H → S → S) (be_data : S) : S :=
  registry.foldl (fun s e => cb e.1 e.2 s) be_data

/-- Modelled from the spec: the persistence layer clears the dirty flag of the object
(`qof_instance_mark_clean`). -/
def qof_instance_mark_clean (inst : QofInstance) : QofInstance :=
  { inst with dirty := false }

/-- Modelled from the spec: mark the whole collection clean (`qof_book_mark_saved`);
nothing is marked when the pointer is NULL. -/
def qof_book_mark_saved (book : Option Nat) (book_dirty : Nat → Bool) : Nat → Bool :=
  match book with
  | none => book_dirty
  | some b => fun b' => if b' = b then false else book_dirty b'

/-! ## Commit protocol -/

/-- The callback `commit_cb` (lines 575-592).  The pointers `type`, `data_p` and
`be_data_p` are never NULL in a registry walk, so the first guard always passes. -/
def commit_cb (type : String) (pData : GncGdaDataType_t)
    (be_data : CommitData) : CommitData :=
  if pData.version ≠ GNC_GDA_BACKEND_VERSION then
    { be_data with log := be_data.log ++
        [LogMsg.return_if_fail "commit_cb" "pData->version == GNC_GDA_BACKEND_VERSION"] }
  else if pData.type_name ≠ be_data.inst.e_type then
    { be_data with log := be_data.log ++
        [LogMsg.return_if_fail "commit_cb"
          "strcmp( pData->type_name, be_data->inst->e_type ) == 0"] }
  else if be_data.ok then
    { be_data with log := be_data.log ++
        [LogMsg.return_if_fail "commit_cb" "!be_data->ok"] }
  else
    match pData.commit with
    | some fn =>
      { be_data with
          trace := be_data.trace ++ [Event.commit type fn be_data.be be_data.inst]
          ok := true }
    | none => be_data

/-- The function `gnc_gda_commit_edit` (lines 597-638): the new world and the new
state of the object. -/
def gnc_gda_commit_edit (registry : List (String × GncGdaDataType_t))
    (w : World) (inst : QofInstance) : World × QofInstance :=
  if w.be.loading then (w, inst)
  else
    let w1 : World :=
      if !inst.dirty && !inst.destroying && inst.is_trans then
        { w with trace := w.trace ++ [Event.commit_splits w.be inst] }
      else w
    if !inst.dirty && !inst.destroying then (w1, inst)
    else
      let be_data := qof_object_foreach_backend registry commit_cb
        { ok := false, be := w1.be, inst := inst, trace := w1.trace, log := w1.log }
      if !be_data.ok then
        ({ w1 with trace := be_data.trace
                   log := be_data.log ++ [LogMsg.unknown_object_type inst.e_type] }, inst)
      else
        ({ w1 with trace := be_data.trace ++
                     [Event.instance_mark_clean inst, Event.book_mark_saved w1.be.primary_book]
                   log := be_data.log
                   book_dirty := qof_book_mark_saved w1.be.primary_book w1.book_dirty },
         qof_instance_mark_clean inst)

/-! ## Query compiler -/

/-- The local callback structure `gda_backend` as far as the compile callback uses
it; `pCompiledQuery` is the payload stored in `pQueryInfo` (`none` while it is not
yet assigned). -/
structure CompileData where
  ok : Bool
  be : GncGdaBackend
  pQuery : QofQuery
  searchObj : String
  pCompiledQuery : Option CompiledPayload
  trace : List Event
  log : List LogMsg

/-- The function `convert_search_obj` (lines 643-647). -/
def convert_search_obj (objType : String) : String := objType

/-- The capacity of the local buffer `gchar sql[1000]` of `gnc_gda_compile_query`. -/
def SQL_BUFFER_SIZE : Nat := 1000

/-- The capacity of the local buffer `gchar val[GUID_ENCODING_LENGTH+1]` of
`handle_and_term`; `GUID_ENCODING_LENGTH` is 32. -/
def VAL_BUFFER_SIZE : Nat := 33

/-- The loop over the property path in `handle_and_term` (lines 663-666); `first`
says that `name` is still the head `pParamPath`. -/
def param_path_loop : List String → Bool → String → String
  | [], _, sql => sql
  | name :: rest, first, sql =>
    let sql := if first then sql else sql ++ "."
    param_path_loop rest false (sql ++ name)

/-- The operator text appended by the chain of comparisons on `how`
(lines 668-682). -/
def compare_text (how : QofQueryCompare) : String :=
  if how = QofQueryCompare.QOF_COMPARE_LT then "<"
  else if how = QofQueryCompare.QOF_COMPARE_LTE then "<="
  else if how = QofQueryCompare.QOF_COMPARE_EQUAL then "="
  else if how = QofQueryCompare.QOF_COMPARE_GT then ">"
  else if how = QofQueryCompare.QOF_COMPARE_GTE then ">="
  else if how = QofQueryCompare.QOF_COMPARE_NEQ then "~="
  else "??"

/-- The function `handle_and_term` (lines 649-731): the text behind `sql` after the
call.  The result is `none` when the call does not return normally: the
`g_assert( FALSE )` of an unknown operand type, or a `%f` text that does not fit the
buffer `val`.  The texts of `%d` for a `gint32`, of the 64-bit format for a `gint64`
and of `%d` for a `gboolean` have at most 20 characters and always fit. -/
def handle_and_term (pTerm : QofQueryTerm) (sql : String) : Option String :=
  let sql := sql ++ "("
  let sql := if pTerm.invert then sql ++ "!" else sql
  let sql := param_path_loop pTerm.param_path true sql
  let sql := sql ++ compare_text pTerm.pred_data.how
  match pTerm.pred_data.value with
  | PredValue.string matchstring => some (sql ++ "'" ++ matchstring ++ "'" ++ ")")
  | PredValue.date iso8601 => some (sql ++ "'" ++ iso8601.take (4+1+2+1+2) ++ "'" ++ ")")
  | PredValue.numeric => some (sql ++ "numeric" ++ ")")
  | PredValue.guid text => some (sql ++ "'" ++ text ++ "'" ++ ")")
  | PredValue.gint32 val => some (sql ++ toString val ++ ")")
  | PredValue.gint64 val => some (sql ++ toString val ++ ")")
  | PredValue.double printed =>
    if printed.utf8ByteSize < VAL_BUFFER_SIZE then some (sql ++ printed ++ ")") else none
  | PredValue.boolean val => some (sql ++ toString val ++ ")")
  | PredValue.other _ => none

/-- The callback `compile_query_cb` (lines 733-751). -/
def compile_query_cb (type : String) (pData : GncGdaDataType_t)
    (be_data : CompileData) : CompileData :=
  if pData.version ≠ GNC_GDA_BACKEND_VERSION then
    { be_data with log := be_data.log ++
        [LogMsg.return_if_fail "compile_query_cb"
          "pData->version == GNC_GDA_BACKEND_VERSION"] }
  else if type ≠ be_data.searchObj then
    { be_data with log := be_data.log ++
        [LogMsg.return_if_fail "compile_query_cb"
          "strcmp( type, be_data->pQueryInfo->searchObj ) == 0"] }
  else if be_data.ok then
    { be_data with log := be_data.log ++
        [LogMsg.return_if_fail "compile_query_cb" "!be_data->ok"] }
  else
    match pData.compile_query with
    | some fn =>
      { be_data with
          pCompiledQuery := some (CompiledPayload.native (fn be_data.pQuery))
          trace := be_data.trace ++ [Event.compile_query type be_data.be be_data.pQuery]
          ok := true }
    | none => be_data

/-- The inner loop of `gnc_gda_compile_query` over the terms of one AND-group
(lines 800-803); `first` says that `andTerm` is still the head `pAndTerms`. -/
def and_terms_loop : List QofQueryTerm → Bool → String → Option String
  | [], _, sql => some sql
  | andTerm :: rest, first, sql =>
    let sql := if first then sql else sql ++ " AND "
    match handle_and_term andTerm sql with
    | some sql => and_terms_loop rest false sql
    | none => none

/-- The outer loop of `gnc_gda_compile_query` over the OR-list (lines 794-805);
`first` says that `orTerm` is still the head `pOrTerms`. -/
def or_terms_loop : List (List QofQueryTerm) → Bool → String → Option String
  | [], _, sql => some sql
  | pAndTerms :: rest, first, sql =>
    let sql := if first then sql else sql ++ " OR "
    let sql := sql ++ "("
    match and_terms_loop pAndTerms true sql with
    | some sql => or_terms_loop rest false (sql ++ ")")
    | none => none

/-- Modelled from the spec: the expression is non-empty (`qof_query_has_terms`). -/
def qof_query_has_terms (pQuery : QofQuery) : Bool := !pQuery.terms.isEmpty

/-- The text that the generic fallback of `gnc_gda_compile_query` writes into `sql`
(lines 785-806), on an unbounded buffer. -/
def generic_sql_text (pQuery : QofQuery) : Option String :=
  let sql := "SELECT * from " ++ convert_search_obj pQuery.search_for
  if !qof_query_has_terms pQuery then some (sql ++ ";")
  else or_terms_loop pQuery.terms true (sql ++ " WHERE ")

/-- The function `gnc_gda_compile_query` (lines 753-814): the new world and the
compiled query.  The result is `none` when the call does not return normally:
`handle_and_term` asserts, or the text and its terminator need more than the
`SQL_BUFFER_SIZE` bytes of `sql` (no write shortens the text, so some write
overruns the buffer exactly when the complete text does not fit), or the payload
would be read before a callback assigned it (which sets `ok` at the same time). -/
def gnc_gda_compile_query (registry : List (String × GncGdaDataType_t))
    (w : World) (pQuery : QofQuery) : Option (World × gnc_gda_query_info) :=
  let searchObj := pQuery.search_for
  let be_data := qof_object_foreach_backend registry compile_query_cb
    { ok := false, be := w.be, pQuery := pQuery, searchObj := searchObj,
      pCompiledQuery := none, trace := w.trace, log := w.log }
  let w1 : World := { w with trace := be_data.trace, log := be_data.log }
  if be_data.ok then
    match be_data.pCompiledQuery with
    | some payload => some (w1, { searchObj := searchObj, pCompiledQuery := payload })
    | none => none
  else
    match generic_sql_text pQuery with
    | none => none
    | some sql =>
      if sql.utf8ByteSize < SQL_BUFFER_SIZE then
        some (w1, { searchObj := searchObj, pCompiledQuery := CompiledPayload.sql sql })
      else none

/-! ## Query execution and release -/

/-- The local callback structure `gda_backend` as far as the run and free callbacks
use it: `pCompiledQuery` is the pointer that the caller stored in the field of that
name, `searchObj` is `pQueryInfo->searchObj`. -/
structure QueryData where
  ok : Bool
  be : GncGdaBackend
  pCompiledQuery : QueryPointer
  searchObj : String
  trace : List Event
  log : List LogMsg

/-- The callback `free_query_cb` (lines 816-832). -/
def free_query_cb (type : String) (pData : GncGdaDataType_t)
    (be_data : QueryData) : QueryData :=
  if pData.version ≠ GNC_GDA_BACKEND_VERSION then
    { be_data with log := be_data.log ++
        [LogMsg.return_if_fail "free_query_cb" "pData->version == GNC_GDA_BACKEND_VERSION"] }
  else if type ≠ be_data.searchObj then
    { be_data with log := be_data.log ++
        [LogMsg.return_if_fail "free_query_cb"
          "strcmp( type, be_data->pQueryInfo->searchObj ) == 0"] }
  else if be_data.ok then
    { be_data with log := be_data.log ++
        [LogMsg.return_if_fail "free_query_cb" "!be_data->ok"] }
  else
    match pData.free_query with
    | some fn =>
      { be_data with
          trace := be_data.trace ++
            [Event.free_query type fn be_data.be be_data.pCompiledQuery]
          ok := true }
    | none => be_data

/-- The function `gnc_gda_free_query` (lines 834-860).  The field `pCompiledQuery`
of the callback structure is assigned `pQuery`, the pointer to the record. -/
def gnc_gda_free_query (registry : List (String × GncGdaDataType_t))
    (w : World) (pQueryInfo : gnc_gda_query_info) : World :=
  let be_data := qof_object_foreach_backend registry free_query_cb
    { ok := false, be := w.be, pCompiledQuery := QueryPointer.query_info pQueryInfo,
      searchObj := pQueryInfo.searchObj, trace := w.trace, log := w.log }
  if be_data.ok then
    { w with trace := be_data.trace, log := be_data.log }
  else
    { w with
        trace := be_data.trace ++
          [Event.g_free (QueryPointer.payload pQueryInfo.pCompiledQuery),
           Event.g_free (QueryPointer.query_info pQueryInfo)]
        log := be_data.log }

/-- The callback `run_query_cb` (lines 862-878). -/
def run_query_cb (type : String) (pData : GncGdaDataType_t)
    (be_data : QueryData) : QueryData :=
  if pData.version ≠ GNC_GDA_BACKEND_VERSION then
    { be_data with log := be_data.log ++
        [LogMsg.return_if_fail "run_query_cb" "pData->version == GNC_GDA_BACKEND_VERSION"] }
  else if type ≠ be_data.searchObj then
    { be_data with log := be_data.log ++
        [LogMsg.return_if_fail "run_query_cb"
          "strcmp( type, be_data->pQueryInfo->searchObj ) == 0"] }
  else if be_data.ok then
    { be_data with log := be_data.log ++
        [LogMsg.return_if_fail "run_query_cb" "!be_data->ok"] }
  else
    match pData.run_query with
    | some fn =>
      { be_data with
          trace := be_data.trace ++
            [Event.run_query type fn be_data.be be_data.pCompiledQuery]
          ok := true }
    | none => be_data

/-- Modelled from the spec: mark the whole collection clean, here through
`qof_instance_mark_clean( QOF_INSTANCE(book) )`; nothing is marked when the pointer
is NULL. -/
def qof_instance_mark_clean_book (book : Option Nat) (book_dirty : Nat → Bool) :
    Nat → Bool :=
  match book with
  | none => book_dirty
  | some b => fun b' => if b' = b then false else book_dirty b'

/-- The function `gnc_gda_run_query` (lines 880-917).  The field `pCompiledQuery`
of the callback structure is assigned `pQueryInfo->pCompiledQuery`, the payload. -/
def gnc_gda_run_query (registry : List (String × GncGdaDataType_t))
    (w : World) (pQueryInfo : gnc_gda_query_info) : World :=
  if w.be.in_query then
    { w with log := w.log ++ [LogMsg.return_if_fail "gnc_gda_run_query" "!be->in_query"] }
  else
    let be1 : GncGdaBackend := { w.be with loading := true, in_query := true }
    let trace1 := w.trace ++ [Event.event_suspend be1]
    let be_data := qof_object_foreach_backend registry run_query_cb
      { ok := false, be := be1,
        pCompiledQuery := QueryPointer.payload pQueryInfo.pCompiledQuery,
        searchObj := pQueryInfo.searchObj, trace := trace1, log := w.log }
    let be2 : GncGdaBackend := { be1 with loading := false, in_query := false }
    { be := be2
      book_dirty := qof_instance_mark_clean_book be2.primary_book w.book_dirty
      trace := be_data.trace ++
        [Event.event_resume be2, Event.book_instance_mark_clean be2.primary_book]
      log := be_data.log }

/-! ## Initial load -/

/-- Modelled from the spec: the type tag of the book handler (`GNC_ID_BOOK`). -/
def GNC_ID_BOOK : String := "Book"

/-- The glib comparison `g_ascii_strcasecmp( a, b ) == 0`: equality up to the case
of ASCII letters. -/
def g_ascii_strcasecmp_eq (a b : String) : Bool :=
  a.data.map Char.toLower == b.data.map Char.toLower

/-- Modelled from the spec: `lookup(type_tag)` returns the handler registered for
exactly that tag, or nothing (`qof_object_lookup_backend`). -/
def qof_object_lookup_backend (type_name : String)
    (registry : List (String × GncGdaDataType_t)) : Option GncGdaDataType_t :=
  (registry.find? (fun e => decide (e.1 = type_name))).map Prod.snd

/-- The local callback structure `gda_backend` as far as the callbacks without a
claim use it, together with the calls made and the messages logged so far. -/
structure BroadcastData where
  be : GncGdaBackend
  trace : List Event
  log : List LogMsg

/-- The callback `create_tables_cb` (lines 89-101). -/
def create_tables_cb (type : String) (pData : GncGdaDataType_t)
    (be_data : BroadcastData) : BroadcastData :=
  if pData.version ≠ GNC_GDA_BACKEND_VERSION then
    { be_data with log := be_data.log ++
        [LogMsg.return_if_fail "create_tables_cb"
          "pData->version == GNC_GDA_BACKEND_VERSION"] }
  else
    match pData.create_tables with
    | some fn =>
      { be_data with trace := be_data.trace ++ [Event.create_tables type fn be_data.be] }
    | none => be_data

/-- The callback `initial_load_cb` (lines 306-319). -/
def initial_load_cb (type : String) (pData : GncGdaDataType_t)
    (be_data : BroadcastData) : BroadcastData :=
  if pData.version ≠ GNC_GDA_BACKEND_VERSION then
    { be_data with log := be_data.log ++
        [LogMsg.return_if_fail "initial_load_cb"
          "pData->version == GNC_GDA_BACKEND_VERSION"] }
  else if g_ascii_strcasecmp_eq type GNC_ID_BOOK then
    { be_data with log := be_data.log ++
        [LogMsg.return_if_fail "initial_load_cb"
          "g_ascii_strcasecmp( type, GNC_ID_BOOK ) != 0"] }
  else
    match pData.initial_load with
    | some fn =>
      { be_data with trace := be_data.trace ++ [Event.initial_load type fn be_data.be] }
    | none => be_data

/-- The function `gnc_gda_load` (lines 321-353).  The result is `none` when the call
does not return normally: the `g_assert` on `primary_book` fails, or the look-up of
the book handler gives NULL, which is then dereferenced. -/
def gnc_gda_load (registry : List (String × GncGdaDataType_t))
    (w : World) (book : Nat) : Option World :=
  if w.be.primary_book ≠ none then none
  else
    let be1 : GncGdaBackend := { w.be with primary_book := some book, loading := true }
    match qof_object_lookup_backend GNC_ID_BOOK registry with
    | none => none
    | some pData =>
      let trace1 :=
        match pData.initial_load with
        | some fn => w.trace ++ [Event.initial_load GNC_ID_BOOK fn be1]
        | none => w.trace
      let be_data := qof_object_foreach_backend registry initial_load_cb
        { be := be1, trace := trace1, log := w.log }
      let be2 : GncGdaBackend := { be1 with loading := false }
      some
        { be := be2
          book_dirty := qof_instance_mark_clean_book (some book) w.book_dirty
          trace := be_data.trace ++ [Event.book_instance_mark_clean (some book)]
          log := be_data.log }

/-! ## Full rebuild -/

/-- The objects of a book as the engine enumerates them for the save routines:
`commodities` in the order of the sorted namespaces and mnemonics,
`root_descendants` is `gnc_account_get_descendants` of the root account, `prices`
the walk of `gnc_pricedb_foreach_price`, `root_transactions` the walk of
`xaccAccountTreeForEachTransaction` from the root account, `template_descendants`
and `template_transactions` the same for the template root, `schedxactions` the list
`sx_list`, `budgets` the walk of the budget collection. -/
structure QofBook where
  commodities : List Nat
  root_descendants : List Nat
  prices : List Nat
  root_transactions : List Nat
  template_descendants : List Nat
  template_transactions : List Nat
  schedxactions : List Nat
  budgets : List Nat
deriving DecidableEq, Repr

/-- The function `save_commodities` (lines 374-397); `gnc_gda_sync_all` does not
call it. -/
def save_commodities (book : QofBook) (trace : List Event) : List Event :=
  book.commodities.foldl (fun t c => t ++ [Event.save_commodity c]) trace

/-- The function `save_account_tree` (lines 399-410) on the descendants of `root`. -/
def save_account_tree (descendants : List Nat) (trace : List Event) : List Event :=
  descendants.foldl (fun t a => t ++ [Event.save_account a]) trace

/-- The function `save_accounts` (lines 412-416). -/
def save_accounts (book : QofBook) (trace : List Event) : List Event :=
  save_account_tree book.root_descendants trace

/-- The function `save_budgets` with `write_budget` (lines 418-431). -/
def save_budgets (book : QofBook) (trace : List Event) : List Event :=
  book.budgets.foldl (fun t b => t ++ [Event.save_budget b]) trace

/-- The function `save_prices` with `save_price` (lines 433-449); the callback
returns TRUE, so the walk visits every price. -/
def save_prices (book : QofBook) (trace : List Event) : List Event :=
  book.prices.foldl (fun t p => t ++ [Event.save_price p]) trace

/-- The walk `xaccAccountTreeForEachTransaction( root, save_tx, be )` with `save_tx`
(lines 451-459); the callback returns 0, so the walk visits every transaction. -/
def for_each_transaction_save_tx (transactions : List Nat) (trace : List Event) :
    List Event :=
  transactions.foldl (fun t tx => t ++ [Event.save_transaction tx]) trace

/-- The function `save_transactions` (lines 461-467). -/
def save_transactions (book : QofBook) (trace : List Event) : List Event :=
  for_each_transaction_save_tx book.root_transactions trace

/-- The function `save_template_transactions` (lines 469-479);
`gnc_account_n_descendants( ra )` is the number of descendants of the template
root. -/
def save_template_transactions (book : QofBook) (trace : List Event) : List Event :=
  if book.template_descendants.length > 0 then
    for_each_transaction_save_tx book.template_transactions
      (save_account_tree book.template_descendants trace)
  else trace

/-- The function `save_schedXactions` (lines 481-493). -/
def save_schedXactions (book : QofBook) (trace : List Event) : List Event :=
  book.schedxactions.foldl (fun t sx => t ++ [Event.save_schedxaction sx]) trace

/-- The loop of `gnc_gda_sync_all` that drops the tables (lines 516-529): each row
of the schema model with the outcome of dropping it.  The messages that print the
text of a `GError` are not modelled. -/
def drop_tables_loop (tables : List (String × DropResult)) (w : World) : World :=
  tables.foldl
    (fun w row =>
      let w1 := { w with trace := w.trace ++ [Event.drop_table row.1 row.2] }
      if row.2 ≠ DropResult.dropped then
        { w1 with log := w1.log ++ [LogMsg.unable_to_drop_table row.1] }
      else w1)
    w

/-- The function `gnc_gda_sync_all` (lines 495-559); `tables` are the rows of the
schema model, each with the outcome of dropping it. -/
def gnc_gda_sync_all (registry : List (String × GncGdaDataType_t))
    (w : World) (tables : List (String × DropResult)) (book : QofBook) : World :=
  let w1 := drop_tables_loop tables w
  let trace := w1.trace ++ [Event.update_dbms_meta_data]
  let be_data := qof_object_foreach_backend registry create_tables_cb
    { be := w1.be, trace := trace, log := w1.log }
  let trace := be_data.trace ++ [Event.update_dbms_meta_data]
  let trace := save_accounts book trace
  let trace := save_prices book trace
  let trace := save_transactions book trace
  let trace := save_template_transactions book trace
  let trace := save_schedXactions book trace
  let trace := save_budgets book trace
  { w1 with trace := trace, log := be_data.log }

/-! ## File-acceptance probe -/

/-- The glib suffix test `g_str_has_suffix( str, suffix )`. -/
def g_str_has_suffix (str suffix : String) : Bool :=
  suffix.data.isSuffixOf str.data

/-- The glib test `g_str_has_prefix( buf, pre )` on a buffer: the text of the buffer
runs up to its first NUL byte (a buffer without a NUL byte is read to its end), and
the text must start with `pre`. -/
def g_str_has_prefix_buf (buf : List Char) (pre : String) : Bool :=
  pre.data.isPrefixOf (buf.takeWhile (fun c => c ≠ Char.ofNat 0))

/-- The C library call `fread( buf, size, 1, f )` on a freshly opened file: the
leading bytes of the file overwrite the start of the buffer, at most `size` of them;
the bytes of the buffer behind them keep what they held. -/
def fread_buf (buf : List Char) (size : Nat) (content : List Char) : List Char :=
  content.take size ++ buf.drop (content.take size).length

/-- The function `gnc_gda_check_sqlite_file` (lines 1001-1041).  The path is `none`
when it is NULL; `g_fopen` gives the bytes of the file at a path, or `none` when the
file cannot be opened; `buf` is what the 50 bytes of the local array `buf`, which is
not initialised, hold on entry. -/
def gnc_gda_check_sqlite_file (path : Option String)
    (g_fopen : String → Option (List Char)) (buf : List Char) : Bool :=
  match path with
  | none => false
  | some path =>
    if g_str_has_suffix path ".db" then
      match g_fopen path with
      | none => true
      | some content =>
        let buf := fread_buf buf 50 content
        if g_str_has_prefix_buf buf "SQLite format" then true else false
    else
      match g_fopen path with
      | some _ => false
      | none => true

/-! ## Connection locator -/

/-- The provider name `SQLITE_PROVIDER_NAME` (line 85). -/
def SQLITE_PROVIDER_NAME : String := "SQLite"

/-- The provider and the target that `gnc_gda_session_begin` has after the look-up
in the provider list (line 178): `provider` is the identifier of the list when
`provider_found`, the requested text otherwise; `dsn` is the target. -/
structure ProviderSplit where
  provider : String
  provider_found : Bool
  dsn : String
deriving DecidableEq, Repr

/-- What `gnc_gda_session_begin` takes from the locator: the name of the connection
opened by name (the `@` form), and the provider and target of the provider block
when that block is entered. -/
structure LocatorSplit where
  named_connection : Option String
  split : Option ProviderSplit
deriving DecidableEq, Repr

/-- The loop over `gda_config_get_provider_list()` (lines 166-177); an entry of the
list is `none` when `provider_info` is NULL. -/
def provider_lookup (provider_list : List (Option String)) (provider : String) :
    Option String :=
  (provider_list.find? (fun info =>
    match info with
    | some id => g_ascii_strcasecmp_eq id provider
    | none => false)).join

/-- The first part of `gnc_gda_session_begin` (lines 122-178): the split of
`book_id`.  Texts are lists of bytes; `strchr( s, ':' )` is the rest of `s` from its
first colon.  The result is `none` when the call does not return normally: `dsn += 3`
leaves the string, or the second `strchr` gives NULL, through which `*dsn = 0` then
writes. -/
def session_begin_locator (provider_list : List (Option String)) (book_id : String) :
    Option LocatorSplit :=
  let book_info := book_id.data
  let at_colon := book_info.dropWhile (fun c => c ≠ ':')
  if at_colon = [] then
    -- dsn == NULL: no provider, use the default
    let provider := SQLITE_PROVIDER_NAME
    let dsn := book_info
    some
      { named_connection := none
        split := some
          { provider := (provider_lookup provider_list provider).getD provider
            provider_found := (provider_lookup provider_list provider).isSome
            dsn := String.mk dsn } }
  else if at_colon.length < 3 then none
  else
    let dsn := at_colon.drop 3
    let named_connection := if dsn.head? = some '@' then some (String.mk (dsn.drop 1)) else none
    let dsn := if dsn.head? = some '@' then dsn.drop 1 else dsn
    if dsn.head? ≠ some '@' then
      let provider := dsn.takeWhile (fun c => c ≠ ':')
      let at_colon2 := dsn.dropWhile (fun c => c ≠ ':')
      if at_colon2 = [] then none
      else
        let dsn := at_colon2.drop 1
        some
          { named_connection := named_connection
            split := some
              { provider :=
                  (provider_lookup provider_list (String.mk provider)).getD (String.mk provider)
                provider_found := (provider_lookup provider_list (String.mk provider)).isSome
                dsn := String.mk dsn } }
    else some { named_connection := named_connection, split := none }

/-- The glib search `g_strrstr( haystack, needle )` from the candidate position `p`
downward: the position of the first candidate at which the needle stands. -/
def g_strrstr_from (haystack needle : List Char) : Nat → Option Nat
  | 0 => if needle.isPrefixOf haystack then some 0 else none
  | p + 1 =>
    if needle.isPrefixOf (haystack.drop (p + 1)) then some (p + 1)
    else g_strrstr_from haystack needle p

/-- The glib search `g_strrstr( haystack, needle )`: the position of the last
occurrence of the needle, `none` for NULL.  An empty needle is found at the start; a
haystack shorter than the needle holds none; the candidates run from the position
`haystack_len - needle_len` downward. -/
def g_strrstr (haystack needle : String) : Option Nat :=
  if needle.data.length = 0 then some 0
  else if haystack.data.length < needle.data.length then none
  else g_strrstr_from haystack.data needle.data (haystack.data.length - needle.data.length)

/-- The building of the connection string in `gnc_gda_session_begin` (lines 182-207),
for the provider found in the provider list and the target `dsn`; the glib functions
`g_path_get_dirname` and `g_path_get_basename` are given.  The result is `none` when
`g_strrstr` gives NULL, through which `*suffix = 0` then writes. -/
def session_begin_cnc (g_path_get_dirname g_path_get_basename : String → String)
    (provider dsn : String) : Option String :=
  if provider = SQLITE_PROVIDER_NAME then
    let dirname := g_path_get_dirname dsn
    let basename := g_path_get_basename dsn
    if g_str_has_suffix basename ".db" then
      match g_strrstr basename ".db" with
      | none => none
      | some suffix =>
        let bn := String.mk (basename.data.take suffix)
        some ("DB_DIR=" ++ dirname ++ ";DB_NAME=" ++ bn)
    else some ("DB_DIR=" ++ dirname ++ ";DB_NAME=" ++ basename)
  else some dsn

/-! ## Definitions used to state the properties -/

/-- A world for concrete evaluations: no mode flag set, book 1 attached and dirty,
nothing called or logged yet. -/
def World.start : World :=
  { be := { loading := false, in_query := false, primary_book := some 1 }
    book_dirty := fun _ => true
    trace := []
    log := [] }

/-- A handler descriptor with the expected version and no callback at all. -/
def GncGdaDataType_t.blank (type_name : String) : GncGdaDataType_t :=
  { version := GNC_GDA_BACKEND_VERSION, type_name := type_name, create_tables := none,
    initial_load := none, commit := none, compile_query := none, run_query := none,
    free_query := none }

/-- A sample handler for accounts: commit function 7, nothing else. -/
def account_handler : GncGdaDataType_t :=
  { GncGdaDataType_t.blank "Account" with commit := some 7 }

/-- A sample handler for transactions: commit function 8, nothing else. -/
def trans_handler : GncGdaDataType_t :=
  { GncGdaDataType_t.blank "Trans" with commit := some 8 }

/-- A sample registry with the two sample handlers. -/
def sample_registry : List (String × GncGdaDataType_t) :=
  [("Account", account_handler), ("Trans", trans_handler)]

/-- A dirty account. -/
def dirty_account : QofInstance :=
  { e_type := "Account", dirty := true, destroying := false, is_trans := false,
    book := 1 }

/-- A dirty object of a type that no sample handler knows. -/
def dirty_lot : QofInstance :=
  { e_type := "Lot", dirty := true, destroying := false, is_trans := false,
    book := 1 }

/-- An account that is neither dirty nor being destroyed. -/
def clean_account : QofInstance :=
  { e_type := "Account", dirty := false, destroying := false, is_trans := false,
    book := 1 }

/-- A transaction that is neither dirty nor being destroyed. -/
def clean_trans : QofInstance :=
  { e_type := "Trans", dirty := false, destroying := false, is_trans := true,
    book := 1 }

/-- A session to which no book has been attached (`primary_book` is NULL, as before
any `gnc_gda_load`), while book 1 is dirty. -/
def World.detached : World :=
  { World.start with be := { World.start.be with primary_book := none } }

/-- A session whose attached book is book 2, while book 1 is dirty as well. -/
def World.other_book : World :=
  { World.start with be := { World.start.be with primary_book := some 2 } }

/-- The sample world in bulk-load mode. -/
def World.loading_start : World :=
  { World.start with be := { World.start.be with loading := true } }

/-- The registry entry claims the commit of `inst`: expected version, a commit
function, and a type tag equal to the type of the object. -/
def claims_commit (inst : QofInstance) (e : String × GncGdaDataType_t) : Bool :=
  decide (e.2.version = GNC_GDA_BACKEND_VERSION) && e.2.commit.isSome &&
    decide (e.2.type_name = inst.e_type)

/-- The event is a call of some handler's commit function. -/
def Event.is_commit_call : Event → Bool
  | Event.commit _ _ _ _ => true
  | _ => false

/-- The event is a call of the split synchronisation. -/
def Event.is_commit_splits : Event → Bool
  | Event.commit_splits _ _ => true
  | _ => false

/-- The message is the warning of a failed `g_return_if_fail`. -/
def LogMsg.is_warning : LogMsg → Bool
  | LogMsg.return_if_fail _ _ => true
  | _ => false

/-- The registry entry claims the compilation of a query for `searchObj`: expected
version, a compile function, and a registry key equal to the target type. -/
def claims_compile (searchObj : String) (e : String × GncGdaDataType_t) : Bool :=
  decide (e.2.version = GNC_GDA_BACKEND_VERSION) && e.2.compile_query.isSome &&
    decide (e.1 = searchObj)

/-- The texts of a list joined by a separator, in the words of the specification:
the separator stands between two neighbours, nowhere else. -/
def joined (sep : String) : List String → String
  | [] => ""
  | [a] => a
  | a :: b :: rest => a ++ sep ++ joined sep (b :: rest)

/-- Every text of a list preceded by the separator. -/
def each_preceded (sep : String) : List String → String
  | [] => ""
  | a :: rest => sep ++ a ++ each_preceded sep rest

/-- The text that `handle_and_term` appends for a term (`none` when it does not
return normally). -/
def term_text (pTerm : QofQueryTerm) : Option String := handle_and_term pTerm ""

/-- An AND-group in the words of the specification: the rendered terms joined by
` AND `, in parentheses. -/
def and_group_text (texts : List String) : String := "(" ++ joined " AND " texts ++ ")"

/-- The sample term `amount > 100` with a 32-bit operand. -/
def amount_gt_100 : QofQueryTerm :=
  { param_path := ["amount"]
    pred_data := { how := QofQueryCompare.QOF_COMPARE_GT, value := PredValue.gint32 100 }
    invert := false }

/-- A sample term with the not-equal comparison. -/
def count_neq_1 : QofQueryTerm :=
  { param_path := ["count"]
    pred_data := { how := QofQueryCompare.QOF_COMPARE_NEQ, value := PredValue.gint64 1 }
    invert := false }

/-- A sample term whose match string has `n` letters. -/
def long_string_term (n : Nat) : QofQueryTerm :=
  { param_path := ["desc"]
    pred_data := { how := QofQueryCompare.QOF_COMPARE_EQUAL,
                   value := PredValue.string (String.mk (List.replicate n 'a')) }
    invert := false }

/-- The query for every object of type `Foo`: no terms. -/
def all_foo : QofQuery := { search_for := "Foo", terms := [] }

/-- The query for the splits with `amount > 100`. -/
def splits_amount_gt_100 : QofQuery := { search_for := "Split", terms := [[amount_gt_100]] }

/-- A query with two OR-groups, the first with two AND-terms. -/
def splits_two_groups : QofQuery :=
  { search_for := "Split", terms := [[amount_gt_100, count_neq_1], [amount_gt_100]] }

/-- The query for the accounts whose description equals a text of 1000 letters. -/
def accounts_long_desc : QofQuery :=
  { search_for := "Account", terms := [[long_string_term 1000]] }

/-- The six comparison operators, in the order of the enumeration. -/
def six_operators : List QofQueryCompare :=
  [QofQueryCompare.QOF_COMPARE_LT, QofQueryCompare.QOF_COMPARE_LTE,
   QofQueryCompare.QOF_COMPARE_EQUAL, QofQueryCompare.QOF_COMPARE_GT,
   QofQueryCompare.QOF_COMPARE_GTE, QofQueryCompare.QOF_COMPARE_NEQ]

/-- The registry entry claims the execution of a query for `searchObj`: expected
version, a run function, and a registry key equal to the target type. -/
def claims_run (searchObj : String) (e : String × GncGdaDataType_t) : Bool :=
  decide (e.2.version = GNC_GDA_BACKEND_VERSION) && e.2.run_query.isSome &&
    decide (e.1 = searchObj)

/-- The registry entry claims the release of a query for `searchObj`: expected
version, a free function, and a registry key equal to the target type. -/
def claims_free (searchObj : String) (e : String × GncGdaDataType_t) : Bool :=
  decide (e.2.version = GNC_GDA_BACKEND_VERSION) && e.2.free_query.isSome &&
    decide (e.1 = searchObj)

/-- The run event of a claiming registry entry. -/
def run_events (be : GncGdaBackend) (ptr : QueryPointer) :
    Option (String × GncGdaDataType_t) → List Event
  | some e =>
    match e.2.run_query with
    | some fn => [Event.run_query e.1 fn be ptr]
    | none => []
  | none => []

/-- The free event of a claiming registry entry. -/
def free_events (be : GncGdaBackend) (ptr : QueryPointer) :
    Option (String × GncGdaDataType_t) → List Event
  | some e =>
    match e.2.free_query with
    | some fn => [Event.free_query e.1 fn be ptr]
    | none => []
  | none => []

/-- The compile event of a claiming registry entry. -/
def compile_events (be : GncGdaBackend) (pQuery : QofQuery) :
    Option (String × GncGdaDataType_t) → List Event
  | some e => [Event.compile_query e.1 be pQuery]
  | none => []

/-- The calls of a walk in which every registry entry may add calls of its own. -/
def broadcast_events (f : String × GncGdaDataType_t → List Event) :
    List (String × GncGdaDataType_t) → List Event
  | [] => []
  | e :: rest => f e ++ broadcast_events f rest

/-- The call that the create-tables walk makes for a registry entry: one call for an
entry of the expected version with a `create_tables` function, none otherwise. -/
def create_tables_events (be : GncGdaBackend) (e : String × GncGdaDataType_t) :
    List Event :=
  if e.2.version = GNC_GDA_BACKEND_VERSION then
    match e.2.create_tables with
    | some fn => [Event.create_tables e.1 fn be]
    | none => []
  else []

/-- The call that the initial-load walk makes for a registry entry: one call for an
entry of the expected version, with a key that is not `Book` in any letter case and
with an `initial_load` function, none otherwise. -/
def initial_load_events (be : GncGdaBackend) (e : String × GncGdaDataType_t) :
    List Event :=
  if e.2.version = GNC_GDA_BACKEND_VERSION ∧ g_ascii_strcasecmp_eq e.1 GNC_ID_BOOK = false then
    match e.2.initial_load with
    | some fn => [Event.initial_load e.1 fn be]
    | none => []
  else []

/-- The direct call of the book handler in `gnc_gda_load`. -/
def book_load_events (be : GncGdaBackend) (pData : GncGdaDataType_t) : List Event :=
  match pData.initial_load with
  | some fn => [Event.initial_load GNC_ID_BOOK fn be]
  | none => []

/-- The save steps of a full rebuild as the code performs them: accounts below the
root, prices, transactions of the root tree, then, when the template root has a
descendant, the accounts below the template root and the template transactions, then
scheduled transactions, then budgets. -/
def persist_steps (book : QofBook) : List Event :=
  book.root_descendants.map Event.save_account ++
  book.prices.map Event.save_price ++
  book.root_transactions.map Event.save_transaction ++
  (if book.template_descendants ≠ [] then
    book.template_descendants.map Event.save_account ++
      book.template_transactions.map Event.save_transaction
   else []) ++
  book.schedxactions.map Event.save_schedxaction ++
  book.budgets.map Event.save_budget

/-- The save steps of a full rebuild in the words of the specification: accounts
below the root, prices, transactions of the root tree, the template transactions
(only when the template root has a descendant), scheduled transactions, budgets. -/
def stated_persist_steps (book : QofBook) : List Event :=
  book.root_descendants.map Event.save_account ++
  book.prices.map Event.save_price ++
  book.root_transactions.map Event.save_transaction ++
  (if book.template_descendants ≠ [] then
    book.template_transactions.map Event.save_transaction
   else []) ++
  book.schedxactions.map Event.save_schedxaction ++
  book.budgets.map Event.save_budget

/-- The event is the saving of a commodity. -/
def Event.is_save_commodity : Event → Bool
  | Event.save_commodity _ => true
  | _ => false

/-- The event is an attempt to drop a table. -/
def Event.is_drop_table : Event → Bool
  | Event.drop_table _ _ => true
  | _ => false

/-- The event is a call of some handler's `initial_load`. -/
def Event.is_initial_load : Event → Bool
  | Event.initial_load _ _ _ => true
  | _ => false

/-- The session that a handler sees in the call recorded by the event, when the
event records one. -/
def Event.session : Event → Option GncGdaBackend
  | Event.commit _ _ be _ => some be
  | Event.commit_splits be _ => some be
  | Event.compile_query _ be _ => some be
  | Event.run_query _ _ be _ => some be
  | Event.free_query _ _ be _ => some be
  | Event.event_suspend be => some be
  | Event.event_resume be => some be
  | Event.initial_load _ _ be => some be
  | Event.create_tables _ _ be => some be
  | _ => none

/-- The rows of the schema model with every drop succeeding. -/
def all_dropped (tables : List (String × DropResult)) : List (String × DropResult) :=
  tables.map (fun row => (row.1, DropResult.dropped))

/-- The signature at the start of an SQLite file. -/
def sqlite_signature : String := "SQLite format"

/-- A text has no colon. -/
def no_colon (s : String) : Prop := ∀ c ∈ s.data, c ≠ ':'

/-- A sample handler for books: load function 1, create-tables function 11. -/
def book_handler : GncGdaDataType_t :=
  { GncGdaDataType_t.blank "Book" with initial_load := some 1, create_tables := some 11 }

/-- A sample handler for prices: load function 2, create-tables function 12. -/
def price_handler : GncGdaDataType_t :=
  { GncGdaDataType_t.blank "Price" with initial_load := some 2, create_tables := some 12 }

/-- A sample handler for splits with its own query support: the compile function
returns the native object 42 for every query, run function 21, free function 22. -/
def split_handler : GncGdaDataType_t :=
  { GncGdaDataType_t.blank "Split" with
      compile_query := some (fun _ => 42), run_query := some 21, free_query := some 22,
      initial_load := some 3 }

/-- A sample registry with a book handler in the middle of the walk. -/
def load_registry : List (String × GncGdaDataType_t) :=
  [("Price", price_handler), ("Book", book_handler), ("Account", account_handler),
   ("Split", split_handler)]

/-- The compiled query that the sample split handler produces. -/
def split_query_info : gnc_gda_query_info :=
  { searchObj := "Split", pCompiledQuery := CompiledPayload.native 42 }

/-- The sample world while a query is running. -/
def World.querying : World :=
  { World.start with be := { World.start.be with loading := true, in_query := true } }

/-- A sample book: two accounts, a price, three transactions, one template account
with one template transaction, a scheduled transaction, a budget, a commodity. -/
def sample_book : QofBook :=
  { commodities := [90], root_descendants := [1, 2], prices := [10],
    root_transactions := [20, 21, 22], template_descendants := [50],
    template_transactions := [60], schedxactions := [70], budgets := [80] }

/-- A sample schema model with three tables, the second of which cannot be dropped. -/
def sample_tables : List (String × DropResult) :=
  [("accounts", DropResult.dropped), ("prices", DropResult.failed),
   ("transactions", DropResult.dropped)]

/-- A sample provider list. -/
def sample_providers : List (Option String) := [some "MySQL", none, some "SQLite"]

/-- A file system with an empty file `books.db` and nothing else. -/
def empty_db_file (path : String) : Option (List Char) :=
  if path = "books.db" then some [] else none

/-- What the local array holds after an earlier probe of a genuine SQLite file: the
header text, its terminator, and 34 further bytes. -/
def stale_sqlite_buf : List Char :=
  "SQLite format 3".data ++ [Char.ofNat 0] ++ List.replicate 34 'x'

/-- A local array of 50 zero bytes. -/
def zero_buf : List Char := List.replicate 50 (Char.ofNat 0)

/-- A sample term whose match string holds quotes and SQL text. -/
def quoted_string_term : QofQueryTerm :=
  { param_path := ["name"]
    pred_data := { how := QofQueryCompare.QOF_COMPARE_EQUAL,
                   value := PredValue.string "x' OR '1'='1" }
    invert := false }

/-- A query for splits, whatever its terms; the sample split handler compiles it. -/
def splits_long_desc : QofQuery :=
  { search_for := "Split", terms := [[long_string_term 1000]] }

/-- The attempts to drop the rows of the schema model, in the order of the rows. -/
def drop_attempts (tables : List (String × DropResult)) : List Event :=
  tables.map (fun row => Event.drop_table row.1 row.2)

/-- The steps of a full rebuild behind the dropping of the tables: refresh of the
schema metadata, the create-tables walk over the registry, a second refresh, the save
steps. -/
def rebuild_steps (registry : List (String × GncGdaDataType_t)) (be : GncGdaBackend)
    (book : QofBook) : List Event :=
  [Event.update_dbms_meta_data] ++ broadcast_events (create_tables_events be) registry ++
    [Event.update_dbms_meta_data] ++ persist_steps book

/-- A sample registry with a handler under the key `book` in lower case and a price
handler of another version, both with a load function, around the book handler. -/
def odd_load_registry : List (String × GncGdaDataType_t) :=
  [("book", { GncGdaDataType_t.blank "book" with initial_load := some 4 }),
   ("Book", book_handler),
   ("Price", { price_handler with version := GNC_GDA_BACKEND_VERSION + 1 })]

/-- A sample `g_path_get_dirname`: the directory of the sample paths. -/
def sample_dirname (path : String) : String :=
  if path = "/tmp/my.db.backup.db" then "/tmp"
  else if path = "/tmp/books.gnucash" then "/tmp"
  else "."

/-- A sample `g_path_get_basename`: the base name of the sample paths. -/
def sample_basename (path : String) : String :=
  if path = "/tmp/my.db.backup.db" then "my.db.backup.db"
  else if path = "/tmp/books.gnucash" then "books.gnucash"
  else path

/-- A sample registry whose only handler for accounts has no commit function. -/
def null_commit_registry : List (String × GncGdaDataType_t) :=
  [("Account", GncGdaDataType_t.blank "Account"), ("Trans", trans_handler)]

/-- The calls made between the world `w` and the later world `w'`. -/
def new_calls (w w' : World) : List Event := w'.trace.drop w.trace.length

/-- The commit event of a claiming registry entry, nothing for an entry without a
commit function. -/
def commit_events (be : GncGdaBackend) (inst : QofInstance) :
    Option (String × GncGdaDataType_t) → List Event
  | some e =>
    match e.2.commit with
    | some fn => [Event.commit e.1 fn be inst]
    | none => []
  | none => []

end GncGda

/-!
# Price import from CSV

A shallow embedding of `src/import-export/price-csv/gnc-price-model.c`.

* The C library (`regexec`, `localtime_r` of the current time, `mktime`, `strtod`) and
  the engine (`string_to_gnc_numeric`, `double_to_gnc_numeric`, the price database)
  are given as functions in an environment.
* Texts are lists of bytes, one `Char` for each byte; messages are the English texts
  (the translation `_()` is the identity).
* A result is `none` when the call has undefined behaviour in C: a write or read
  outside an array, a NULL pointer that is dereferenced, the use or release of memory
  that has been released.
-/

namespace GncPriceModel

/-! ## Data model -/

/-- The enumerator `GNC_PRICE_NONE` of `GncPriceColumnType`. -/
def GNC_PRICE_NONE : Int := 0

/-- The enumerator `GNC_PRICE_DATE`. -/
def GNC_PRICE_DATE : Int := 1

/-- The enumerator `GNC_PRICE_TIME`. -/
def GNC_PRICE_TIME : Int := 2

/-- The enumerator `GNC_PRICE_NAMESPACE`. -/
def GNC_PRICE_NAMESPACE : Int := 3

/-- The enumerator `GNC_PRICE_MNEMONIC`. -/
def GNC_PRICE_MNEMONIC : Int := 4

/-- The enumerator `GNC_PRICE_PRICE`. -/
def GNC_PRICE_PRICE : Int := 5

/-- The enumerator `GNC_PRICE_CURRENCY`. -/
def GNC_PRICE_CURRENCY : Int := 6

/-- The enumerator `GNC_PRICE_TYPE`. -/
def GNC_PRICE_TYPE : Int := 7

/-- The array `date_format_user` (lines 57-63). -/
def date_format_user : List String := ["y-m-d", "d-m-y", "m-d-y", "d-m", "m-d"]

/-- The array `gnc_price_column_type_strs` (lines 66-75). -/
def gnc_price_column_type_strs : List String :=
  ["None", "Date", "Time", "Namespace", "Security", "Price", "Currency", "Type"]

/-- The fields of `struct tm` that the code reads or writes. -/
structure Tm where
  tm_sec : Int
  tm_min : Int
  tm_hour : Int
  tm_mday : Int
  tm_mon : Int
  tm_year : Int
  tm_isdst : Int
deriving DecidableEq, Repr

/-- The engine's `gnc_numeric`: numerator and denominator. -/
structure gnc_numeric where
  num : Int
  denom : Int
deriving DecidableEq, Repr

/-- The struct `GncPriceLine` (lines 96-107); a pointer is `none` when it is NULL.
The field `namespace` of the source is `name_space` here. -/
structure GncPriceLine where
  line_no : Int
  date_format : Int
  name_space : Option String
  mnemonic : Option String
  currency : Option String
  datetm : Option Tm
  timetm : Option Tm
  type : Option String
  value : Option gnc_numeric
deriving DecidableEq, Repr

/-- The functions of the C library and of the engine that the parsing code calls.
`regexec pattern text nmatch` gives the `nmatch` pairs `(rm_so, rm_eo)` that a match
stores in `pmatch`, or `none` when the text does not match (`pmatch` then keeps its
zeros); `localtime_now` is `localtime_r` of the current time; `mktime` gives the
normalised `struct tm` and the time value, -1 for an error; `fresh_tm` is what the
memory of a new `struct tm` holds; `strtod_numeric text` is `none` when `strtod` does
not consume the whole text, `some none` when it does and the value is at most
0.00001 in absolute value, `some (some n)` when it does and `double_to_gnc_numeric`
gives `n`; `string_to_gnc_numeric` gives the parsed number or `none`. -/
structure Env where
  regexec : String → String → Nat → Option (List (Int × Int))
  localtime_now : Tm
  mktime : Tm → Tm × Int
  fresh_tm : Tm
  strtod_numeric : String → Option (Option gnc_numeric)
  string_to_gnc_numeric : String → Option gnc_numeric

/-! ## Parsing of cells -/

/-- The function `gnc_priceline_new` (lines 109-119). -/
def gnc_priceline_new (date_format : Int) : GncPriceLine :=
  { line_no := -1, date_format := date_format, name_space := none, mnemonic := none,
    currency := none, datetm := none, timetm := none, type := none, value := none }

/-- The C library test `isspace` in the C locale. -/
def isspace (c : Char) : Bool :=
  c = ' ' || c = '\t' || c = '\n' || c = '\r' || c.toNat = 11 || c.toNat = 12

/-- The value of a run of decimal digits at the start of a text, read after `acc`. -/
def atoi_digits : List Char → Int → Int
  | [], acc => acc
  | c :: rest, acc =>
    if c.isDigit then atoi_digits rest (acc * 10 + ((c.toNat : Int) - 48)) else acc

/-- The C library function `atoi`: white space, an optional sign, decimal digits.
Values outside the range of `int` are not modelled. -/
def atoi (text : List Char) : Int :=
  match text.dropWhile isspace with
  | '-' :: rest => - atoi_digits rest 0
  | '+' :: rest => atoi_digits rest 0
  | rest => atoi_digits rest 0

/-- The bytes that `memcpy( segment, str + rm_so, mem_length )` copies. -/
def copy_segment (str : String) (m : Int × Int) : List Char :=
  (str.data.drop m.1.toNat).take (m.2 - m.1).toNat

/-- The regular expression of `extract_date_with_year` (line 158). -/
def date_regex_with_year : String :=
  "^ *([0-9]+) *[-/.'] *([0-9]+) *[-/.'] *([0-9]+).*$|^ *([0-9][0-9][0-9][0-9][0-9][0-9][0-9][0-9]).*$"

/-- The regular expression of `extract_date_without_year` (line 302). -/
def date_regex_without_year : String := "^ *([0-9]+) *[-/.'] *([0-9]+).*$"

/-- The regular expression of `extract_time` (line 411). -/
def time_regex : String := "^ *([0-9]{1,2}):([0-9]{1,2}):?([0-9]{0,2})"

/-- The loop of `extract_date_with_year` that fills in the indices of a date without
separators (lines 175-197): `j` traverses `pmatch`, `k` is where the next segment
starts. -/
def fill_indices : List Char → Nat → Int → List (Int × Int) → List (Int × Int)
  | [], _, _, pmatch => pmatch
  | segment_type :: rest, j, k, pmatch =>
    if segment_type = 'y' || segment_type = 'm' || segment_type = 'd' then
      let k' := if segment_type = 'y' then k + 4 else k + 2
      fill_indices rest (j + 1) k' (pmatch.set j (k, k'))
    else fill_indices rest j k pmatch

/-- The handling of the year field in `extract_date_with_year` (lines 228-239): the
value of `tm_year`, years since 1900, for the number `year` read from the field. -/
def tm_year_of_field (year : Int) : Int :=
  if year < 100 then
    if year < 69 then year + 100 else year
  else year - 1900

/-- The loop of `extract_date_with_year` over the date format (lines 210-252): `j`
traverses `pmatch`; the triple holds `orig_year`, `orig_month`, `orig_day`.  The
result is `none` when a segment does not fit the array `date_segment[5]` with its
terminator, or has a negative length. -/
def date_segments_with_year (date_str : String) (pmatch : List (Int × Int)) :
    List Char → Nat → Tm → Int × Int × Int → Option (Tm × (Int × Int × Int))
  | [], _, retvalue, orig => some (retvalue, orig)
  | segment_type :: rest, j, retvalue, (orig_year, orig_month, orig_day) =>
    if segment_type = 'y' || segment_type = 'm' || segment_type = 'd' then
      let m := pmatch.getD j (0, 0)
      let mem_length := m.2 - m.1
      if mem_length < 0 || mem_length > 4 then none
      else
        let date_segment := copy_segment date_str m
        if segment_type = 'y' then
          let tm_year := tm_year_of_field (atoi date_segment)
          date_segments_with_year date_str pmatch rest (j + 1)
            { retvalue with tm_year := tm_year } (tm_year, orig_month, orig_day)
        else if segment_type = 'm' then
          let tm_mon := atoi date_segment - 1
          date_segments_with_year date_str pmatch rest (j + 1)
            { retvalue with tm_mon := tm_mon } (orig_year, tm_mon, orig_day)
        else
          let tm_mday := atoi date_segment
          date_segments_with_year date_str pmatch rest (j + 1)
            { retvalue with tm_mday := tm_mday } (orig_year, orig_month, tm_mday)
    else date_segments_with_year date_str pmatch rest j retvalue
      (orig_year, orig_month, orig_day)

/-- The end of both date functions (lines 259-274 and 363-378): `mktime` on a test
copy, its `tm_isdst` taken over, `mktime` on the value itself, and the comparison
with the original fields.  The result is the return value and the price line. -/
def date_check (env : Env) (retvalue : Tm) (orig : Int × Int × Int)
    (price : GncPriceLine) : Int × GncPriceLine :=
  let test_retvalue := (env.mktime retvalue).1
  let retvalue := { retvalue with tm_isdst := test_retvalue.tm_isdst }
  let retvalue := (env.mktime retvalue).1
  if retvalue.tm_mday = orig.2.2 ∧ retvalue.tm_mon = orig.2.1 ∧ retvalue.tm_year = orig.1 then
    (1, { price with datetm := some retvalue })
  else (0, price)

/-- The function `extract_date_with_year` (lines 139-275) for the format text
`format`, which is `date_format_user[price->date_format]`: the return value and the
price line. -/
def extract_date_with_year (env : Env) (format : String) (date_str : String)
    (price : GncPriceLine) : Option (Int × GncPriceLine) :=
  let pmatch := (env.regexec date_regex_with_year date_str 4).getD
    [(0, 0), (0, 0), (0, 0), (0, 0)]
  if (pmatch.getD 0 (0, 0)).2 = 0 then some (-1, price)
  else
    let pmatch :=
      if (pmatch.getD 1 (0, 0)).1 = -1 then fill_indices format.data 1 0 pmatch else pmatch
    match date_segments_with_year date_str pmatch format.data 1 env.localtime_now
        (-1, -1, -1) with
    | none => none
    | some (retvalue, orig) => some (date_check env retvalue orig price)

/-- The loop of `extract_date_without_year` over the date format (lines 327-356); the
pair holds `orig_month` and `orig_day`.  The result is `none` when a segment has a
negative length. -/
def date_segments_without_year (date_str : String) (pmatch : List (Int × Int)) :
    List Char → Nat → Tm → Int × Int → Option (Tm × (Int × Int))
  | [], _, retvalue, orig => some (retvalue, orig)
  | segment_type :: rest, j, retvalue, (orig_month, orig_day) =>
    if segment_type = 'm' || segment_type = 'd' then
      let m := pmatch.getD j (0, 0)
      let mem_length := m.2 - m.1
      if mem_length < 0 then none
      else
        let date_segment := copy_segment date_str m
        if segment_type = 'm' then
          let tm_mon := atoi date_segment - 1
          date_segments_without_year date_str pmatch rest (j + 1)
            { retvalue with tm_mon := tm_mon } (tm_mon, orig_day)
        else
          let tm_mday := atoi date_segment
          date_segments_without_year date_str pmatch rest (j + 1)
            { retvalue with tm_mday := tm_mday } (orig_month, tm_mday)
    else date_segments_without_year date_str pmatch rest j retvalue (orig_month, orig_day)

/-- The function `extract_date_without_year` (lines 284-379). -/
def extract_date_without_year (env : Env) (format : String) (date_str : String)
    (price : GncPriceLine) : Option (Int × GncPriceLine) :=
  let pmatch := (env.regexec date_regex_without_year date_str 3).getD
    [(0, 0), (0, 0), (0, 0)]
  if (pmatch.getD 0 (0, 0)).2 = 0 then some (0, price)
  else
    let retvalue := env.localtime_now
    let orig_year := retvalue.tm_year
    match date_segments_without_year date_str pmatch format.data 1 retvalue (-1, -1) with
    | none => none
    | some (retvalue, orig) =>
      some (date_check env retvalue (orig_year, orig.1, orig.2) price)

/-- The function `extract_date` (lines 389-395).  The result is `none` when
`date_format` is no index of `date_format_user`. -/
def extract_date (env : Env) (date_str : String) (price : GncPriceLine) :
    Option (Int × GncPriceLine) :=
  if price.date_format < 0 then none
  else
    match date_format_user[price.date_format.toNat]? with
    | none => none
    | some format =>
      if format.data.contains 'y' then extract_date_with_year env format date_str price
      else extract_date_without_year env format date_str price

/-- The loop of `extract_time` over the three groups (lines 425-445).  The result is
`none` when a segment has a negative length. -/
def time_segments (time_str : String) (pmatch : List (Int × Int)) :
    List Nat → Tm → Option Tm
  | [], retvalue => some retvalue
  | j :: rest, retvalue =>
    let m := pmatch.getD j (0, 0)
    let mem_length := m.2 - m.1
    if mem_length > 2 then time_segments time_str pmatch rest retvalue
    else if mem_length < 0 then none
    else
      let segment := copy_segment time_str m
      if j = 1 then time_segments time_str pmatch rest { retvalue with tm_hour := atoi segment }
      else if j = 2 then
        time_segments time_str pmatch rest { retvalue with tm_min := atoi segment }
      else time_segments time_str pmatch rest { retvalue with tm_sec := atoi segment }

/-- The function `extract_time` (lines 397-448). -/
def extract_time (env : Env) (time_str : String) (price : GncPriceLine) :
    Option (Int × GncPriceLine) :=
  let pmatch := (env.regexec time_regex time_str 4).getD [(0, 0), (0, 0), (0, 0), (0, 0)]
  if (pmatch.getD 0 (0, 0)).2 = 0 then some (0, price)
  else
    match time_segments time_str pmatch [1, 2, 3] env.fresh_tm with
    | none => none
    | some retvalue => some (1, { price with timetm := some retvalue })

/-- The function `extract_value` (lines 450-481). -/
def extract_value (env : Env) (str : String) (price : GncPriceLine) : Int × GncPriceLine :=
  let startptr := if str.data.head? = some '=' then String.mk (str.data.drop 1) else str
  match env.strtod_numeric startptr with
  | some (some value) => (1, { price with value := some value })
  | some none => (1, price)
  | none =>
    match env.string_to_gnc_numeric startptr with
    | some numeric => (1, { price with value := some numeric })
    | none => (0, price)

/-- The function `gnc_priceline_set` (lines 490-514): the return value and the price
line. -/
def gnc_priceline_set (env : Env) (price : GncPriceLine) (str : String) (columntype : Int) :
    Option (Int × GncPriceLine) :=
  if columntype = GNC_PRICE_DATE then extract_date env str price
  else if columntype = GNC_PRICE_TIME then extract_time env str price
  else if columntype = GNC_PRICE_NAMESPACE then some (1, { price with name_space := some str })
  else if columntype = GNC_PRICE_MNEMONIC then some (1, { price with mnemonic := some str })
  else if columntype = GNC_PRICE_CURRENCY then some (1, { price with currency := some str })
  else if columntype = GNC_PRICE_TYPE then some (1, { price with type := some str })
  else if columntype = GNC_PRICE_PRICE then some (extract_value env str price)
  else some (0, price)

/-! ## Essential properties of a price line -/

/-- The array `possible_errors` of `gnc_priceline_verify_essentials` (lines 530-537),
in the order of `enum PossibleErrorTypes`. -/
def possible_errors : List String :=
  ["No date column.", "No namespace column.", "No security code column.",
   "No price column.", "Invalid date/time."]

/-- The merge of the time into the date in `gnc_priceline_verify_essentials` (lines
546-558): the price line after it, and whether `INVALID_DATETIME` stays. -/
def merge_time (env : Env) (pl : GncPriceLine) : GncPriceLine × Bool :=
  match pl.datetm, pl.timetm with
  | some datetm, some timetm =>
    let merged := { datetm with tm_hour := timetm.tm_hour, tm_min := timetm.tm_min,
                                tm_sec := timetm.tm_sec, tm_isdst := -1 }
    let r := env.mktime merged
    ({ pl with datetm := some r.1 }, decide (r.2 = -1))
  | _, _ => (pl, false)

/-- The list `errors_list` (lines 541-572): the indices of the entries of
`possible_errors` that have not been erased. -/
def errors_list (pl : GncPriceLine) (invalid_datetime : Bool) : List Nat :=
  (if pl.datetm.isSome then [] else [0]) ++
  (if pl.name_space.isSome then [] else [1]) ++
  (if pl.mnemonic.isSome then [] else [2]) ++
  (if pl.value.isSome then [] else [3]) ++
  (if invalid_datetime then [4] else [])

/-- The array `possible_error_lengths`: `strlen` of each message. -/
def possible_error_lengths (i : Nat) : Nat := (possible_errors.getD i "").utf8ByteSize

/-- The first loop over `errors_list` (lines 585-590): the value of
`full_error_size`. -/
def full_error_size (errors : List Nat) : Nat :=
  errors.foldl (fun size i => size + (possible_error_lengths i + 1)) 0

/-- The second loop over `errors_list` (lines 595-607): the bytes written through
`error_message`, starting from the bytes `written` that precede the pointer; every
turn copies one message and puts a space after it. -/
def write_errors : List Nat → List Char → List Char
  | [], written => written
  | i :: rest, written =>
    write_errors rest
      (written ++ (possible_errors.getD i "").data.take (possible_error_lengths i) ++ [' '])

/-- The buffer that `gnc_priceline_verify_essentials` hands out on failure:
`buffer_size` is the number of bytes asked of `g_new`, `written` the bytes written by
the second loop from the start of the buffer, and `terminator_offset` the offset from
the start of the buffer of the byte that line 608 sets to zero.  The write of the
terminator lies inside the buffer only when `terminator_offset < buffer_size`. -/
structure ErrorBuffer where
  buffer_size : Nat
  written : List Char
  terminator_offset : Nat
deriving DecidableEq, Repr

/-- The C string that a reader of the buffer sees when the byte at
`terminator_offset` holds the terminator. -/
def ErrorBuffer.message (b : ErrorBuffer) : String :=
  String.mk (b.written.take b.terminator_offset)

/-- The function `gnc_priceline_verify_essentials` (lines 523-613): the return value,
the price line, and the buffer stored in `*error` on failure. -/
def gnc_priceline_verify_essentials (env : Env) (pl : GncPriceLine) :
    Int × GncPriceLine × Option ErrorBuffer :=
  let merged := merge_time env pl
  let errors := errors_list pl merged.2
  if errors = [] then (1, merged.1, none)
  else
    let written := write_errors errors []
    (0, merged.1, some { buffer_size := full_error_size errors,
                          written := written,
                          terminator_offset := written.length })

/-! ## Parsing of the table -/

/-- A row of `orig_lines`.  `parsed_len` is a ghost field: the number of cells that
the parser put into the row; these cells lie in the string chunk, and the cells
behind them are error messages from the heap. -/
structure Row where
  cells : List String
  parsed_len : Nat
deriving DecidableEq, Repr

/-- The fields of `GncPriceParseData` that the parsing functions use.  The elements of
`orig_row_lengths` and `column_types` are the bytes that the code reads and writes
through `->data[i]` (`data` is a `gchar*`).  `column_types` is `none` when the
pointer is NULL.  `prices_freed` is a ghost field: `prices` is not NULL and the cells
of the list that it points to have been released. -/
structure GncPriceParseData where
  orig_lines : List Row
  orig_row_lengths : List Int
  orig_max_row : Int
  column_types : Option (List Int)
  error_lines : List Nat
  prices : List GncPriceLine
  prices_freed : Bool
  date_format : Int
  skip_headerline : Bool
deriving DecidableEq, Repr

/-- The function `gnc_price_new_parse_data` (lines 618-635) on the fields above. -/
def gnc_price_new_parse_data : GncPriceParseData :=
  { orig_lines := [], orig_row_lengths := [], orig_max_row := 0, column_types := none,
    error_lines := [], prices := [], prices_freed := false, date_format := -1,
    skip_headerline := false }

/-- The conversion of an `int` to `gchar` (a signed byte). -/
def gchar_of_int (n : Int) : Int := (n + 128) % 256 - 128

/-- The conversion of an `int` to `guint`, as in a comparison of a `guint` with an
`int`. -/
def guint_of_int (n : Int) : Int := n % 4294967296

/-- The largest row length (lines 834-838 and 1076-1080). -/
def max_cols (lines : List Row) : Nat :=
  lines.foldl (fun m line => if m < line.cells.length then line.cells.length else m) 0

/-- The inner loop of the guess (lines 865-873): the index of the first column type
whose text equals the header. -/
def guess_column_type (header : String) : Option Nat :=
  (List.range 8).find? (fun j => gnc_price_column_type_strs.getD j "" = header)

/-- The function `g_array_set_size` followed by the loop that sets the new elements
to `GNC_PRICE_NONE` (lines 894-899 and 1081-1086). -/
def resize_column_types (column_types : List Int) (size : Nat) : List Int :=
  column_types.take size ++ List.replicate (size - column_types.length) GNC_PRICE_NONE

/-- The start of `gnc_price_parse` (lines 791-824): the rows of the table, and the
number of cells of every row stored as a byte. -/
def record_rows (parse_data : GncPriceParseData) (lines : List (List String)) :
    GncPriceParseData :=
  let orig_lines := lines.map (fun cells => ({ cells := cells, parsed_len := cells.length } : Row))
  { parse_data with
    orig_lines := orig_lines,
    orig_row_lengths := orig_lines.map (fun line => gchar_of_int line.cells.length),
    orig_max_row :=
      orig_lines.foldl
        (fun m line => if (line.cells.length : Int) > m then line.cells.length else m) 0 }

/-- The guess of the column types in `gnc_price_parse` (lines 841-879): every column
gets the type whose text is the cell of the first line, or `None`; one guess or more
means that there is a header line. -/
def guess_column_types (parse_data : GncPriceParseData) : GncPriceParseData :=
  let headerline := (parse_data.orig_lines.headD { cells := [], parsed_len := 0 }).cells
  let guesses := (List.range (max_cols parse_data.orig_lines)).map (fun i =>
    if i < headerline.length then guess_column_type (headerline.getD i "") else none)
  let column_types := guesses.map (fun g =>
    match g with
    | some j => gchar_of_int j
    | none => GNC_PRICE_NONE)
  let nbguesses := (guesses.filter Option.isSome).length
  { parse_data with
    column_types := some column_types,
    skip_headerline := if nbguesses > 0 then true else parse_data.skip_headerline }

/-- The end of `gnc_price_parse` (lines 895-900): the first row is removed from
`orig_lines` when the header line is to be skipped. -/
def remove_headerline (parse_data : GncPriceParseData) : GncPriceParseData :=
  if parse_data.skip_headerline && decide (parse_data.orig_lines.length ≠ 0) then
    { parse_data with orig_lines := parse_data.orig_lines.drop 1 }
  else parse_data

/-- The function `gnc_price_parse` (lines 786-903); `lines` is the table that
`stf_parse_general` gives for the file (or the empty table).  The result is `none`
when `column_types` is NULL and is not to be guessed. -/
def gnc_price_parse (parse_data : GncPriceParseData) (lines : List (List String))
    (guessColTypes : Bool) : Option GncPriceParseData :=
  let parse_data := record_rows parse_data lines
  if guessColTypes then some (remove_headerline (guess_column_types parse_data))
  else
    match parse_data.column_types with
    | none => none
    | some column_types =>
      some (remove_headerline { parse_data with
        column_types := some (resize_column_types column_types (max_cols parse_data.orig_lines)) })

/-- What the parsing of one row gives: a price line, or the error message of the
row. -/
inductive RowOutcome where
  | price (price_line : GncPriceLine)
  | error (error_message : String)
deriving DecidableEq, Repr

/-- The loop over the cells of a row (lines 976-992), from cell `j` on: the price
line and the error message of the first cell that `gnc_priceline_set` rejects.  The
result is `none` when `j` is no index of `column_types`, when the column type is no
index of `gnc_price_column_type_strs`, or when `gnc_priceline_set` is undefined. -/
def set_cells (env : Env) (column_types : List Int) :
    List String → Nat → GncPriceLine → Option (GncPriceLine × Option String)
  | [], _, price_line => some (price_line, none)
  | cell :: rest, j, price_line =>
    match column_types[j]? with
    | none => none
    | some columntype =>
      if columntype ≠ GNC_PRICE_NONE then
        match gnc_priceline_set env price_line cell columntype with
        | none => none
        | some (succeeded, price_line) =>
          if succeeded = 0 then
            if columntype < 0 then none
            else
              match gnc_price_column_type_strs[columntype.toNat]? with
              | none => none
              | some name => some (price_line, some (name ++ " column could not be understood."))
          else set_cells env column_types rest (j + 1) price_line
      else set_cells env column_types rest (j + 1) price_line

/-- The parsing of one row in `gnc_price_parse_to_prices` (lines 968-998): the cells,
then the essentials. -/
def parse_row (env : Env) (date_format : Int) (column_types : List Int) (line : Row) :
    Option RowOutcome :=
  match set_cells env column_types line.cells 0 (gnc_priceline_new date_format) with
  | none => none
  | some (_, some error_message) => some (RowOutcome.error error_message)
  | some (price_line, none) =>
    let r := gnc_priceline_verify_essentials env price_line
    if r.1 = 0 then
      some (RowOutcome.error (match r.2.2 with
        | some buffer => buffer.message
        | none => ""))
    else some (RowOutcome.price r.2.1)

/-- The backward search for the insertion spot (lines 1040-1045), from the list cell
with index `k` for `some k`: the index of the cell at which the search stops, or
`none` when it runs off the front of the list. -/
def search_backward (prices : List GncPriceLine) (line_no : Int) : Nat → Option Nat
  | 0 => if (prices.headD (gnc_priceline_new 0)).line_no > line_no then none else some 0
  | k + 1 =>
    if (prices.getD (k + 1) (gnc_priceline_new 0)).line_no > line_no then
      search_backward prices line_no k
    else some (k + 1)

/-- The state of the loop of `gnc_price_parse_to_prices`: the rows, the new
`error_lines`, the list `prices`, and `last_price` as the index of a cell of
`prices`. -/
structure LoopState where
  orig_lines : List Row
  error_lines : List Nat
  prices : List GncPriceLine
  last_price : Option Nat
deriving DecidableEq, Repr

/-- The insertion of a price line into `prices` (lines 1019-1052): the list and the
index of the cell that `last_price` points to afterwards (an insertion in front of
that cell moves it one place up).  The result is `none` when `last_price` points to
no cell of the list. -/
def insert_price (prices : List GncPriceLine) (last_price : Option Nat)
    (price_line : GncPriceLine) : Option (List GncPriceLine × Option Nat) :=
  match last_price with
  | none => some (prices ++ [price_line], some 0)
  | some k =>
    match prices[k]? with
    | none => none
    | some last =>
      if last.line_no ≤ price_line.line_no then
        some (prices ++ [price_line], some (k + 1))
      else
        let spot := match search_backward prices price_line.line_no k with
          | none => 0
          | some s => s + 1
        some (prices.take spot ++ [price_line] ++ prices.drop spot,
              some (if spot ≤ k then k + 1 else k))

/-- One turn of the loop of `gnc_price_parse_to_prices` (lines 966-1053), for row `i`.
The result is `none` when the parsing of the row is undefined, when `i` is no index
of `orig_row_lengths`, when `g_free` is called on a cell of the string chunk, or when
a price is added to a list that has been released. -/
def process_row (env : Env) (date_format : Int) (column_types : List Int)
    (orig_row_lengths : List Int) (prices_freed : Bool) (i : Nat) (st : LoopState) :
    Option LoopState :=
  match st.orig_lines[i]? with
  | none => none
  | some line =>
    match parse_row env date_format column_types line with
    | none => none
    | some (RowOutcome.error error_message) =>
      match orig_row_lengths[i]? with
      | none => none
      | some stored =>
        if (line.cells.length : Int) > guint_of_int stored then
          if line.cells.length > line.parsed_len then
            some { st with
              error_lines := st.error_lines ++ [i],
              orig_lines := st.orig_lines.set i
                { line with cells := line.cells.take (line.cells.length - 1) ++ [error_message] } }
          else none
        else
          some { st with
            error_lines := st.error_lines ++ [i],
            orig_lines := st.orig_lines.set i
              { line with cells := line.cells ++ [error_message] } }
    | some (RowOutcome.price price_line) =>
      if prices_freed then none
      else
        match insert_price st.prices st.last_price { price_line with line_no := i } with
        | none => none
        | some (prices, last_price) =>
          some { st with prices := prices, last_price := last_price }

/-- The loop of `gnc_price_parse_to_prices` over the rows to visit. -/
def process_rows (env : Env) (date_format : Int) (column_types : List Int)
    (orig_row_lengths : List Int) (prices_freed : Bool) :
    List Nat → LoopState → Option LoopState
  | [], st => some st
  | i :: rest, st =>
    match process_row env date_format column_types orig_row_lengths prices_freed i st with
    | none => none
    | some st => process_rows env date_format column_types orig_row_lengths prices_freed rest st

/-- The rows that `gnc_price_parse_to_prices` visits: all rows, or the rows of the old
`error_lines` up to the first entry that is no row index. -/
def visited_rows (parse_data : GncPriceParseData) (redo_errors : Bool) : List Nat :=
  if redo_errors then
    parse_data.error_lines.takeWhile (fun i => decide (i < parse_data.orig_lines.length))
  else List.range parse_data.orig_lines.length

/-- The function `gnc_price_parse_to_prices` (lines 911-1088).  The result is `none`
when `column_types` is NULL, when a list that has been released is released or
traversed again, or when a turn of the loop is undefined. -/
def gnc_price_parse_to_prices (env : Env) (parse_data : GncPriceParseData)
    (redo_errors : Bool) : Option GncPriceParseData :=
  match parse_data.column_types with
  | none => none
  | some column_types =>
    if parse_data.prices_freed && !parse_data.prices.isEmpty then none
    else
      let prices_freed := !redo_errors && !parse_data.prices.isEmpty
      let last_price := if redo_errors then
          (if parse_data.prices.isEmpty then none else some (parse_data.prices.length - 1))
        else none
      match process_rows env parse_data.date_format column_types parse_data.orig_row_lengths
          prices_freed (visited_rows parse_data redo_errors)
          { orig_lines := parse_data.orig_lines, error_lines := [],
            prices := parse_data.prices, last_price := last_price } with
      | none => none
      | some st =>
        some { parse_data with
          orig_lines := st.orig_lines,
          error_lines := st.error_lines,
          prices := st.prices,
          prices_freed := prices_freed,
          column_types := some (resize_column_types column_types (max_cols st.orig_lines)) }

/-! ## Import into the price database -/

/-- The struct `GncPriceImportReport`. -/
structure GncPriceImportReport where
  nb_imported : Int
  nb_skipped : Int
  nb_securities_created : Int
deriving DecidableEq, Repr

/-- The calls that `gnc_price_do_import` makes to the price database; a price is
named by the price line it is made from. -/
inductive DbCall where
  | gnc_pricedb_begin_edit
  | gnc_pricedb_add_price (pl : GncPriceLine)
  | gnc_pricedb_commit_edit
deriving DecidableEq, Repr

/-- The engine as `gnc_price_do_import` uses it, over the state `Book` of the current
book.  `commodity_known book pl` tells whether `gnc_commodity_table_lookup` finds the
commodity of the line; `commodity_insert` is `gnc_commodity_new` followed by
`gnc_commodity_table_insert`; `lookup_at_time book pl` gives the values of the prices
that `gnc_pricedb_lookup_at_time` returns for the commodity, the currency and the
time of the line; `add_price` is `gnc_pricedb_add_price` of the price made from the
line; `gnc_numeric_equal` compares two values. -/
structure Engine (Book : Type) where
  commodity_known : Book → GncPriceLine → Bool
  commodity_insert : Book → GncPriceLine → Book
  lookup_at_time : Book → GncPriceLine → List gnc_numeric
  add_price : Book → GncPriceLine → Book
  gnc_numeric_equal : gnc_numeric → gnc_numeric → Bool

/-- The state of the loop of `gnc_price_do_import`: the book, the report and the calls
made to the price database so far. -/
structure ImportState (Book : Type) where
  book : Book
  report : GncPriceImportReport
  calls : List DbCall

/-- The loop of `gnc_price_do_import` (lines 1115-1176).  The result is `none` when a
line has no date (`mktime` of a NULL pointer) or no value (`*pl->value`). -/
def import_loop {Book : Type} (engine : Engine Book) :
    List GncPriceLine → ImportState Book → Option (ImportState Book)
  | [], st => some st
  | pl :: rest, st =>
    let known := engine.commodity_known st.book pl
    let book := if known then st.book else engine.commodity_insert st.book pl
    let report := if known then st.report
      else { st.report with nb_securities_created := st.report.nb_securities_created + 1 }
    match pl.datetm, pl.value with
    | some _, some value =>
      let existing_prices := engine.lookup_at_time book pl
      let equal := existing_prices.filter (fun v => engine.gnc_numeric_equal value v)
      let report := { report with nb_skipped := report.nb_skipped + equal.length }
      let skipit := !equal.isEmpty
      if skipit then import_loop engine rest { book := book, report := report, calls := st.calls }
      else
        let calls := if report.nb_imported = 0
          then st.calls ++ [DbCall.gnc_pricedb_begin_edit] else st.calls
        import_loop engine rest
          { book := engine.add_price book pl,
            report := { report with nb_imported := report.nb_imported + 1 },
            calls := calls ++ [DbCall.gnc_pricedb_add_price pl] }
    | _, _ => none

/-- The function `gnc_price_do_import` (lines 1106-1183): the book, the report and the
calls to the price database.  A NULL report is `none`; the function then returns at
once. -/
def gnc_price_do_import {Book : Type} (engine : Engine Book) (book : Book)
    (prices : List GncPriceLine) (report : Option GncPriceImportReport) :
    Option (Book × Option GncPriceImportReport × List DbCall) :=
  match report with
  | none => some (book, none, [])
  | some _ =>
    match import_loop engine prices
        { book := book,
          report := { nb_imported := 0, nb_skipped := 0, nb_securities_created := 0 },
          calls := [] } with
    | none => none
    | some st =>
      let calls := if st.report.nb_imported > 0
        then st.calls ++ [DbCall.gnc_pricedb_commit_edit] else st.calls
      some (st.book, some st.report, calls)

/-! ## Definitions used to state the properties -/

/-- The prices are in non-decreasing order of `line_no`. -/
def sorted_by_line_no (prices : List GncPriceLine) : Prop :=
  prices.Pairwise (fun a b => a.line_no ≤ b.line_no)

/-- The turn of the loop of `gnc_price_parse_to_prices` for row `i` of the rows `lines`
is defined (the row parses to a price line or to an error message, and an error message
can be stored). -/
def line_defined (env : Env) (date_format : Int) (column_types : List Int)
    (orig_row_lengths : List Int) (lines : List Row) (i : Nat) : Bool :=
  (process_row env date_format column_types orig_row_lengths false i
    { orig_lines := lines, error_lines := [], prices := [], last_price := none }).isSome

/-- The turn of the loop of `gnc_price_parse_to_prices` for row `i` of the table as it
stands is defined. -/
def row_defined (env : Env) (parse_data : GncPriceParseData) (i : Nat) : Bool :=
  match parse_data.column_types with
  | none => false
  | some column_types =>
    line_defined env parse_data.date_format column_types parse_data.orig_row_lengths
      parse_data.orig_lines i

/-- Row `i` of the rows `lines` parses to a price line: every cell of a column that is
not `None` is understood and the essentials are there. -/
def line_parses (env : Env) (date_format : Int) (column_types : List Int) (lines : List Row)
    (i : Nat) : Bool :=
  match lines[i]? with
  | none => false
  | some line =>
    match parse_row env date_format column_types line with
    | some (RowOutcome.price _) => true
    | _ => false

/-- Row `i` of the table as it stands parses to a price line. -/
def row_parses (env : Env) (parse_data : GncPriceParseData) (i : Nat) : Bool :=
  match parse_data.column_types with
  | none => false
  | some column_types =>
    line_parses env parse_data.date_format column_types parse_data.orig_lines i

/-- The order of `prices` and the place of `last_price` in the loop of
`gnc_price_parse_to_prices`: the prices are sorted and `last_price` points to the last
cell. -/
def loop_invariant (st : LoopState) : Prop :=
  sorted_by_line_no st.prices ∧
  st.last_price = if st.prices = [] then none else some (st.prices.length - 1)

/-- The stored lengths match the rows: for every row, the element of
`orig_row_lengths` at its index is the number of cells that the parser put into it,
that number is below 128, and the row holds at most one cell more. -/
def row_lengths_aligned (lines : List Row) (orig_row_lengths : List Int) : Prop :=
  ∀ (i : Nat) (line : Row), lines[i]? = some line →
    orig_row_lengths[i]? = some (line.parsed_len : Int) ∧ line.parsed_len < 128 ∧
      line.cells.length ≤ line.parsed_len + 1

/-- The book in which `gnc_price_do_import` looks up the existing prices of a line:
the commodity of the line has been created if it was unknown. -/
def book_at_lookup {Book : Type} (engine : Engine Book) (book : Book) (pl : GncPriceLine) :
    Book :=
  if engine.commodity_known book pl then book else engine.commodity_insert book pl

/-- The number of existing prices, among those that the lookup returns for the line,
whose value equals the value of the line. -/
def equal_existing {Book : Type} (engine : Engine Book) (book : Book) (pl : GncPriceLine) :
    Nat :=
  match pl.value with
  | some value =>
    ((engine.lookup_at_time (book_at_lookup engine book pl) pl).filter
      (fun v => engine.gnc_numeric_equal value v)).length
  | none => 0

/-- For each line in turn, the number of existing prices of equal value at the moment
the line is handled; a line with no such price is added to the price database before
the next line is handled. -/
def import_decisions {Book : Type} (engine : Engine Book) :
    List GncPriceLine → Book → List (GncPriceLine × Nat)
  | [], _ => []
  | pl :: rest, book =>
    let n := equal_existing engine book pl
    let book := book_at_lookup engine book pl
    (pl, n) :: import_decisions engine rest (if n = 0 then engine.add_price book pl else book)

/-- The lines that are to be added: those with no existing price of equal value. -/
def added_lines (decisions : List (GncPriceLine × Nat)) : List GncPriceLine :=
  (decisions.filter (fun d => d.2 = 0)).map (fun d => d.1)

/-- The sum of the numbers of existing prices of equal value. -/
def skipped_count : List (GncPriceLine × Nat) → Nat
  | [] => 0
  | d :: rest => d.2 + skipped_count rest

/-! ## Sample data -/

/-- A sample `regexec`: the matches of the three patterns on a few cell texts. -/
def sample_regexec (pattern text : String) (_nmatch : Nat) : Option (List (Int × Int)) :=
  if pattern = date_regex_with_year then
    if text = "2012-03-04" then some [(0, 10), (0, 4), (5, 7), (8, 10)]
    else if text = "12-03-04" then some [(0, 8), (0, 2), (3, 5), (6, 8)]
    else if text = "69-03-04" then some [(0, 8), (0, 2), (3, 5), (6, 8)]
    else if text = "20120304" then some [(0, 8), (-1, -1), (-1, -1), (-1, -1)]
    else none
  else if pattern = date_regex_without_year then
    if text = "04-03" then some [(0, 5), (0, 2), (3, 5)]
    else if text = "2012-03-04" then some [(0, 10), (0, 4), (5, 7)]
    else none
  else if pattern = time_regex then
    if text = "10:30" then some [(0, 5), (0, 2), (3, 5), (5, 5)]
    else none
  else none

/-- A sample environment: the current time is 1 November 2026, `mktime` accepts every
date as it is, and two cell texts are numbers. -/
def sample_env : Env :=
  { regexec := sample_regexec,
    localtime_now := { tm_sec := 0, tm_min := 0, tm_hour := 12, tm_mday := 1, tm_mon := 10,
                       tm_year := 126, tm_isdst := 0 },
    mktime := fun tm => ({ tm with tm_isdst := 0 }, 1),
    fresh_tm := { tm_sec := 0, tm_min := 0, tm_hour := 0, tm_mday := 0, tm_mon := 0,
                  tm_year := 0, tm_isdst := 0 },
    strtod_numeric := fun text =>
      if text = "1.5" then some (some { num := 3, denom := 2 })
      else if text = "0" then some none
      else none,
    string_to_gnc_numeric := fun text =>
      if text = "3/4" then some { num := 3, denom := 4 } else none }

/-- Sample column types: Date, Namespace, Security, Price. -/
def sample_column_types : List Int :=
  [GNC_PRICE_DATE, GNC_PRICE_NAMESPACE, GNC_PRICE_MNEMONIC, GNC_PRICE_PRICE]

/-- A sample parse data before `gnc_price_parse`: the format `y-m-d` and the sample
column types. -/
def sample_parse_data : GncPriceParseData :=
  { gnc_price_new_parse_data with date_format := 0, column_types := some sample_column_types }

/-- A sample price line with a date, a namespace, a security, a price, and no
currency. -/
def sample_line (line_no : Int) : GncPriceLine :=
  { line_no := line_no, date_format := 0, name_space := some "NASDAQ",
    mnemonic := some "AAPL", currency := none,
    datetm := some { tm_sec := 0, tm_min := 0, tm_hour := 12, tm_mday := 4, tm_mon := 2,
                     tm_year := 112, tm_isdst := 0 },
    timetm := none, type := none, value := some { num := 3, denom := 2 } }

/-- A sample parse data before a pass over the error lines: row 1 is a price, rows 0
and 2 have failed before and carry an error message. -/
def sample_redo_data : GncPriceParseData :=
  { gnc_price_new_parse_data with
    orig_lines :=
      [{ cells := ["2012-03-04", "NASDAQ", "AAPL", "1.5", "No price column. "], parsed_len := 4 },
       { cells := ["12-03-04", "NASDAQ", "AAPL", "1.5"], parsed_len := 4 },
       { cells := ["69-03-04", "NASDAQ", "AAPL", "3/4", "No price column. "], parsed_len := 4 }],
    orig_row_lengths := [4, 4, 4],
    orig_max_row := 4,
    column_types := some (sample_column_types ++ [GNC_PRICE_NONE]),
    error_lines := [0, 2],
    prices := [sample_line 1],
    date_format := 0 }

/-- A sample table of one row that parses to a price. -/
def sample_table_one_row : List (List String) := [["2012-03-04", "NASDAQ", "AAPL", "1.5"]]

/-- Sample prices for the import: lines 0 and 1 with the same security and value, line
2 with another security. -/
def sample_prices : List GncPriceLine :=
  [sample_line 0, sample_line 1, { sample_line 2 with mnemonic := some "MSFT" }]

/-- A sample table with a header line of five cells and one data row of three cells. -/
def sample_table_with_header : List (List String) :=
  [["Date", "Namespace", "Security", "Price", "Currency"], ["2012-03-04", "NASDAQ", "AAPL"]]

/-- A sample engine over a book that is the list of the lines added so far: every
commodity is known, and the lookup returns the values of the lines of the book with
the security of the line. -/
def sample_engine : Engine (List GncPriceLine) :=
  { commodity_known := fun _ _ => true,
    commodity_insert := fun book _ => book,
    lookup_at_time := fun book pl =>
      (book.filter (fun q => decide (q.mnemonic = pl.mnemonic))).filterMap (fun q => q.value),
    add_price := fun book pl => book ++ [pl],
    gnc_numeric_equal := fun a b => decide (a.num * b.denom = b.num * a.denom) }

/-- The sample table of one row after `gnc_price_parse` and one pass over all rows. -/
def sample_first_pass : Option GncPriceParseData :=
  (gnc_price_parse sample_parse_data sample_table_one_row false).bind
    (fun pd => gnc_price_parse_to_prices sample_env pd false)

/-- The sample table with a header line after `gnc_price_parse` with a guess of the
column types. -/
def sample_header_parsed : Option GncPriceParseData :=
  gnc_price_parse { gnc_price_new_parse_data with date_format := 0 } sample_table_with_header
    true

/-- The sample table with a header line after `gnc_price_parse`, one pass over all
rows, and `n` passes over the error lines. -/
def sample_header_pass : Nat → Option GncPriceParseData
  | 0 => sample_header_parsed.bind (fun pd => gnc_price_parse_to_prices sample_env pd false)
  | n + 1 => (sample_header_pass n).bind (fun pd => gnc_price_parse_to_prices sample_env pd true)

end GncPriceModel

namespace GncGda

/-! ## Commit protocol: the registry walk -/

theorem foldl_commit_cb_of_ok (registry : List (String × GncGdaDataType_t))
    (s : CommitData) (hok : s.ok = true) :
    ∃ warnings, (∀ m ∈ warnings, LogMsg.is_warning m = true) ∧
      qof_object_foreach_backend registry commit_cb s =
        { s with log := s.log ++ warnings } := by
  induction registry generalizing s with
  | nil => exact ⟨[], by simp, by simp [qof_object_foreach_backend]⟩
  | cons e rest ih =>
    have hstep : ∃ ws, (∀ m ∈ ws, LogMsg.is_warning m = true) ∧
        commit_cb e.1 e.2 s = { s with log := s.log ++ ws } := by
      unfold commit_cb
      by_cases hv : e.2.version ≠ GNC_GDA_BACKEND_VERSION
      · rw [if_pos hv]
        exact ⟨[_], by simp [LogMsg.is_warning], rfl⟩
      · rw [if_neg hv]
        by_cases ht : e.2.type_name ≠ s.inst.e_type
        · rw [if_pos ht]
          exact ⟨[_], by simp [LogMsg.is_warning], rfl⟩
        · rw [if_neg ht, if_pos hok]
          exact ⟨[_], by simp [LogMsg.is_warning], rfl⟩
    obtain ⟨ws, hws, hs⟩ := hstep
    obtain ⟨ws', hws', hr⟩ := ih { s with log := s.log ++ ws } hok
    refine ⟨ws ++ ws', ?_, ?_⟩
    · intro m hm
      rcases List.mem_append.1 hm with h | h
      · exact hws m h
      · exact hws' m h
    · simp only [qof_object_foreach_backend, List.foldl_cons] at hr ⊢
      rw [hs, hr]
      simp [List.append_assoc]

theorem foldl_commit_cb_spec (registry : List (String × GncGdaDataType_t))
    (s : CommitData) (hok : s.ok = false) :
    ∃ warnings, (∀ m ∈ warnings, LogMsg.is_warning m = true) ∧
      qof_object_foreach_backend registry commit_cb s =
        { s with
            ok := (registry.find? (claims_commit s.inst)).isSome
            trace := s.trace ++ commit_events s.be s.inst (registry.find? (claims_commit s.inst))
            log := s.log ++ warnings } := by
  induction registry generalizing s with
  | nil => exact ⟨[], by simp, by simp [qof_object_foreach_backend, commit_events, hok.symm]⟩
  | cons e rest ih =>
    by_cases hc : claims_commit s.inst e = true
    · -- this entry claims the commit
      have hc' := hc
      simp only [claims_commit, Bool.and_eq_true, decide_eq_true_eq] at hc'
      obtain ⟨⟨hv, hcm⟩, ht⟩ := hc'
      obtain ⟨fn, hfn⟩ := Option.isSome_iff_exists.1 hcm
      have hs : commit_cb e.1 e.2 s =
          { s with trace := s.trace ++ [Event.commit e.1 fn s.be s.inst], ok := true } := by
        unfold commit_cb
        rw [if_neg (by simpa using hv), if_neg (by simpa using ht), hok]
        simp [hfn]
      obtain ⟨ws, hws, hr⟩ := foldl_commit_cb_of_ok rest
        { s with trace := s.trace ++ [Event.commit e.1 fn s.be s.inst], ok := true } rfl
      refine ⟨ws, hws, ?_⟩
      simp only [qof_object_foreach_backend, List.foldl_cons] at hr ⊢
      rw [hs, hr]
      simp [List.find?, hc, commit_events, hfn]
    · -- this entry does not claim it
      have hstep : ∃ ws, (∀ m ∈ ws, LogMsg.is_warning m = true) ∧
          commit_cb e.1 e.2 s = { s with log := s.log ++ ws } := by
        unfold commit_cb
        by_cases hv : e.2.version ≠ GNC_GDA_BACKEND_VERSION
        · rw [if_pos hv]
          exact ⟨[_], by simp [LogMsg.is_warning], rfl⟩
        · rw [if_neg hv]
          by_cases ht : e.2.type_name ≠ s.inst.e_type
          · rw [if_pos ht]
            exact ⟨[_], by simp [LogMsg.is_warning], rfl⟩
          · rw [if_neg ht, hok]
            simp only [Bool.false_eq_true, if_false]
            cases hcm : e.2.commit with
            | none => exact ⟨[], by simp, by cases s; simpa using hok⟩
            | some fn =>
              exfalso
              apply hc
              simp only [claims_commit, Bool.and_eq_true, decide_eq_true_eq]
              exact ⟨⟨by simpa using hv, by simp [hcm]⟩, by simpa using ht⟩
      obtain ⟨ws, hws, hs⟩ := hstep
      obtain ⟨ws', hws', hr⟩ := ih { s with log := s.log ++ ws } hok
      refine ⟨ws ++ ws', ?_, ?_⟩
      · intro m hm
        rcases List.mem_append.1 hm with h | h
        · exact hws m h
        · exact hws' m h
      · simp only [qof_object_foreach_backend, List.foldl_cons] at hr ⊢
        rw [hs, hr]
        simp [List.find?, hc, List.append_assoc]

theorem find?_of_filter_eq_singleton {α : Type} (p : α → Bool) (l : List α) (a : α)
    (h : l.filter p = [a]) : l.find? p = some a := by
  induction l with
  | nil => simp at h
  | cons x xs ih =>
    by_cases hx : p x = true
    · rw [List.filter_cons_of_pos hx] at h
      rw [List.find?_cons_of_pos _ hx]
      exact congrArg some (List.cons.inj h).1
    · rw [List.filter_cons_of_neg hx] at h
      rw [List.find?_cons_of_neg _ hx]
      exact ih h

/-! ## Commit protocol: the paths of `gnc_gda_commit_edit` -/

theorem commit_edit_of_loading (registry : List (String × GncGdaDataType_t))
    (w : World) (inst : QofInstance) (hload : w.be.loading = true) :
    gnc_gda_commit_edit registry w inst = (w, inst) := by
  simp [gnc_gda_commit_edit, hload]

theorem commit_edit_of_clean (registry : List (String × GncGdaDataType_t))
    (w : World) (inst : QofInstance) (hload : w.be.loading = false)
    (hd : inst.dirty = false) (hf : inst.destroying = false) :
    gnc_gda_commit_edit registry w inst =
      (if inst.is_trans then
        { w with trace := w.trace ++ [Event.commit_splits w.be inst] } else w, inst) := by
  simp [gnc_gda_commit_edit, hload, hd, hf]

theorem commit_edit_dispatch (registry : List (String × GncGdaDataType_t))
    (w : World) (inst : QofInstance) (hload : w.be.loading = false)
    (hd : inst.dirty = true ∨ inst.destroying = true) :
    ∃ warnings, (∀ m ∈ warnings, LogMsg.is_warning m = true) ∧
      gnc_gda_commit_edit registry w inst =
        match registry.find? (claims_commit inst) with
        | some e =>
          ({ w with
              trace := w.trace ++ commit_events w.be inst (some e) ++
                [Event.instance_mark_clean inst, Event.book_mark_saved w.be.primary_book]
              log := w.log ++ warnings
              book_dirty := qof_book_mark_saved w.be.primary_book w.book_dirty },
           qof_instance_mark_clean inst)
        | none =>
          ({ w with log := w.log ++ warnings ++ [LogMsg.unknown_object_type inst.e_type] },
           inst) := by
  obtain ⟨ws, hws, hfold⟩ := foldl_commit_cb_spec registry
    { ok := false, be := w.be, inst := inst, trace := w.trace, log := w.log } rfl
  refine ⟨ws, hws, ?_⟩
  have hnc : (!inst.dirty && !inst.destroying) = false := by
    rcases hd with h | h <;> simp [h]
  unfold gnc_gda_commit_edit
  simp only [hload, Bool.false_eq_true, if_false, hnc, Bool.false_and]
  have hfold' : qof_object_foreach_backend registry commit_cb
      { ok := false, be := w.be, inst := inst, trace := w.trace, log := w.log } =
      { ok := (registry.find? (claims_commit inst)).isSome, be := w.be, inst := inst,
        trace := w.trace ++ commit_events w.be inst (registry.find? (claims_commit inst)),
        log := w.log ++ ws } := hfold
  rw [hfold']
  cases hfind : registry.find? (claims_commit inst) with
  | none => simp [commit_events]
  | some e => simp

/-! ## Commit protocol: the claims -/

/-- C1: outside bulk-load mode, for an object that is dirty or being destroyed, when
exactly one registry entry (expected version, a commit function, type tag equal to
the type of the object) claims the commit, `gnc_gda_commit_edit` calls the commit
function of that entry with that object and then marks the object and the book; the
calls it adds contain exactly one commit call, so no other handler's commit runs. -/
theorem commit_edit_exactly_one_handler (registry : List (String × GncGdaDataType_t))
    (w : World) (inst : QofInstance) (h : String × GncGdaDataType_t) (fn : Nat)
    (hload : w.be.loading = false)
    (hdirty : inst.dirty = true ∨ inst.destroying = true)
    (hone : registry.filter (claims_commit inst) = [h])
    (hfn : h.2.commit = some fn) :
    (gnc_gda_commit_edit registry w inst).1.trace =
        w.trace ++ [Event.commit h.1 fn w.be inst, Event.instance_mark_clean inst,
          Event.book_mark_saved w.be.primary_book] ∧
      ((gnc_gda_commit_edit registry w inst).1.trace.filter Event.is_commit_call).length =
        (w.trace.filter Event.is_commit_call).length + 1 := by
  obtain ⟨ws, _, hr⟩ := commit_edit_dispatch registry w inst hload hdirty
  rw [find?_of_filter_eq_singleton _ _ _ hone] at hr
  have ht : (gnc_gda_commit_edit registry w inst).1.trace =
      w.trace ++ [Event.commit h.1 fn w.be inst, Event.instance_mark_clean inst,
        Event.book_mark_saved w.be.primary_book] := by
    rw [hr]
    simp [commit_events, hfn]
  refine ⟨ht, ?_⟩
  rw [ht]
  simp [List.filter_append, List.filter, Event.is_commit_call]

/-- Witness of C1: a dirty account against the sample registry. -/
theorem commit_edit_exactly_one_handler_witness :
    (gnc_gda_commit_edit sample_registry World.start dirty_account).1.trace =
        [] ++ [Event.commit "Account" 7 World.start.be dirty_account,
          Event.instance_mark_clean dirty_account, Event.book_mark_saved (some 1)] ∧
      ((gnc_gda_commit_edit sample_registry World.start dirty_account).1.trace.filter
          Event.is_commit_call).length = 0 + 1 :=
  commit_edit_exactly_one_handler sample_registry World.start dirty_account
    ("Account", account_handler) 7 rfl (Or.inl rfl) rfl rfl

/-- C2: outside bulk-load mode, for an object that is dirty or being destroyed whose
type tag equals the type tag of no registry entry, `gnc_gda_commit_edit` logs the
unknown-object-type message as its last message (after warnings of the callback
only), makes no call at all, leaves the object as it is (so a set dirty flag stays
set) and leaves the session and the dirty flag of every book as they are. -/
theorem commit_edit_unknown_type (registry : List (String × GncGdaDataType_t))
    (w : World) (inst : QofInstance)
    (hload : w.be.loading = false)
    (hdirty : inst.dirty = true ∨ inst.destroying = true)
    (hnone : ∀ e ∈ registry, e.2.type_name ≠ inst.e_type) :
    (∃ warnings, (∀ m ∈ warnings, LogMsg.is_warning m = true) ∧
        (gnc_gda_commit_edit registry w inst).1.log =
          w.log ++ warnings ++ [LogMsg.unknown_object_type inst.e_type]) ∧
      (gnc_gda_commit_edit registry w inst).1.trace = w.trace ∧
      (gnc_gda_commit_edit registry w inst).2 = inst ∧
      (inst.dirty = true → (gnc_gda_commit_edit registry w inst).2.dirty = true) ∧
      (gnc_gda_commit_edit registry w inst).1.book_dirty = w.book_dirty ∧
      (gnc_gda_commit_edit registry w inst).1.be = w.be := by
  obtain ⟨ws, hws, hr⟩ := commit_edit_dispatch registry w inst hload hdirty
  have hfind : registry.find? (claims_commit inst) = none := by
    rw [List.find?_eq_none]
    intro e he hc
    simp only [claims_commit, Bool.and_eq_true, decide_eq_true_eq] at hc
    exact hnone e he hc.2
  rw [hfind] at hr
  rw [hr]
  exact ⟨⟨ws, hws, rfl⟩, rfl, rfl, fun hd => hd, rfl, rfl⟩

/-- Witness of C2: a dirty lot against the sample registry, which has no handler for
lots. -/
theorem commit_edit_unknown_type_witness :
    (∃ warnings, (∀ m ∈ warnings, LogMsg.is_warning m = true) ∧
        (gnc_gda_commit_edit sample_registry World.start dirty_lot).1.log =
          [] ++ warnings ++ [LogMsg.unknown_object_type "Lot"]) ∧
      (gnc_gda_commit_edit sample_registry World.start dirty_lot).1.trace = [] ∧
      (gnc_gda_commit_edit sample_registry World.start dirty_lot).2 = dirty_lot ∧
      (dirty_lot.dirty = true →
        (gnc_gda_commit_edit sample_registry World.start dirty_lot).2.dirty = true) ∧
      (gnc_gda_commit_edit sample_registry World.start dirty_lot).1.book_dirty =
        World.start.book_dirty ∧
      (gnc_gda_commit_edit sample_registry World.start dirty_lot).1.be = World.start.be :=
  commit_edit_unknown_type sample_registry World.start dirty_lot rfl (Or.inl rfl)
    (by decide)

/-- C3: for an object that is not dirty, not being destroyed and not a transaction,
`gnc_gda_commit_edit` returns the world and the object as they were: no call (no
commit, no split synchronisation), no message, flags and books untouched; this holds
in every session, in bulk-load mode or not. -/
theorem commit_edit_noop (registry : List (String × GncGdaDataType_t))
    (w : World) (inst : QofInstance)
    (hd : inst.dirty = false) (hf : inst.destroying = false)
    (ht : inst.is_trans = false) :
    gnc_gda_commit_edit registry w inst = (w, inst) := by
  cases hload : w.be.loading with
  | true => exact commit_edit_of_loading registry w inst hload
  | false =>
    rw [commit_edit_of_clean registry w inst hload hd hf]
    simp [ht]

/-- Witness of C3: a clean account against the sample registry. -/
theorem commit_edit_noop_witness :
    gnc_gda_commit_edit sample_registry World.start clean_account =
      (World.start, clean_account) :=
  commit_edit_noop sample_registry World.start clean_account rfl rfl rfl

/-- C4 as stated fails: after a successful commit dispatch the book that owns the
object is still dirty when the session has no attached book, and also when the
attached book is another book; the dirty flag of the object is cleared in both
cases. -/
theorem commit_edit_owning_book_not_marked :
    dirty_account.book = 1 ∧
      (∃ c ∈ (gnc_gda_commit_edit sample_registry World.detached dirty_account).1.trace,
        Event.is_commit_call c = true) ∧
      (gnc_gda_commit_edit sample_registry World.detached dirty_account).2.dirty = false ∧
      (gnc_gda_commit_edit sample_registry World.detached dirty_account).1.book_dirty 1
        = true ∧
      (∃ c ∈ (gnc_gda_commit_edit sample_registry World.other_book dirty_account).1.trace,
        Event.is_commit_call c = true) ∧
      (gnc_gda_commit_edit sample_registry World.other_book dirty_account).2.dirty = false ∧
      (gnc_gda_commit_edit sample_registry World.other_book dirty_account).1.book_dirty 1
        = true := by
  refine ⟨rfl, ⟨Event.commit "Account" 7 World.detached.be dirty_account, ?_, rfl⟩, rfl, rfl,
    ⟨Event.commit "Account" 7 World.other_book.be dirty_account, ?_, rfl⟩, rfl, rfl⟩
  · decide
  · decide

theorem commit_edit_outcome
    (registry : List (String × GncGdaDataType_t)) (w : World) (inst : QofInstance) :
    ∃ calls, (gnc_gda_commit_edit registry w inst).1.trace = w.trace ++ calls ∧
      ((∃ c ∈ calls, Event.is_commit_call c = true) →
        (gnc_gda_commit_edit registry w inst).2.dirty = false ∧
        Event.book_mark_saved w.be.primary_book ∈ calls ∧
        (gnc_gda_commit_edit registry w inst).1.book_dirty =
          qof_book_mark_saved w.be.primary_book w.book_dirty ∧
        (∀ b, w.be.primary_book = some b →
          (gnc_gda_commit_edit registry w inst).1.book_dirty b = false) ∧
        (w.be.primary_book = some inst.book →
          (gnc_gda_commit_edit registry w inst).1.book_dirty inst.book = false)) ∧
      ((¬ ∃ c ∈ calls, Event.is_commit_call c = true) →
        (gnc_gda_commit_edit registry w inst).2 = inst ∧
        (gnc_gda_commit_edit registry w inst).1.book_dirty = w.book_dirty) := by
  cases hload : w.be.loading with
  | true =>
    rw [commit_edit_of_loading registry w inst hload]
    exact ⟨[], by simp, by simp, fun _ => ⟨rfl, rfl⟩⟩
  | false =>
    by_cases hclean : inst.dirty = false ∧ inst.destroying = false
    · rw [commit_edit_of_clean registry w inst hload hclean.1 hclean.2]
      cases inst.is_trans with
      | false => exact ⟨[], by simp, by simp, fun _ => ⟨rfl, rfl⟩⟩
      | true =>
        exact ⟨[Event.commit_splits w.be inst], by simp, by simp [Event.is_commit_call],
          fun _ => ⟨rfl, rfl⟩⟩
    · have hdirty : inst.dirty = true ∨ inst.destroying = true := by
        cases hd : inst.dirty with
        | true => exact Or.inl rfl
        | false =>
          cases hf : inst.destroying with
          | true => exact Or.inr rfl
          | false => exact absurd ⟨hd, hf⟩ hclean
      obtain ⟨ws, _, hr⟩ := commit_edit_dispatch registry w inst hload hdirty
      rw [hr]
      cases hfind : registry.find? (claims_commit inst) with
      | none => exact ⟨[], by simp, by simp, fun _ => ⟨rfl, rfl⟩⟩
      | some e =>
        refine ⟨commit_events w.be inst (some e) ++
          [Event.instance_mark_clean inst, Event.book_mark_saved w.be.primary_book],
          by simp, fun _ => ⟨rfl, by simp, rfl, ?_, ?_⟩, fun hno => ?_⟩
        · intro b hb
          simp [qof_book_mark_saved, hb]
        · intro hb
          simp [qof_book_mark_saved, hb]
        · exfalso
          apply hno
          have hc : claims_commit inst e = true := List.find?_some hfind
          simp only [claims_commit, Bool.and_eq_true, decide_eq_true_eq] at hc
          obtain ⟨fn, hfn⟩ := Option.isSome_iff_exists.1 hc.1.2
          exact ⟨Event.commit e.1 fn w.be inst, by simp [commit_events, hfn], rfl⟩

/-- C4, amended: the calls that `gnc_gda_commit_edit` adds to the trace decide the
outcome.  When they contain a commit call of some handler, the dirty flag of the
object is cleared, `qof_book_mark_saved` is called on the attached book of the
session and that book is no longer dirty (so the book that owns the object is marked
when it is the attached book); when they contain no commit call, the object and the
dirty flag of every book are as before. -/
theorem commit_edit_marks_clean_iff_dispatched
    (registry : List (String × GncGdaDataType_t)) (w : World) (inst : QofInstance) :
    (gnc_gda_commit_edit registry w inst).1.trace =
        w.trace ++ new_calls w (gnc_gda_commit_edit registry w inst).1 ∧
      ((∃ c ∈ new_calls w (gnc_gda_commit_edit registry w inst).1,
          Event.is_commit_call c = true) →
        (gnc_gda_commit_edit registry w inst).2.dirty = false ∧
        Event.book_mark_saved w.be.primary_book ∈
          new_calls w (gnc_gda_commit_edit registry w inst).1 ∧
        (gnc_gda_commit_edit registry w inst).1.book_dirty =
          qof_book_mark_saved w.be.primary_book w.book_dirty ∧
        (∀ b, w.be.primary_book = some b →
          (gnc_gda_commit_edit registry w inst).1.book_dirty b = false) ∧
        (w.be.primary_book = some inst.book →
          (gnc_gda_commit_edit registry w inst).1.book_dirty inst.book = false)) ∧
      ((¬ ∃ c ∈ new_calls w (gnc_gda_commit_edit registry w inst).1,
          Event.is_commit_call c = true) →
        (gnc_gda_commit_edit registry w inst).2 = inst ∧
        (gnc_gda_commit_edit registry w inst).1.book_dirty = w.book_dirty) := by
  obtain ⟨calls, ht, h1, h2⟩ := commit_edit_outcome registry w inst
  have hn : new_calls w (gnc_gda_commit_edit registry w inst).1 = calls := by
    simp [new_calls, ht]
  rw [hn]
  exact ⟨ht, h1, h2⟩

/-- Witness of C4: a dirty account against the sample registry is dispatched, its
dirty flag is cleared and the attached book 1, which owns it, is no longer dirty. -/
theorem commit_edit_marks_clean_iff_dispatched_witness :
    (gnc_gda_commit_edit sample_registry World.start dirty_account).2.dirty = false ∧
      (gnc_gda_commit_edit sample_registry World.start dirty_account).1.book_dirty 1
        = false :=
  have h := (commit_edit_marks_clean_iff_dispatched sample_registry World.start
    dirty_account).2.1 ⟨Event.commit "Account" 7 World.start.be dirty_account,
      by decide, rfl⟩
  ⟨h.1, h.2.2.2.2 rfl⟩

/-- C5: in bulk-load mode `gnc_gda_commit_edit` returns the world and the object as
they were, whatever the type and the flags of the object: no commit call, no split
synchronisation, no change of the dirty flag or of any book. -/
theorem commit_edit_bulk_load (registry : List (String × GncGdaDataType_t))
    (w : World) (inst : QofInstance) (hload : w.be.loading = true) :
    gnc_gda_commit_edit registry w inst = (w, inst) :=
  commit_edit_of_loading registry w inst hload

/-- Witness of C5: a dirty account in bulk-load mode against the sample registry. -/
theorem commit_edit_bulk_load_witness :
    World.loading_start.be.loading = true ∧
      gnc_gda_commit_edit sample_registry World.loading_start dirty_account =
        (World.loading_start, dirty_account) :=
  ⟨rfl, commit_edit_bulk_load sample_registry World.loading_start dirty_account rfl⟩

/-- C6: outside bulk-load mode, for a transaction that is neither dirty nor being
destroyed, `gnc_gda_commit_edit` calls the split synchronisation for it exactly once
and does nothing else (no commit call, object and books untouched); for an object
that is dirty, being destroyed or not a transaction, in any session, the calls added
by `gnc_gda_commit_edit` contain no split synchronisation. -/
theorem commit_edit_split_sync (registry : List (String × GncGdaDataType_t))
    (w : World) (inst : QofInstance) :
    (w.be.loading = false → inst.is_trans = true → inst.dirty = false →
        inst.destroying = false →
        gnc_gda_commit_edit registry w inst =
          ({ w with trace := w.trace ++ [Event.commit_splits w.be inst] }, inst)) ∧
      ((inst.dirty = true ∨ inst.destroying = true ∨ inst.is_trans = false) →
        ∃ calls, (gnc_gda_commit_edit registry w inst).1.trace = w.trace ++ calls ∧
          ∀ c ∈ calls, Event.is_commit_splits c = false) := by
  constructor
  · intro hload ht hd hf
    rw [commit_edit_of_clean registry w inst hload hd hf]
    simp [ht]
  · intro hcase
    cases hload : w.be.loading with
    | true =>
      rw [commit_edit_of_loading registry w inst hload]
      exact ⟨[], by simp, by simp⟩
    | false =>
      by_cases hclean : inst.dirty = false ∧ inst.destroying = false
      · have ht : inst.is_trans = false := by
          rcases hcase with h | h | h
          · rw [hclean.1] at h; cases h
          · rw [hclean.2] at h; cases h
          · exact h
        rw [commit_edit_of_clean registry w inst hload hclean.1 hclean.2, ht]
        exact ⟨[], by simp, by simp⟩
      · have hdirty : inst.dirty = true ∨ inst.destroying = true := by
          cases hd : inst.dirty with
          | true => exact Or.inl rfl
          | false =>
            cases hf : inst.destroying with
            | true => exact Or.inr rfl
            | false => exact absurd ⟨hd, hf⟩ hclean
        obtain ⟨ws, _, hr⟩ := commit_edit_dispatch registry w inst hload hdirty
        rw [hr]
        cases hfind : registry.find? (claims_commit inst) with
        | none => exact ⟨[], by simp, by simp⟩
        | some e =>
          refine ⟨commit_events w.be inst (some e) ++
            [Event.instance_mark_clean inst, Event.book_mark_saved w.be.primary_book],
            by simp, ?_⟩
          intro c hc
          rcases List.mem_append.1 hc with h | h
          · simp only [commit_events] at h
            cases hcm : e.2.commit with
            | none => simp [hcm] at h
            | some fn =>
              simp only [hcm, List.mem_singleton] at h
              rw [h]; rfl
          · simp only [List.mem_cons, List.mem_singleton, List.not_mem_nil, or_false] at h
            rcases h with h | h <;> (rw [h]; rfl)

/-- Witness of C6: a clean transaction gets one split synchronisation, a dirty
account gets none. -/
theorem commit_edit_split_sync_witness :
    gnc_gda_commit_edit sample_registry World.start clean_trans =
        ({ World.start with
            trace := World.start.trace ++ [Event.commit_splits World.start.be clean_trans] },
          clean_trans) ∧
      ∃ calls, (gnc_gda_commit_edit sample_registry World.start dirty_account).1.trace =
          World.start.trace ++ calls ∧ ∀ c ∈ calls, Event.is_commit_splits c = false :=
  ⟨(commit_edit_split_sync sample_registry World.start clean_trans).1 rfl rfl rfl rfl,
   (commit_edit_split_sync sample_registry World.start dirty_account).2 (Or.inl rfl)⟩

/-! ## Query compiler: texts -/

theorem utf8ByteSize_append (s t : String) :
    (s ++ t).utf8ByteSize = s.utf8ByteSize + t.utf8ByteSize := by
  cases s with
  | mk a =>
    cases t with
    | mk b =>
      show String.utf8ByteSize ⟨a ++ b⟩ = _
      simp [String.utf8ByteSize_mk, String.utf8Len_append]

theorem joined_cons (sep a : String) (l : List String) :
    joined sep (a :: l) = a ++ each_preceded sep l := by
  induction l generalizing a with
  | nil => simp [joined, each_preceded]
  | cons b rest ih =>
    rw [joined, ih b, each_preceded]
    simp [String.append_assoc]

theorem param_path_loop_false (path : List String) (sql : String) :
    param_path_loop path false sql = sql ++ each_preceded "." path := by
  induction path generalizing sql with
  | nil => simp [param_path_loop, each_preceded]
  | cons name rest ih =>
    rw [param_path_loop]
    simp only [Bool.false_eq_true, if_false]
    rw [ih, each_preceded]
    simp [String.append_assoc]

theorem param_path_loop_true (path : List String) (sql : String) :
    param_path_loop path true sql = sql ++ joined "." path := by
  cases path with
  | nil => simp [param_path_loop, joined]
  | cons name rest =>
    rw [param_path_loop]
    simp only [if_true]
    rw [param_path_loop_false, joined_cons]
    simp [String.append_assoc]

theorem handle_and_term_append (pTerm : QofQueryTerm) (sql : String) :
    handle_and_term pTerm sql = (term_text pTerm).map (fun text => sql ++ text) := by
  unfold term_text handle_and_term
  simp only [param_path_loop_true]
  cases pTerm.invert <;> cases pTerm.pred_data.value <;> simp [String.append_assoc]

theorem handle_and_term_of_text (pTerm : QofQueryTerm) (sql text : String)
    (h : term_text pTerm = some text) : handle_and_term pTerm sql = some (sql ++ text) := by
  rw [handle_and_term_append, h]; rfl

theorem and_terms_loop_false (terms : List QofQueryTerm) (texts : List String)
    (h : List.Forall₂ (fun t text => term_text t = some text) terms texts) (sql : String) :
    and_terms_loop terms false sql = some (sql ++ each_preceded " AND " texts) := by
  induction h generalizing sql with
  | nil => simp [and_terms_loop, each_preceded]
  | cons ht _ ih =>
    rw [and_terms_loop]
    simp only [Bool.false_eq_true, if_false]
    rw [handle_and_term_of_text _ _ _ ht]
    simp only [ih, each_preceded]
    simp [String.append_assoc]

theorem and_terms_loop_true (terms : List QofQueryTerm) (texts : List String)
    (h : List.Forall₂ (fun t text => term_text t = some text) terms texts) (sql : String) :
    and_terms_loop terms true sql = some (sql ++ joined " AND " texts) := by
  cases h with
  | nil => simp [and_terms_loop, joined]
  | cons ht hrest =>
    rw [and_terms_loop]
    simp only [if_true]
    rw [handle_and_term_of_text _ _ _ ht]
    simp only [and_terms_loop_false _ _ hrest, joined_cons]
    simp [String.append_assoc]

theorem or_terms_loop_false (groups : List (List QofQueryTerm)) (texts : List (List String))
    (h : List.Forall₂ (List.Forall₂ (fun t text => term_text t = some text)) groups texts)
    (sql : String) :
    or_terms_loop groups false sql =
      some (sql ++ each_preceded " OR " (texts.map and_group_text)) := by
  induction h generalizing sql with
  | nil => simp [or_terms_loop, each_preceded]
  | cons hg _ ih =>
    rw [or_terms_loop]
    simp only [Bool.false_eq_true, if_false]
    rw [and_terms_loop_true _ _ hg]
    simp only [ih, List.map_cons, each_preceded, and_group_text, String.append_assoc]

theorem or_terms_loop_true (groups : List (List QofQueryTerm)) (texts : List (List String))
    (h : List.Forall₂ (List.Forall₂ (fun t text => term_text t = some text)) groups texts)
    (sql : String) :
    or_terms_loop groups true sql = some (sql ++ joined " OR " (texts.map and_group_text)) := by
  cases h with
  | nil => simp [or_terms_loop, joined]
  | cons hg hrest =>
    rw [or_terms_loop]
    simp only [if_true]
    rw [and_terms_loop_true _ _ hg]
    simp only [or_terms_loop_false _ _ hrest, List.map_cons, joined_cons, and_group_text,
      String.append_assoc]

theorem length_each_preceded (sep : String) (l : List String) :
    (each_preceded sep l).length = (l.map String.length).sum + sep.length * l.length := by
  induction l with
  | nil => simp [each_preceded]
  | cons a rest ih =>
    simp only [each_preceded, String.length_append, ih, List.map_cons, List.sum_cons,
      List.length_cons]
    ring

theorem length_joined (sep : String) (l : List String) :
    (joined sep l).length = (l.map String.length).sum + sep.length * (l.length - 1) := by
  cases l with
  | nil => simp [joined]
  | cons a rest =>
    rw [joined_cons, String.length_append, length_each_preceded]
    simp only [List.map_cons, List.sum_cons, List.length_cons, Nat.add_sub_cancel]
    ring

/-! ## Query compiler: the registry walk -/

theorem foldl_compile_query_cb_of_none (registry : List (String × GncGdaDataType_t))
    (s : CompileData) (hok : s.ok = false)
    (hnone : ∀ e ∈ registry, claims_compile s.searchObj e = false) :
    ∃ warnings, (∀ m ∈ warnings, LogMsg.is_warning m = true) ∧
      qof_object_foreach_backend registry compile_query_cb s =
        { s with log := s.log ++ warnings } := by
  induction registry generalizing s with
  | nil => exact ⟨[], by simp, by simp [qof_object_foreach_backend]⟩
  | cons e rest ih =>
    have hc : claims_compile s.searchObj e = false := hnone e (List.mem_cons_self _ _)
    have hstep : ∃ ws, (∀ m ∈ ws, LogMsg.is_warning m = true) ∧
        compile_query_cb e.1 e.2 s = { s with log := s.log ++ ws } := by
      unfold compile_query_cb
      by_cases hv : e.2.version ≠ GNC_GDA_BACKEND_VERSION
      · rw [if_pos hv]
        exact ⟨[_], by simp [LogMsg.is_warning], rfl⟩
      · rw [if_neg hv]
        by_cases ht : e.1 ≠ s.searchObj
        · rw [if_pos ht]
          exact ⟨[_], by simp [LogMsg.is_warning], rfl⟩
        · rw [if_neg ht, hok]
          simp only [Bool.false_eq_true, if_false]
          cases hcm : e.2.compile_query with
          | none => exact ⟨[], by simp, by cases s; simpa using hok⟩
          | some fn =>
            exfalso
            have : claims_compile s.searchObj e = true := by
              simp only [claims_compile, Bool.and_eq_true, decide_eq_true_eq]
              exact ⟨⟨by simpa using hv, by simp [hcm]⟩, by simpa using ht⟩
            rw [hc] at this
            cases this
    obtain ⟨ws, hws, hs⟩ := hstep
    obtain ⟨ws', hws', hr⟩ := ih { s with log := s.log ++ ws } hok
      (fun e' he' => hnone e' (List.mem_cons_of_mem _ he'))
    refine ⟨ws ++ ws', ?_, ?_⟩
    · intro m hm
      rcases List.mem_append.1 hm with h | h
      · exact hws m h
      · exact hws' m h
    · simp only [qof_object_foreach_backend, List.foldl_cons] at hr ⊢
      rw [hs, hr]
      simp [List.append_assoc]

/-- The generic fallback: when no registry entry claims the compilation, the result
of `gnc_gda_compile_query` is decided by the generated text and the size of the
buffer; the walk makes no call and logs warnings only. -/
theorem compile_query_generic (registry : List (String × GncGdaDataType_t))
    (w : World) (pQuery : QofQuery)
    (hnone : ∀ e ∈ registry, claims_compile pQuery.search_for e = false) :
    ∃ warnings, (∀ m ∈ warnings, LogMsg.is_warning m = true) ∧
      gnc_gda_compile_query registry w pQuery =
        match generic_sql_text pQuery with
        | none => none
        | some sql =>
          if sql.utf8ByteSize < SQL_BUFFER_SIZE then
            some ({ w with log := w.log ++ warnings },
              { searchObj := pQuery.search_for, pCompiledQuery := CompiledPayload.sql sql })
          else none := by
  obtain ⟨ws, hws, hfold⟩ := foldl_compile_query_cb_of_none registry
    { ok := false, be := w.be, pQuery := pQuery, searchObj := pQuery.search_for,
      pCompiledQuery := none, trace := w.trace, log := w.log } rfl hnone
  refine ⟨ws, hws, ?_⟩
  unfold gnc_gda_compile_query
  simp only [hfold, Bool.false_eq_true, if_false]

theorem generic_sql_text_nil (T : String) :
    generic_sql_text { search_for := T, terms := [] } = some ("SELECT * from " ++ T ++ ";") := by
  simp [generic_sql_text, qof_query_has_terms, convert_search_obj]

theorem generic_sql_text_where (T : String) (groups : List (List QofQueryTerm))
    (texts : List (List String)) (hne : groups ≠ [])
    (h : List.Forall₂ (List.Forall₂ (fun t text => term_text t = some text)) groups texts) :
    generic_sql_text { search_for := T, terms := groups } =
      some ("SELECT * from " ++ T ++ " WHERE " ++ joined " OR " (texts.map and_group_text)) := by
  have hterms : qof_query_has_terms { search_for := T, terms := groups } = true := by
    cases groups with
    | nil => exact absurd rfl hne
    | cons g rest => rfl
  unfold generic_sql_text
  rw [hterms]
  simp only [Bool.not_true, Bool.false_eq_true, if_false, convert_search_obj]
  rw [or_terms_loop_true _ _ h]

theorem claims_compile_false_of (registry : List (String × GncGdaDataType_t)) (T : String)
    (hno : ∀ e ∈ registry, e.1 = T → e.2.version = GNC_GDA_BACKEND_VERSION →
      e.2.compile_query = none) :
    ∀ e ∈ registry, claims_compile T e = false := by
  intro e he
  cases hc : claims_compile T e with
  | false => rfl
  | true =>
    simp only [claims_compile, Bool.and_eq_true, decide_eq_true_eq] at hc
    have := hno e he hc.2 hc.1.1
    rw [this] at hc
    simp at hc

/-! ## Query compiler: the claims -/

/-- C7 as stated fails: for the type tag `Foo` and no terms, with no handler at all,
the generic fallback yields `SELECT * from Foo;`, which ends in a semicolon and is
not the text `SELECT * from Foo`. -/
theorem compile_query_empty_foo :
    (gnc_gda_compile_query [] World.start all_foo).map Prod.snd =
        some { searchObj := "Foo", pCompiledQuery := CompiledPayload.sql "SELECT * from Foo;" } ∧
      (gnc_gda_compile_query [] World.start all_foo).map Prod.snd ≠
        some { searchObj := "Foo", pCompiledQuery := CompiledPayload.sql "SELECT * from Foo" } := by
  constructor <;> decide

/-- C7, amended: for every type tag `T` for which no registry entry of the expected
version provides `compile_query`, and a query without terms, whenever the text fits
the buffer (`T` and the 15 bytes around it stay below 1000 bytes),
`gnc_gda_compile_query` yields exactly the text `SELECT * from T;` with no WHERE
clause, tagged with `T`; it makes no call and changes neither session nor books. -/
theorem compile_query_empty_generic (registry : List (String × GncGdaDataType_t))
    (w : World) (T : String)
    (hno : ∀ e ∈ registry, e.1 = T → e.2.version = GNC_GDA_BACKEND_VERSION →
      e.2.compile_query = none)
    (hfit : T.utf8ByteSize + 15 < SQL_BUFFER_SIZE) :
    ∃ w', gnc_gda_compile_query registry w { search_for := T, terms := [] } =
        some (w', { searchObj := T,
                    pCompiledQuery := CompiledPayload.sql ("SELECT * from " ++ T ++ ";") }) ∧
      w'.trace = w.trace ∧ w'.be = w.be ∧ w'.book_dirty = w.book_dirty := by
  obtain ⟨ws, _, hr⟩ := compile_query_generic registry w { search_for := T, terms := [] }
    (claims_compile_false_of registry T hno)
  rw [generic_sql_text_nil] at hr
  have hsize : ("SELECT * from " ++ T ++ ";").utf8ByteSize < SQL_BUFFER_SIZE := by
    rw [utf8ByteSize_append, utf8ByteSize_append]
    have h1 : ("SELECT * from " : String).utf8ByteSize = 14 := by decide
    have h2 : (";" : String).utf8ByteSize = 1 := by decide
    rw [h1, h2]
    omega
  simp only [hsize, if_true] at hr
  exact ⟨_, hr, rfl, rfl, rfl⟩

/-- Witness of C7, amended: the type tag `Foo` against the sample registry, whose
handlers provide no `compile_query`. -/
theorem compile_query_empty_generic_witness :
    ∃ w', gnc_gda_compile_query sample_registry World.start all_foo =
        some (w', { searchObj := "Foo",
                    pCompiledQuery := CompiledPayload.sql ("SELECT * from " ++ "Foo" ++ ";") }) ∧
      w'.trace = World.start.trace ∧ w'.be = World.start.be ∧
      w'.book_dirty = World.start.book_dirty :=
  compile_query_empty_generic sample_registry World.start "Foo"
    (by
      intro e he _ _
      simp only [sample_registry, List.mem_cons, List.mem_singleton, List.not_mem_nil,
        or_false] at he
      rcases he with rfl | rfl <;> rfl)
    (by decide)

/-- The generic fallback with terms, when the text fits the buffer: for a non-empty
OR-list whose terms render to `texts`, and a target type for which no registry entry
of the expected version provides `compile_query`, the payload is the SELECT prefix,
then ` WHERE `, then the parenthesised AND-groups joined by ` OR `, in the order of
the query; the joined text has one separator less than it has groups. -/
theorem compile_query_where_of_fits (registry : List (String × GncGdaDataType_t))
    (w : World) (T : String) (groups : List (List QofQueryTerm))
    (texts : List (List String))
    (hno : ∀ e ∈ registry, e.1 = T → e.2.version = GNC_GDA_BACKEND_VERSION →
      e.2.compile_query = none)
    (hne : groups ≠ [])
    (htexts : List.Forall₂ (List.Forall₂ (fun t text => term_text t = some text)) groups texts)
    (hfit : ("SELECT * from " ++ T ++ " WHERE " ++
      joined " OR " (texts.map and_group_text)).utf8ByteSize < SQL_BUFFER_SIZE) :
    (∃ w', gnc_gda_compile_query registry w { search_for := T, terms := groups } =
        some (w', { searchObj := T,
                    pCompiledQuery := CompiledPayload.sql ("SELECT * from " ++ T ++ " WHERE " ++
                      joined " OR " (texts.map and_group_text)) }) ∧
      w'.trace = w.trace ∧ w'.be = w.be ∧ w'.book_dirty = w.book_dirty) ∧
    (joined " OR " (texts.map and_group_text)).length =
      ((texts.map and_group_text).map String.length).sum + 4 * (groups.length - 1) := by
  constructor
  · obtain ⟨ws, _, hr⟩ := compile_query_generic registry w { search_for := T, terms := groups }
      (claims_compile_false_of registry T hno)
    rw [generic_sql_text_where T groups texts hne htexts] at hr
    simp only [hfit, if_true] at hr
    exact ⟨_, hr, rfl, rfl, rfl⟩
  · rw [length_joined, List.length_map, List.Forall₂.length_eq htexts]
    rfl

/-- The generic fallback on the sample query with two OR-groups: each AND-group is
parenthesised, its terms are joined by ` AND `, the groups by ` OR `. -/
theorem compile_query_where_sample :
    ∃ w', gnc_gda_compile_query sample_registry World.start splits_two_groups =
        some (w', { searchObj := "Split",
                    pCompiledQuery := CompiledPayload.sql
                      "SELECT * from Split WHERE ((amount>100) AND (count~=1)) OR ((amount>100))" }) ∧
      w'.trace = World.start.trace ∧ w'.be = World.start.be ∧
      w'.book_dirty = World.start.book_dirty :=
  (compile_query_where_of_fits sample_registry World.start "Split"
    [[amount_gt_100, count_neq_1], [amount_gt_100]]
    [["(amount>100)", "(count~=1)"], ["(amount>100)"]]
    (by
      intro e he _ _
      simp only [sample_registry, List.mem_cons, List.mem_singleton, List.not_mem_nil,
        or_false] at he
      rcases he with rfl | rfl <;> rfl)
    (by simp)
    (List.Forall₂.cons
      (List.Forall₂.cons (by decide) (List.Forall₂.cons (by decide) List.Forall₂.nil))
      (List.Forall₂.cons (List.Forall₂.cons (by decide) List.Forall₂.nil) List.Forall₂.nil))
    (by decide)).1

/-- C8 at a failing input: for the accounts whose description equals a text of 1000
letters the generated text needs 1039 bytes and its terminator, the buffer `sql` has
1000, and `gnc_gda_compile_query` does not return a compiled query. -/
theorem compile_query_overruns_buffer :
    (generic_sql_text accounts_long_desc).map String.utf8ByteSize = some 1039 ∧
      SQL_BUFFER_SIZE = 1000 ∧
      (gnc_gda_compile_query [] World.start accounts_long_desc).isNone = true := by
  set_option maxRecDepth 100000 in
  refine ⟨by decide, rfl, by decide⟩

/-- C9: for every property path, inversion flag, comparison and 32-bit or 64-bit
integer operand `v`, `handle_and_term` appends exactly `(`, then `!` when the term is
inverted, then the path joined by `.`, then the operator text, then the decimal
rendering of `v`, then `)`.  The term `amount > 100` is appended as `(amount>100)`,
and the query for it compiles to a text that contains `(amount>100)`. -/
theorem handle_and_term_integer (path : List String) (b : Bool) (how : QofQueryCompare)
    (v : Int) (sql : String) :
    handle_and_term
        { param_path := path, pred_data := { how := how, value := PredValue.gint32 v },
          invert := b } sql =
      some (sql ++ "(" ++ (if b then "!" else "") ++ joined "." path ++ compare_text how ++
        toString v ++ ")") ∧
    handle_and_term
        { param_path := path, pred_data := { how := how, value := PredValue.gint64 v },
          invert := b } sql =
      some (sql ++ "(" ++ (if b then "!" else "") ++ joined "." path ++ compare_text how ++
        toString v ++ ")") ∧
    handle_and_term amount_gt_100 sql = some (sql ++ "(amount>100)") ∧
    (gnc_gda_compile_query [] World.start splits_amount_gt_100).map Prod.snd =
      some { searchObj := "Split",
             pCompiledQuery := CompiledPayload.sql
               ("SELECT * from Split WHERE (" ++ "(amount>100)" ++ ")") } := by
  refine ⟨?_, ?_, ?_, by decide⟩
  · unfold handle_and_term
    simp only [param_path_loop_true]
    cases b <;> simp [String.append_assoc]
  · unfold handle_and_term
    simp only [param_path_loop_true]
    cases b <;> simp [String.append_assoc]
  · rw [handle_and_term_of_text amount_gt_100 sql "(amount>100)" (by decide)]

/-- C10 as stated fails: the not-equal comparison is rendered as `~=`, not as `!=`;
the sample term `count != 1` is appended as `(count~=1)`. -/
theorem handle_and_term_neq_text :
    handle_and_term count_neq_1 "" = some "(count~=1)" ∧
      handle_and_term count_neq_1 "" ≠ some "(count!=1)" ∧
      compare_text QofQueryCompare.QOF_COMPARE_NEQ ≠ "!=" := by
  refine ⟨by decide, by decide, by decide⟩

/-- C10, amended: the six comparison operators less-than, less-or-equal, equal,
greater-than, greater-or-equal and not-equal are rendered as `<`, `<=`, `=`, `>`,
`>=` and `~=` respectively; the six renderings are pairwise distinct; and whenever
`handle_and_term` returns, the rendering of the comparison stands between the
property path and the operand. -/
theorem compare_text_six_operators :
    six_operators.map compare_text = ["<", "<=", "=", ">", ">=", "~="] ∧
      (six_operators.map compare_text).Nodup ∧
      ∀ (pTerm : QofQueryTerm) (sql text : String), handle_and_term pTerm sql = some text →
        ∃ operand, text = sql ++ "(" ++ (if pTerm.invert then "!" else "") ++
          joined "." pTerm.param_path ++ compare_text pTerm.pred_data.how ++ operand ++ ")" := by
  refine ⟨by decide, by decide, ?_⟩
  intro pTerm sql text h
  unfold handle_and_term at h
  simp only [param_path_loop_true] at h
  cases hv : pTerm.pred_data.value with
  | string m =>
    refine ⟨"'" ++ m ++ "'", ?_⟩
    rw [hv] at h; cases hb : pTerm.invert <;> rw [hb] at h <;>
      simp [String.append_assoc] at h ⊢ <;> exact h.symm
  | date d =>
    refine ⟨"'" ++ d.take (4+1+2+1+2) ++ "'", ?_⟩
    rw [hv] at h; cases hb : pTerm.invert <;> rw [hb] at h <;>
      simp [String.append_assoc] at h ⊢ <;> exact h.symm
  | numeric =>
    refine ⟨"numeric", ?_⟩
    rw [hv] at h; cases hb : pTerm.invert <;> rw [hb] at h <;>
      simp [String.append_assoc] at h ⊢ <;> exact h.symm
  | guid g =>
    refine ⟨"'" ++ g ++ "'", ?_⟩
    rw [hv] at h; cases hb : pTerm.invert <;> rw [hb] at h <;>
      simp [String.append_assoc] at h ⊢ <;> exact h.symm
  | gint32 v =>
    refine ⟨toString v, ?_⟩
    rw [hv] at h; cases hb : pTerm.invert <;> rw [hb] at h <;>
      simp [String.append_assoc] at h ⊢ <;> exact h.symm
  | gint64 v =>
    refine ⟨toString v, ?_⟩
    rw [hv] at h; cases hb : pTerm.invert <;> rw [hb] at h <;>
      simp [String.append_assoc] at h ⊢ <;> exact h.symm
  | double d =>
    refine ⟨d, ?_⟩
    rw [hv] at h; cases hb : pTerm.invert <;> rw [hb] at h <;>
      simp [String.append_assoc] at h ⊢ <;> exact h.2.symm
  | boolean v =>
    refine ⟨toString v, ?_⟩
    rw [hv] at h; cases hb : pTerm.invert <;> rw [hb] at h <;>
      simp [String.append_assoc] at h ⊢ <;> exact h.symm
  | other n =>
    rw [hv] at h; simp at h

/-! ## Query execution and release: the registry walk -/

theorem foldl_run_query_cb_of_ok (registry : List (String × GncGdaDataType_t))
    (s : QueryData) (hok : s.ok = true) :
    ∃ warnings, (∀ m ∈ warnings, LogMsg.is_warning m = true) ∧
      qof_object_foreach_backend registry run_query_cb s =
        { s with log := s.log ++ warnings } := by
  induction registry generalizing s with
  | nil => exact ⟨[], by simp, by simp [qof_object_foreach_backend]⟩
  | cons e rest ih =>
    have hstep : ∃ ws, (∀ m ∈ ws, LogMsg.is_warning m = true) ∧
        run_query_cb e.1 e.2 s = { s with log := s.log ++ ws } := by
      unfold run_query_cb
      by_cases hv : e.2.version ≠ GNC_GDA_BACKEND_VERSION
      · rw [if_pos hv]
        exact ⟨[_], by simp [LogMsg.is_warning], rfl⟩
      · rw [if_neg hv]
        by_cases ht : e.1 ≠ s.searchObj
        · rw [if_pos ht]
          exact ⟨[_], by simp [LogMsg.is_warning], rfl⟩
        · rw [if_neg ht, if_pos hok]
          exact ⟨[_], by simp [LogMsg.is_warning], rfl⟩
    obtain ⟨ws, hws, hs⟩ := hstep
    obtain ⟨ws', hws', hr⟩ := ih { s with log := s.log ++ ws } hok
    refine ⟨ws ++ ws', ?_, ?_⟩
    · intro m hm
      rcases List.mem_append.1 hm with h | h
      · exact hws m h
      · exact hws' m h
    · simp only [qof_object_foreach_backend, List.foldl_cons] at hr ⊢
      rw [hs, hr]
      simp [List.append_assoc]

theorem foldl_run_query_cb_spec (registry : List (String × GncGdaDataType_t))
    (s : QueryData) (hok : s.ok = false) :
    ∃ warnings, (∀ m ∈ warnings, LogMsg.is_warning m = true) ∧
      qof_object_foreach_backend registry run_query_cb s =
        { s with
            ok := (registry.find? (claims_run s.searchObj)).isSome
            trace := s.trace ++
              run_events s.be s.pCompiledQuery (registry.find? (claims_run s.searchObj))
            log := s.log ++ warnings } := by
  induction registry generalizing s with
  | nil => exact ⟨[], by simp, by simp [qof_object_foreach_backend, run_events, hok.symm]⟩
  | cons e rest ih =>
    by_cases hc : claims_run s.searchObj e = true
    · have hc' := hc
      simp only [claims_run, Bool.and_eq_true, decide_eq_true_eq] at hc'
      obtain ⟨⟨hv, hcm⟩, ht⟩ := hc'
      obtain ⟨fn, hfn⟩ := Option.isSome_iff_exists.1 hcm
      have hs : run_query_cb e.1 e.2 s =
          { s with trace := s.trace ++ [Event.run_query e.1 fn s.be s.pCompiledQuery],
                   ok := true } := by
        unfold run_query_cb
        rw [if_neg (by simpa using hv), if_neg (by simpa using ht), hok]
        simp [hfn]
      obtain ⟨ws, hws, hr⟩ := foldl_run_query_cb_of_ok rest
        { s with trace := s.trace ++ [Event.run_query e.1 fn s.be s.pCompiledQuery],
                 ok := true } rfl
      refine ⟨ws, hws, ?_⟩
      simp only [qof_object_foreach_backend, List.foldl_cons] at hr ⊢
      rw [hs, hr]
      simp [List.find?, hc, run_events, hfn]
    · have hstep : ∃ ws, (∀ m ∈ ws, LogMsg.is_warning m = true) ∧
          run_query_cb e.1 e.2 s = { s with log := s.log ++ ws } := by
        unfold run_query_cb
        by_cases hv : e.2.version ≠ GNC_GDA_BACKEND_VERSION
        · rw [if_pos hv]
          exact ⟨[_], by simp [LogMsg.is_warning], rfl⟩
        · rw [if_neg hv]
          by_cases ht : e.1 ≠ s.searchObj
          · rw [if_pos ht]
            exact ⟨[_], by simp [LogMsg.is_warning], rfl⟩
          · rw [if_neg ht, hok]
            simp only [Bool.false_eq_true, if_false]
            cases hcm : e.2.run_query with
            | none => exact ⟨[], by simp, by cases s; simpa using hok⟩
            | some fn =>
              exfalso
              apply hc
              simp only [claims_run, Bool.and_eq_true, decide_eq_true_eq]
              exact ⟨⟨by simpa using hv, by simp [hcm]⟩, by simpa using ht⟩
      obtain ⟨ws, hws, hs⟩ := hstep
      obtain ⟨ws', hws', hr⟩ := ih { s with log := s.log ++ ws } hok
      refine ⟨ws ++ ws', ?_, ?_⟩
      · intro m hm
        rcases List.mem_append.1 hm with h | h
        · exact hws m h
        · exact hws' m h
      · simp only [qof_object_foreach_backend, List.foldl_cons] at hr ⊢
        rw [hs, hr]
        simp [List.find?, hc, List.append_assoc]

theorem foldl_free_query_cb_of_ok (registry : List (String × GncGdaDataType_t))
    (s : QueryData) (hok : s.ok = true) :
    ∃ warnings, (∀ m ∈ warnings, LogMsg.is_warning m = true) ∧
      qof_object_foreach_backend registry free_query_cb s =
        { s with log := s.log ++ warnings } := by
  induction registry generalizing s with
  | nil => exact ⟨[], by simp, by simp [qof_object_foreach_backend]⟩
  | cons e rest ih =>
    have hstep : ∃ ws, (∀ m ∈ ws, LogMsg.is_warning m = true) ∧
        free_query_cb e.1 e.2 s = { s with log := s.log ++ ws } := by
      unfold free_query_cb
      by_cases hv : e.2.version ≠ GNC_GDA_BACKEND_VERSION
      · rw [if_pos hv]
        exact ⟨[_], by simp [LogMsg.is_warning], rfl⟩
      · rw [if_neg hv]
        by_cases ht : e.1 ≠ s.searchObj
        · rw [if_pos ht]
          exact ⟨[_], by simp [LogMsg.is_warning], rfl⟩
        · rw [if_neg ht, if_pos hok]
          exact ⟨[_], by simp [LogMsg.is_warning], rfl⟩
    obtain ⟨ws, hws, hs⟩ := hstep
    obtain ⟨ws', hws', hr⟩ := ih { s with log := s.log ++ ws } hok
    refine ⟨ws ++ ws', ?_, ?_⟩
    · intro m hm
      rcases List.mem_append.1 hm with h | h
      · exact hws m h
      · exact hws' m h
    · simp only [qof_object_foreach_backend, List.foldl_cons] at hr ⊢
      rw [hs, hr]
      simp [List.append_assoc]

theorem foldl_free_query_cb_spec (registry : List (String × GncGdaDataType_t))
    (s : QueryData) (hok : s.ok = false) :
    ∃ warnings, (∀ m ∈ warnings, LogMsg.is_warning m = true) ∧
      qof_object_foreach_backend registry free_query_cb s =
        { s with
            ok := (registry.find? (claims_free s.searchObj)).isSome
            trace := s.trace ++
              free_events s.be s.pCompiledQuery (registry.find? (claims_free s.searchObj))
            log := s.log ++ warnings } := by
  induction registry generalizing s with
  | nil => exact ⟨[], by simp, by simp [qof_object_foreach_backend, free_events, hok.symm]⟩
  | cons e rest ih =>
    by_cases hc : claims_free s.searchObj e = true
    · have hc' := hc
      simp only [claims_free, Bool.and_eq_true, decide_eq_true_eq] at hc'
      obtain ⟨⟨hv, hcm⟩, ht⟩ := hc'
      obtain ⟨fn, hfn⟩ := Option.isSome_iff_exists.1 hcm
      have hs : free_query_cb e.1 e.2 s =
          { s with trace := s.trace ++ [Event.free_query e.1 fn s.be s.pCompiledQuery],
                   ok := true } := by
        unfold free_query_cb
        rw [if_neg (by simpa using hv), if_neg (by simpa using ht), hok]
        simp [hfn]
      obtain ⟨ws, hws, hr⟩ := foldl_free_query_cb_of_ok rest
        { s with trace := s.trace ++ [Event.free_query e.1 fn s.be s.pCompiledQuery],
                 ok := true } rfl
      refine ⟨ws, hws, ?_⟩
      simp only [qof_object_foreach_backend, List.foldl_cons] at hr ⊢
      rw [hs, hr]
      simp [List.find?, hc, free_events, hfn]
    · have hstep : ∃ ws, (∀ m ∈ ws, LogMsg.is_warning m = true) ∧
          free_query_cb e.1 e.2 s = { s with log := s.log ++ ws } := by
        unfold free_query_cb
        by_cases hv : e.2.version ≠ GNC_GDA_BACKEND_VERSION
        · rw [if_pos hv]
          exact ⟨[_], by simp [LogMsg.is_warning], rfl⟩
        · rw [if_neg hv]
          by_cases ht : e.1 ≠ s.searchObj
          · rw [if_pos ht]
            exact ⟨[_], by simp [LogMsg.is_warning], rfl⟩
          · rw [if_neg ht, hok]
            simp only [Bool.false_eq_true, if_false]
            cases hcm : e.2.free_query with
            | none => exact ⟨[], by simp, by cases s; simpa using hok⟩
            | some fn =>
              exfalso
              apply hc
              simp only [claims_free, Bool.and_eq_true, decide_eq_true_eq]
              exact ⟨⟨by simpa using hv, by simp [hcm]⟩, by simpa using ht⟩
      obtain ⟨ws, hws, hs⟩ := hstep
      obtain ⟨ws', hws', hr⟩ := ih { s with log := s.log ++ ws } hok
      refine ⟨ws ++ ws', ?_, ?_⟩
      · intro m hm
        rcases List.mem_append.1 hm with h | h
        · exact hws m h
        · exact hws' m h
      · simp only [qof_object_foreach_backend, List.foldl_cons] at hr ⊢
        rw [hs, hr]
        simp [List.find?, hc, List.append_assoc]

theorem foldl_compile_query_cb_of_ok (registry : List (String × GncGdaDataType_t))
    (s : CompileData) (hok : s.ok = true) :
    ∃ warnings, (∀ m ∈ warnings, LogMsg.is_warning m = true) ∧
      qof_object_foreach_backend registry compile_query_cb s =
        { s with log := s.log ++ warnings } := by
  induction registry generalizing s with
  | nil => exact ⟨[], by simp, by simp [qof_object_foreach_backend]⟩
  | cons e rest ih =>
    have hstep : ∃ ws, (∀ m ∈ ws, LogMsg.is_warning m = true) ∧
        compile_query_cb e.1 e.2 s = { s with log := s.log ++ ws } := by
      unfold compile_query_cb
      by_cases hv : e.2.version ≠ GNC_GDA_BACKEND_VERSION
      · rw [if_pos hv]
        exact ⟨[_], by simp [LogMsg.is_warning], rfl⟩
      · rw [if_neg hv]
        by_cases ht : e.1 ≠ s.searchObj
        · rw [if_pos ht]
          exact ⟨[_], by simp [LogMsg.is_warning], rfl⟩
        · rw [if_neg ht, if_pos hok]
          exact ⟨[_], by simp [LogMsg.is_warning], rfl⟩
    obtain ⟨ws, hws, hs⟩ := hstep
    obtain ⟨ws', hws', hr⟩ := ih { s with log := s.log ++ ws } hok
    refine ⟨ws ++ ws', ?_, ?_⟩
    · intro m hm
      rcases List.mem_append.1 hm with h | h
      · exact hws m h
      · exact hws' m h
    · simp only [qof_object_foreach_backend, List.foldl_cons] at hr ⊢
      rw [hs, hr]
      simp [List.append_assoc]

theorem foldl_compile_query_cb_of_some (registry : List (String × GncGdaDataType_t))
    (s : CompileData) (hok : s.ok = false) (e : String × GncGdaDataType_t)
    (fn : QofQuery → Nat)
    (hfind : registry.find? (claims_compile s.searchObj) = some e)
    (hfn : e.2.compile_query = some fn) :
    ∃ warnings, (∀ m ∈ warnings, LogMsg.is_warning m = true) ∧
      qof_object_foreach_backend registry compile_query_cb s =
        { s with
            ok := true
            pCompiledQuery := some (CompiledPayload.native (fn s.pQuery))
            trace := s.trace ++ [Event.compile_query e.1 s.be s.pQuery]
            log := s.log ++ warnings } := by
  induction registry generalizing s with
  | nil => simp at hfind
  | cons x rest ih =>
    by_cases hc : claims_compile s.searchObj x = true
    · rw [List.find?_cons_of_pos _ hc] at hfind
      have hx : x = e := Option.some.inj hfind
      subst hx
      have hc' := hc
      simp only [claims_compile, Bool.and_eq_true, decide_eq_true_eq] at hc'
      obtain ⟨⟨hv, _⟩, ht⟩ := hc'
      have hs : compile_query_cb x.1 x.2 s =
          { s with pCompiledQuery := some (CompiledPayload.native (fn s.pQuery)),
                   trace := s.trace ++ [Event.compile_query x.1 s.be s.pQuery],
                   ok := true } := by
        unfold compile_query_cb
        rw [if_neg (by simpa using hv), if_neg (by simpa using ht), hok]
        simp [hfn]
      obtain ⟨ws, hws, hr⟩ := foldl_compile_query_cb_of_ok rest
        { s with pCompiledQuery := some (CompiledPayload.native (fn s.pQuery)),
                 trace := s.trace ++ [Event.compile_query x.1 s.be s.pQuery],
                 ok := true } rfl
      refine ⟨ws, hws, ?_⟩
      simp only [qof_object_foreach_backend, List.foldl_cons] at hr ⊢
      rw [hs, hr]
    · rw [List.find?_cons_of_neg _ hc] at hfind
      have hstep : ∃ ws, (∀ m ∈ ws, LogMsg.is_warning m = true) ∧
          compile_query_cb x.1 x.2 s = { s with log := s.log ++ ws } := by
        unfold compile_query_cb
        by_cases hv : x.2.version ≠ GNC_GDA_BACKEND_VERSION
        · rw [if_pos hv]
          exact ⟨[_], by simp [LogMsg.is_warning], rfl⟩
        · rw [if_neg hv]
          by_cases ht : x.1 ≠ s.searchObj
          · rw [if_pos ht]
            exact ⟨[_], by simp [LogMsg.is_warning], rfl⟩
          · rw [if_neg ht, hok]
            simp only [Bool.false_eq_true, if_false]
            cases hcm : x.2.compile_query with
            | none => exact ⟨[], by simp, by cases s; simpa using hok⟩
            | some g =>
              exfalso
              apply hc
              simp only [claims_compile, Bool.and_eq_true, decide_eq_true_eq]
              exact ⟨⟨by simpa using hv, by simp [hcm]⟩, by simpa using ht⟩
      obtain ⟨ws, hws, hs⟩ := hstep
      obtain ⟨ws', hws', hr⟩ := ih { s with log := s.log ++ ws } hok hfind
      refine ⟨ws ++ ws', ?_, ?_⟩
      · intro m hm
        rcases List.mem_append.1 hm with h | h
        · exact hws m h
        · exact hws' m h
      · simp only [qof_object_foreach_backend, List.foldl_cons] at hr ⊢
        rw [hs, hr]
        simp [List.append_assoc]

/-- The delegated path: when the first registry entry that claims the compilation
(expected version, a compile function, key equal to the target type) is `e`,
`gnc_gda_compile_query` calls the compile function of `e` once, with the query, and
returns its result as the payload, tagged with the target type; no SQL text is
generated, whatever the terms of the query are. -/
theorem compile_query_delegated (registry : List (String × GncGdaDataType_t))
    (w : World) (pQuery : QofQuery) (e : String × GncGdaDataType_t) (fn : QofQuery → Nat)
    (hfind : registry.find? (claims_compile pQuery.search_for) = some e)
    (hfn : e.2.compile_query = some fn) :
    ∃ warnings, (∀ m ∈ warnings, LogMsg.is_warning m = true) ∧
      gnc_gda_compile_query registry w pQuery =
        some ({ w with trace := w.trace ++ [Event.compile_query e.1 w.be pQuery]
                       log := w.log ++ warnings },
              { searchObj := pQuery.search_for
                pCompiledQuery := CompiledPayload.native (fn pQuery) }) := by
  obtain ⟨ws, hws, hfold⟩ := foldl_compile_query_cb_of_some registry
    { ok := false, be := w.be, pQuery := pQuery, searchObj := pQuery.search_for,
      pCompiledQuery := none, trace := w.trace, log := w.log } rfl e fn hfind hfn
  refine ⟨ws, hws, ?_⟩
  unfold gnc_gda_compile_query
  simp only [hfold, if_true]

/-- The generic fallback returns its text as the payload: when no registry entry of
the expected version provides `compile_query` for the target type, and the fallback
writes the text `sql`, which fits the buffer, the payload is `sql` and the tag is the
target type. -/
theorem compile_query_generic_payload (registry : List (String × GncGdaDataType_t))
    (w : World) (pQuery : QofQuery) (sql : String)
    (hno : ∀ e ∈ registry, e.1 = pQuery.search_for →
      e.2.version = GNC_GDA_BACKEND_VERSION → e.2.compile_query = none)
    (htext : generic_sql_text pQuery = some sql)
    (hfit : sql.utf8ByteSize < SQL_BUFFER_SIZE) :
    ∃ w', gnc_gda_compile_query registry w pQuery =
        some (w', { searchObj := pQuery.search_for,
                    pCompiledQuery := CompiledPayload.sql sql }) ∧
      w'.trace = w.trace := by
  obtain ⟨ws, _, hr⟩ := compile_query_generic registry w pQuery
    (claims_compile_false_of registry pQuery.search_for hno)
  rw [htext] at hr
  simp only [hfit, if_true] at hr
  exact ⟨_, hr, rfl⟩

/-! ## Query compiler: string operands and delegation -/

/-- C11: for every match string `s`, whatever characters it holds, `handle_and_term`
appends `(`, then `!` when the term is inverted, the path joined by `.`, the operator
text, then `'`, the string `s` itself and `'`, then `)`: nothing of `s` is escaped,
doubled or cut.  A match string with quotes and SQL text in it is copied as it is. -/
theorem handle_and_term_string (path : List String) (b : Bool) (how : QofQueryCompare)
    (s : String) (sql : String) :
    handle_and_term
        { param_path := path, pred_data := { how := how, value := PredValue.string s },
          invert := b } sql =
      some (sql ++ "(" ++ (if b then "!" else "") ++ joined "." path ++ compare_text how ++
        "'" ++ s ++ "'" ++ ")") ∧
    handle_and_term quoted_string_term sql = some (sql ++ "(name='x' OR '1'='1')") := by
  refine ⟨?_, ?_⟩
  · unfold handle_and_term
    simp only [param_path_loop_true]
    cases b <;> simp [String.append_assoc]
  · rw [handle_and_term_of_text quoted_string_term sql "(name='x' OR '1'='1')" (by decide)]

/-- C12 at a failing input: the sample registry has no handler with `compile_query`
for accounts, the query for the accounts whose description equals a text of 1000
letters takes the generic fallback, its text does not fit the buffer `sql`, and no
compiled query with the generic text as payload is returned; the same query for
splits, which the sample split handler compiles, is delegated and returns the
native object 42. -/
theorem compile_query_fallback_overruns_buffer :
    (∀ e ∈ sample_registry, claims_compile "Account" e = false) ∧
      (gnc_gda_compile_query sample_registry World.start accounts_long_desc).isNone = true ∧
      (gnc_gda_compile_query load_registry World.start splits_long_desc).map Prod.snd =
        some { searchObj := "Split", pCompiledQuery := CompiledPayload.native 42 } := by
  set_option maxRecDepth 100000 in
  refine ⟨by decide, by decide, by decide⟩

/-! ## Query execution and release: the claims -/

theorem run_query_outcome (registry : List (String × GncGdaDataType_t))
    (w : World) (pQueryInfo : gnc_gda_query_info) (hq : w.be.in_query = false) :
    ∃ warnings, (∀ m ∈ warnings, LogMsg.is_warning m = true) ∧
      gnc_gda_run_query registry w pQueryInfo =
        { be := { w.be with loading := false, in_query := false }
          book_dirty := qof_instance_mark_clean_book w.be.primary_book w.book_dirty
          trace := w.trace ++
            [Event.event_suspend { w.be with loading := true, in_query := true }] ++
            run_events { w.be with loading := true, in_query := true }
              (QueryPointer.payload pQueryInfo.pCompiledQuery)
              (registry.find? (claims_run pQueryInfo.searchObj)) ++
            [Event.event_resume { w.be with loading := false, in_query := false },
             Event.book_instance_mark_clean w.be.primary_book]
          log := w.log ++ warnings } := by
  obtain ⟨ws, hws, hfold⟩ := foldl_run_query_cb_spec registry
    { ok := false, be := { w.be with loading := true, in_query := true },
      pCompiledQuery := QueryPointer.payload pQueryInfo.pCompiledQuery,
      searchObj := pQueryInfo.searchObj,
      trace := w.trace ++ [Event.event_suspend { w.be with loading := true, in_query := true }],
      log := w.log } rfl
  refine ⟨ws, hws, ?_⟩
  unfold gnc_gda_run_query
  simp only [hq, Bool.false_eq_true, if_false, hfold]

theorem free_query_outcome (registry : List (String × GncGdaDataType_t))
    (w : World) (pQueryInfo : gnc_gda_query_info) :
    ∃ warnings, (∀ m ∈ warnings, LogMsg.is_warning m = true) ∧
      gnc_gda_free_query registry w pQueryInfo =
        match registry.find? (claims_free pQueryInfo.searchObj) with
        | some e =>
          { w with
              trace := w.trace ++
                free_events w.be (QueryPointer.query_info pQueryInfo) (some e)
              log := w.log ++ warnings }
        | none =>
          { w with
              trace := w.trace ++
                [Event.g_free (QueryPointer.payload pQueryInfo.pCompiledQuery),
                 Event.g_free (QueryPointer.query_info pQueryInfo)]
              log := w.log ++ warnings } := by
  obtain ⟨ws, hws, hfold⟩ := foldl_free_query_cb_spec registry
    { ok := false, be := w.be, pCompiledQuery := QueryPointer.query_info pQueryInfo,
      searchObj := pQueryInfo.searchObj, trace := w.trace, log := w.log } rfl
  refine ⟨ws, hws, ?_⟩
  unfold gnc_gda_free_query
  simp only [hfold]
  cases hfind : registry.find? (claims_free pQueryInfo.searchObj) with
  | none => simp [free_events]
  | some e => simp

/-- C13: while a query is running (`in_query` set), `gnc_gda_run_query` is rejected
without effect: it logs the warning of its guard and nothing else changes, so no
handler's `run_query` is called, notifications are neither suspended nor resumed, no
book is marked clean, and `loading` and `in_query` are as they were. -/
theorem run_query_rejected_in_query (registry : List (String × GncGdaDataType_t))
    (w : World) (pQueryInfo : gnc_gda_query_info) (hq : w.be.in_query = true) :
    gnc_gda_run_query registry w pQueryInfo =
        { w with log := w.log ++
            [LogMsg.return_if_fail "gnc_gda_run_query" "!be->in_query"] } ∧
      (gnc_gda_run_query registry w pQueryInfo).trace = w.trace ∧
      (gnc_gda_run_query registry w pQueryInfo).be = w.be ∧
      (gnc_gda_run_query registry w pQueryInfo).book_dirty = w.book_dirty := by
  have h : gnc_gda_run_query registry w pQueryInfo =
      { w with log := w.log ++
          [LogMsg.return_if_fail "gnc_gda_run_query" "!be->in_query"] } := by
    simp [gnc_gda_run_query, hq]
  rw [h]
  exact ⟨rfl, rfl, rfl, rfl⟩

/-- Witness of C13: the split query against a session in which a query is running. -/
theorem run_query_rejected_in_query_witness :
    World.querying.be.in_query = true ∧
      (gnc_gda_run_query load_registry World.querying split_query_info).trace =
        World.querying.trace ∧
      (gnc_gda_run_query load_registry World.querying split_query_info).be =
        World.querying.be :=
  ⟨rfl,
   (run_query_rejected_in_query load_registry World.querying split_query_info rfl).2.1,
   (run_query_rejected_in_query load_registry World.querying split_query_info rfl).2.2.1⟩

/-- C14: when no query is running, `gnc_gda_run_query` makes exactly these calls in
this order: `qof_event_suspend` with `loading` and `in_query` already set; the
`run_query` of the first registry entry that claims the target tag (expected version,
a run function, key equal to the tag), with the payload and with both flags set, and
of no other entry; `qof_event_resume` with both flags already cleared; the marking of
the attached book.  On return both flags are cleared, the attached book is not dirty,
and there is one suspend and one resume. -/
theorem run_query_sequence (registry : List (String × GncGdaDataType_t))
    (w : World) (pQueryInfo : gnc_gda_query_info) (hq : w.be.in_query = false) :
    (gnc_gda_run_query registry w pQueryInfo).trace =
        w.trace ++
          [Event.event_suspend { w.be with loading := true, in_query := true }] ++
          run_events { w.be with loading := true, in_query := true }
            (QueryPointer.payload pQueryInfo.pCompiledQuery)
            (registry.find? (claims_run pQueryInfo.searchObj)) ++
          [Event.event_resume { w.be with loading := false, in_query := false },
           Event.book_instance_mark_clean w.be.primary_book] ∧
      (run_events { w.be with loading := true, in_query := true }
          (QueryPointer.payload pQueryInfo.pCompiledQuery)
          (registry.find? (claims_run pQueryInfo.searchObj))).length ≤ 1 ∧
      (∀ c ∈ run_events { w.be with loading := true, in_query := true }
            (QueryPointer.payload pQueryInfo.pCompiledQuery)
            (registry.find? (claims_run pQueryInfo.searchObj)),
        ∃ e fn, e ∈ registry ∧ e.1 = pQueryInfo.searchObj ∧ e.2.run_query = some fn ∧
          c = Event.run_query e.1 fn { w.be with loading := true, in_query := true }
            (QueryPointer.payload pQueryInfo.pCompiledQuery)) ∧
      (gnc_gda_run_query registry w pQueryInfo).be.loading = false ∧
      (gnc_gda_run_query registry w pQueryInfo).be.in_query = false ∧
      (gnc_gda_run_query registry w pQueryInfo).be.primary_book = w.be.primary_book ∧
      (∀ b, w.be.primary_book = some b →
        (gnc_gda_run_query registry w pQueryInfo).book_dirty b = false) := by
  obtain ⟨ws, _, hr⟩ := run_query_outcome registry w pQueryInfo hq
  rw [hr]
  refine ⟨rfl, ?_, ?_, rfl, rfl, rfl, ?_⟩
  · cases hfind : registry.find? (claims_run pQueryInfo.searchObj) with
    | none => simp [run_events]
    | some e =>
      cases hfn : e.2.run_query <;> simp [run_events, hfn]
  · intro c hc
    cases hfind : registry.find? (claims_run pQueryInfo.searchObj) with
    | none => rw [hfind] at hc; simp [run_events] at hc
    | some e =>
      rw [hfind] at hc
      have hcl : claims_run pQueryInfo.searchObj e = true := List.find?_some hfind
      simp only [claims_run, Bool.and_eq_true, decide_eq_true_eq] at hcl
      cases hfn : e.2.run_query with
      | none => simp [run_events, hfn] at hc
      | some fn =>
        simp only [run_events, hfn, List.mem_singleton] at hc
        exact ⟨e, fn, List.mem_of_find?_eq_some hfind, hcl.2, hfn, hc⟩
  · intro b hb
    simp [qof_instance_mark_clean_book, hb]

/-- Witness of C14: the split query against the sample registry with the split
handler: suspend, the run function 21 of the split handler with the native object 42
and both flags set, resume, marking of book 1. -/
theorem run_query_sequence_witness :
    (gnc_gda_run_query load_registry World.start split_query_info).trace =
        [Event.event_suspend { loading := true, in_query := true, primary_book := some 1 },
         Event.run_query "Split" 21
           { loading := true, in_query := true, primary_book := some 1 }
           (QueryPointer.payload (CompiledPayload.native 42)),
         Event.event_resume { loading := false, in_query := false, primary_book := some 1 },
         Event.book_instance_mark_clean (some 1)] ∧
      (gnc_gda_run_query load_registry World.start split_query_info).be.in_query = false :=
  ⟨(run_query_sequence load_registry World.start split_query_info rfl).1,
   (run_query_sequence load_registry World.start split_query_info rfl).2.2.2.2.1⟩

/-- C15 at a failing input: for the sample split handler, which provides
`compile_query`, `run_query` and `free_query`, the compiled query holds the native
object 42 that `compile_query` returned; `gnc_gda_run_query` hands that object to
`run_query`, but `gnc_gda_free_query` hands the record `pQueryInfo` to `free_query`,
not the object.  The free function is called once and nothing is released
generically. -/
theorem free_query_receives_query_info :
    (gnc_gda_compile_query load_registry World.start splits_amount_gt_100).map Prod.snd =
        some split_query_info ∧
      new_calls World.start (gnc_gda_run_query load_registry World.start split_query_info) =
        [Event.event_suspend { loading := true, in_query := true, primary_book := some 1 },
         Event.run_query "Split" 21
           { loading := true, in_query := true, primary_book := some 1 }
           (QueryPointer.payload (CompiledPayload.native 42)),
         Event.event_resume { loading := false, in_query := false, primary_book := some 1 },
         Event.book_instance_mark_clean (some 1)] ∧
      new_calls World.start (gnc_gda_free_query load_registry World.start split_query_info) =
        [Event.free_query "Split" 22 World.start.be
           (QueryPointer.query_info split_query_info)] ∧
      QueryPointer.query_info split_query_info ≠
        QueryPointer.payload (CompiledPayload.native 42) := by
  refine ⟨by decide, by decide, by decide, by decide⟩

/-- The release of a compiled query in general: when a registry entry claims the
release (expected version, a free function, key equal to the target tag), its free
function is called once, with the record `pQueryInfo` as argument, and nothing is
released generically; otherwise the payload and the record are released by
`g_free`. -/
theorem free_query_dispatch (registry : List (String × GncGdaDataType_t))
    (w : World) (pQueryInfo : gnc_gda_query_info) :
    (∀ e fn, registry.find? (claims_free pQueryInfo.searchObj) = some e →
        e.2.free_query = some fn →
        (gnc_gda_free_query registry w pQueryInfo).trace =
          w.trace ++ [Event.free_query e.1 fn w.be (QueryPointer.query_info pQueryInfo)]) ∧
      (registry.find? (claims_free pQueryInfo.searchObj) = none →
        (gnc_gda_free_query registry w pQueryInfo).trace =
          w.trace ++ [Event.g_free (QueryPointer.payload pQueryInfo.pCompiledQuery),
            Event.g_free (QueryPointer.query_info pQueryInfo)]) := by
  obtain ⟨ws, _, hr⟩ := free_query_outcome registry w pQueryInfo
  rw [hr]
  constructor
  · intro e fn hfind hfn
    rw [hfind]
    simp [free_events, hfn]
  · intro hfind
    rw [hfind]

/-! ## Full rebuild -/

theorem foldl_append_singleton {α β : Type} (f : α → β) (l : List α) (acc : List β) :
    l.foldl (fun t a => t ++ [f a]) acc = acc ++ l.map f := by
  induction l generalizing acc with
  | nil => simp
  | cons a rest ih => simp [List.foldl_cons, ih, List.append_assoc]

theorem mem_broadcast_events (f : String × GncGdaDataType_t → List Event)
    (l : List (String × GncGdaDataType_t)) (c : Event) (h : c ∈ broadcast_events f l) :
    ∃ e ∈ l, c ∈ f e := by
  induction l with
  | nil => simp [broadcast_events] at h
  | cons e rest ih =>
    simp only [broadcast_events, List.mem_append] at h
    rcases h with h | h
    · exact ⟨e, List.mem_cons_self _ _, h⟩
    · obtain ⟨e', he', hc⟩ := ih h
      exact ⟨e', List.mem_cons_of_mem _ he', hc⟩

theorem drop_tables_loop_spec (tables : List (String × DropResult)) (w : World) :
    (drop_tables_loop tables w).trace = w.trace ++ drop_attempts tables ∧
      (drop_tables_loop tables w).be = w.be ∧
      (drop_tables_loop tables w).book_dirty = w.book_dirty := by
  induction tables generalizing w with
  | nil => simp [drop_tables_loop, drop_attempts]
  | cons row rest ih =>
    have hstep : drop_tables_loop (row :: rest) w =
        drop_tables_loop rest
          (if row.2 ≠ DropResult.dropped then
            { w with trace := w.trace ++ [Event.drop_table row.1 row.2]
                     log := w.log ++ [LogMsg.unable_to_drop_table row.1] }
          else { w with trace := w.trace ++ [Event.drop_table row.1 row.2] }) := by
      simp only [drop_tables_loop, List.foldl_cons]
    rw [hstep]
    obtain ⟨h1, h2, h3⟩ := ih
      (if row.2 ≠ DropResult.dropped then
        { w with trace := w.trace ++ [Event.drop_table row.1 row.2]
                 log := w.log ++ [LogMsg.unable_to_drop_table row.1] }
      else { w with trace := w.trace ++ [Event.drop_table row.1 row.2] })
    rw [h1, h2, h3]
    by_cases hr : row.2 ≠ DropResult.dropped
    · simp [hr, drop_attempts, List.append_assoc]
    · simp [hr, drop_attempts, List.append_assoc]

theorem foldl_create_tables_cb (registry : List (String × GncGdaDataType_t))
    (s : BroadcastData) :
    (qof_object_foreach_backend registry create_tables_cb s).trace =
        s.trace ++ broadcast_events (create_tables_events s.be) registry ∧
      (qof_object_foreach_backend registry create_tables_cb s).be = s.be := by
  induction registry generalizing s with
  | nil => simp [qof_object_foreach_backend, broadcast_events]
  | cons e rest ih =>
    have hstep : (create_tables_cb e.1 e.2 s).trace = s.trace ++ create_tables_events s.be e ∧
        (create_tables_cb e.1 e.2 s).be = s.be := by
      unfold create_tables_cb create_tables_events
      by_cases hv : e.2.version = GNC_GDA_BACKEND_VERSION
      · cases hc : e.2.create_tables <;> simp [hv]
      · simp [hv]
    obtain ⟨h1, h2⟩ := ih (create_tables_cb e.1 e.2 s)
    simp only [qof_object_foreach_backend, List.foldl_cons] at h1 h2 ⊢
    rw [h1, h2, hstep.1, hstep.2]
    simp [broadcast_events, List.append_assoc]

theorem persist_steps_eq (book : QofBook) (trace : List Event) :
    save_budgets book (save_schedXactions book (save_template_transactions book
      (save_transactions book (save_prices book (save_accounts book trace))))) =
      trace ++ persist_steps book := by
  unfold save_budgets save_schedXactions save_template_transactions save_transactions
    save_prices save_accounts for_each_transaction_save_tx save_account_tree persist_steps
  simp only [foldl_append_singleton]
  cases hd : book.template_descendants with
  | nil => simp [List.append_assoc]
  | cons a rest => simp [foldl_append_singleton, List.append_assoc]

theorem sync_all_trace (registry : List (String × GncGdaDataType_t))
    (w : World) (tables : List (String × DropResult)) (book : QofBook) :
    (gnc_gda_sync_all registry w tables book).trace =
        w.trace ++ (drop_attempts tables ++ rebuild_steps registry w.be book) ∧
      (gnc_gda_sync_all registry w tables book).be = w.be ∧
      (gnc_gda_sync_all registry w tables book).book_dirty = w.book_dirty := by
  obtain ⟨hd1, hd2, hd3⟩ := drop_tables_loop_spec tables w
  unfold gnc_gda_sync_all
  simp only [persist_steps_eq, hd1, hd2, hd3, rebuild_steps]
  rw [(foldl_create_tables_cb registry _).1]
  simp [List.append_assoc]

theorem new_calls_sync_all (registry : List (String × GncGdaDataType_t))
    (w : World) (tables : List (String × DropResult)) (book : QofBook) :
    new_calls w (gnc_gda_sync_all registry w tables book) =
      drop_attempts tables ++ rebuild_steps registry w.be book := by
  rw [new_calls, (sync_all_trace registry w tables book).1]
  simp

theorem rebuild_steps_kinds (registry : List (String × GncGdaDataType_t))
    (be : GncGdaBackend) (book : QofBook) :
    ∀ c ∈ rebuild_steps registry be book,
      Event.is_drop_table c = false ∧ Event.is_save_commodity c = false := by
  intro c hc
  simp only [rebuild_steps, persist_steps, List.mem_append, List.mem_singleton,
    List.mem_map] at hc
  rcases hc with (((hc | hc) | hc) | hc)
  · rw [hc]; exact ⟨rfl, rfl⟩
  · obtain ⟨e, _, hce⟩ := mem_broadcast_events _ _ _ hc
    unfold create_tables_events at hce
    by_cases hv : e.2.version = GNC_GDA_BACKEND_VERSION
    · cases hct : e.2.create_tables with
      | none => simp [hv, hct] at hce
      | some fn =>
        simp only [hv, hct, if_true, List.mem_singleton] at hce
        rw [hce]; exact ⟨rfl, rfl⟩
    · simp [hv] at hce
  · rw [hc]; exact ⟨rfl, rfl⟩
  · rcases hc with (((((⟨a, _, h⟩ | ⟨a, _, h⟩) | ⟨a, _, h⟩) | h) | ⟨a, _, h⟩) | ⟨a, _, h⟩)
    · rw [← h]; exact ⟨rfl, rfl⟩
    · rw [← h]; exact ⟨rfl, rfl⟩
    · rw [← h]; exact ⟨rfl, rfl⟩
    · by_cases ht : book.template_descendants ≠ []
      · simp only [ht, if_true, List.mem_append, List.mem_map, ne_eq, not_false_eq_true] at h
        rcases h with ⟨a, _, h⟩ | ⟨a, _, h⟩
        · rw [← h]; exact ⟨rfl, rfl⟩
        · rw [← h]; exact ⟨rfl, rfl⟩
      · simp [ht] at h
    · rw [← h]; exact ⟨rfl, rfl⟩
    · rw [← h]; exact ⟨rfl, rfl⟩

theorem drop_attempts_kinds (tables : List (String × DropResult)) :
    ∀ c ∈ drop_attempts tables,
      Event.is_drop_table c = true ∧ Event.is_save_commodity c = false := by
  intro c hc
  simp only [drop_attempts, List.mem_map] at hc
  obtain ⟨row, _, h⟩ := hc
  rw [← h]; exact ⟨rfl, rfl⟩

theorem filter_drop_attempts_append (tables : List (String × DropResult))
    (registry : List (String × GncGdaDataType_t)) (be : GncGdaBackend) (book : QofBook) :
    (drop_attempts tables ++ rebuild_steps registry be book).filter Event.is_drop_table =
        drop_attempts tables ∧
      (drop_attempts tables ++ rebuild_steps registry be book).filter
        (fun c => !Event.is_drop_table c) = rebuild_steps registry be book := by
  have h1 : (drop_attempts tables).filter Event.is_drop_table = drop_attempts tables :=
    List.filter_eq_self.2 (fun c hc => (drop_attempts_kinds tables c hc).1)
  have h2 : (rebuild_steps registry be book).filter Event.is_drop_table = [] :=
    List.filter_eq_nil_iff.2 (fun c hc => by
      rw [(rebuild_steps_kinds registry be book c hc).1]; simp)
  have h3 : (drop_attempts tables).filter (fun c => !Event.is_drop_table c) = [] :=
    List.filter_eq_nil_iff.2 (fun c hc => by
      rw [(drop_attempts_kinds tables c hc).1]; simp)
  have h4 : (rebuild_steps registry be book).filter (fun c => !Event.is_drop_table c) =
      rebuild_steps registry be book :=
    List.filter_eq_self.2 (fun c hc => by
      rw [(rebuild_steps_kinds registry be book c hc).1]; rfl)
  rw [List.filter_append, List.filter_append, h1, h2, h3, h4]
  simp

/-- C16 as stated fails: for the sample book, whose template root has one descendant
account, the full rebuild saves that template account between the transactions of
the root tree and the template transaction, a step that the stated order does not
have. -/
theorem sync_all_saves_template_accounts :
    new_calls World.start (gnc_gda_sync_all [] World.start [] sample_book) =
        [Event.update_dbms_meta_data, Event.update_dbms_meta_data,
         Event.save_account 1, Event.save_account 2, Event.save_price 10,
         Event.save_transaction 20, Event.save_transaction 21, Event.save_transaction 22,
         Event.save_account 50, Event.save_transaction 60,
         Event.save_schedxaction 70, Event.save_budget 80] ∧
      new_calls World.start (gnc_gda_sync_all [] World.start [] sample_book) ≠
        [Event.update_dbms_meta_data, Event.update_dbms_meta_data] ++
          stated_persist_steps sample_book ∧
      Event.save_account 50 ∉ stated_persist_steps sample_book := by
  refine ⟨by decide, by decide, by decide⟩

/-- C16, amended: behind the dropping of the tables, the refresh, the create-tables
walk and the second refresh, `gnc_gda_sync_all` performs the save steps in exactly
this order: every descendant account of the root account, every price, every
transaction of the root account tree, then, only when the template root has a
descendant, every descendant account of the template root followed by the template
transactions, then every scheduled transaction, then every budget; each object once
for each time its enumeration lists it.  No commodity is saved.  When the template
root has no descendant this is the stated order. -/
theorem sync_all_persist_order (registry : List (String × GncGdaDataType_t))
    (w : World) (tables : List (String × DropResult)) (book : QofBook) :
    new_calls w (gnc_gda_sync_all registry w tables book) =
        drop_attempts tables ++
          ([Event.update_dbms_meta_data] ++
            broadcast_events (create_tables_events w.be) registry ++
            [Event.update_dbms_meta_data] ++ persist_steps book) ∧
      (∀ c ∈ new_calls w (gnc_gda_sync_all registry w tables book),
        Event.is_save_commodity c = false) ∧
      (book.template_descendants = [] → persist_steps book = stated_persist_steps book) := by
  rw [new_calls_sync_all]
  refine ⟨rfl, ?_, ?_⟩
  · intro c hc
    rcases List.mem_append.1 hc with h | h
    · exact (drop_attempts_kinds tables c h).2
    · exact (rebuild_steps_kinds registry w.be book c h).2
  · intro ht
    simp [persist_steps, stated_persist_steps, ht]

/-- C17: whatever the outcome of each drop, `gnc_gda_sync_all` attempts to drop every
row of the schema model exactly once, in the order of the rows, and its other calls
are the refresh of the schema metadata, the create-tables walk over the registry (one
call for every entry of the expected version that has a `create_tables` function),
the second refresh and the save steps: the same calls, and the same session and
books, as in the run in which every drop succeeds. -/
theorem sync_all_drop_failures_do_not_abort (registry : List (String × GncGdaDataType_t))
    (w : World) (tables : List (String × DropResult)) (book : QofBook) :
    (new_calls w (gnc_gda_sync_all registry w tables book)).filter Event.is_drop_table =
        tables.map (fun row => Event.drop_table row.1 row.2) ∧
      (new_calls w (gnc_gda_sync_all registry w tables book)).filter
          (fun c => !Event.is_drop_table c) =
        [Event.update_dbms_meta_data] ++
          broadcast_events (create_tables_events w.be) registry ++
          [Event.update_dbms_meta_data] ++ persist_steps book ∧
      (new_calls w (gnc_gda_sync_all registry w tables book)).filter
          (fun c => !Event.is_drop_table c) =
        (new_calls w (gnc_gda_sync_all registry w (all_dropped tables) book)).filter
          (fun c => !Event.is_drop_table c) ∧
      (gnc_gda_sync_all registry w tables book).be =
        (gnc_gda_sync_all registry w (all_dropped tables) book).be ∧
      (gnc_gda_sync_all registry w tables book).book_dirty =
        (gnc_gda_sync_all registry w (all_dropped tables) book).book_dirty := by
  rw [new_calls_sync_all, new_calls_sync_all]
  obtain ⟨h1, h2⟩ := filter_drop_attempts_append tables registry w.be book
  obtain ⟨_, h2'⟩ := filter_drop_attempts_append (all_dropped tables) registry w.be book
  obtain ⟨_, hb, hd⟩ := sync_all_trace registry w tables book
  obtain ⟨_, hb', hd'⟩ := sync_all_trace registry w (all_dropped tables) book
  rw [h1, h2, h2', hb, hb', hd, hd']
  exact ⟨rfl, rfl, rfl, rfl, rfl⟩

/-! ## File-acceptance probe -/

theorem sqlite_signature_no_nul :
    ∀ c ∈ sqlite_signature.data, (fun c => decide (c ≠ Char.ofNat 0)) c = true := by
  decide

theorem has_prefix_buf_of_long (buf content : List Char)
    (hlen : sqlite_signature.data.length ≤ content.length) :
    g_str_has_prefix_buf (fread_buf buf 50 content) sqlite_signature =
      sqlite_signature.data.isPrefixOf content := by
  have hsig : sqlite_signature.data.length = 13 := by decide
  have htake : sqlite_signature.data.length ≤ (content.take 50).length := by
    rw [List.length_take, hsig]
    rw [hsig] at hlen
    omega
  rw [Bool.eq_iff_iff]
  unfold g_str_has_prefix_buf fread_buf
  rw [List.isPrefixOf_iff_prefix, List.isPrefixOf_iff_prefix]
  constructor
  · intro h
    have h1 : sqlite_signature.data <+:
        content.take 50 ++ buf.drop (content.take 50).length :=
      List.IsPrefix.trans h (List.takeWhile_prefix _)
    have h2 : sqlite_signature.data <+: content.take 50 :=
      List.prefix_of_prefix_length_le h1 (List.prefix_append _ _) htake
    exact List.IsPrefix.trans h2 (List.take_prefix _ _)
  · intro h
    have h2 : sqlite_signature.data <+: content.take 50 :=
      List.prefix_of_prefix_length_le h (List.take_prefix _ _) htake
    obtain ⟨t, ht⟩ := h2
    rw [← ht, List.append_assoc, List.takeWhile_append_of_pos sqlite_signature_no_nul]
    exact List.prefix_append _ _

/-- The probe where the local array does not matter: a NULL path is rejected; a path
at which no file can be opened is accepted; an existing file at a path without the
suffix `.db` is rejected whatever it holds; an existing file of at least 13 bytes at
a path with the suffix is accepted exactly when it starts with `SQLite format`. -/
theorem check_sqlite_file_of_long (g_fopen : String → Option (List Char))
    (buf : List Char) (path : String) :
    gnc_gda_check_sqlite_file none g_fopen buf = false ∧
      (g_fopen path = none → gnc_gda_check_sqlite_file (some path) g_fopen buf = true) ∧
      (∀ content, g_fopen path = some content → g_str_has_suffix path ".db" = false →
        gnc_gda_check_sqlite_file (some path) g_fopen buf = false) ∧
      (∀ content, g_fopen path = some content → g_str_has_suffix path ".db" = true →
        13 ≤ content.length →
        gnc_gda_check_sqlite_file (some path) g_fopen buf =
          sqlite_signature.data.isPrefixOf content) := by
  refine ⟨rfl, ?_, ?_, ?_⟩
  · intro h
    unfold gnc_gda_check_sqlite_file
    cases g_str_has_suffix path ".db" <;> simp [h]
  · intro content h hs
    simp [gnc_gda_check_sqlite_file, h, hs]
  · intro content h hs hlen
    have hp := has_prefix_buf_of_long buf content (by
      have : sqlite_signature.data.length = 13 := by decide
      omega)
    have hq : g_str_has_prefix_buf (fread_buf buf 50 content) "SQLite format" =
        sqlite_signature.data.isPrefixOf content := hp
    simp only [gnc_gda_check_sqlite_file, h, hs, if_true, hq]
    cases sqlite_signature.data.isPrefixOf content <;> rfl

/-- C18 at a failing input: the path `books.db` has the suffix, the file there exists
and is empty, so its header does not start with the signature; `fread` leaves the
local array as it was, and the probe accepts the file when the array still holds the
header of a genuine SQLite file from an earlier probe, and rejects it when the array
holds zero bytes: the answer is not a function of the path and the file alone. -/
theorem check_sqlite_file_reads_stale_buffer :
    g_str_has_suffix "books.db" ".db" = true ∧
      empty_db_file "books.db" = some [] ∧
      sqlite_signature.data.isPrefixOf ([] : List Char) = false ∧
      stale_sqlite_buf.length = 50 ∧
      gnc_gda_check_sqlite_file (some "books.db") empty_db_file stale_sqlite_buf = true ∧
      gnc_gda_check_sqlite_file (some "books.db") empty_db_file zero_buf = false := by
  refine ⟨by decide, by decide, by decide, by decide, by decide, by decide⟩

/-! ## Connection locator -/

theorem dropWhile_colon_append (a b : List Char) (ha : ∀ c ∈ a, c ≠ ':') :
    (a ++ ':' :: b).dropWhile (fun c => decide (c ≠ ':')) = ':' :: b := by
  rw [List.dropWhile_append_of_pos (fun c hc => by simpa using ha c hc)]
  simp [List.dropWhile]

theorem takeWhile_colon_append (a b : List Char) (ha : ∀ c ∈ a, c ≠ ':') :
    (a ++ ':' :: b).takeWhile (fun c => decide (c ≠ ':')) = a := by
  rw [List.takeWhile_append_of_pos (fun c hc => by simpa using ha c hc)]
  simp [List.takeWhile]

theorem dropWhile_colon_nil (a : List Char) (ha : ∀ c ∈ a, c ≠ ':') :
    a.dropWhile (fun c => decide (c ≠ ':')) = [] := by
  rw [List.dropWhile_eq_nil_iff]
  intro c hc
  simpa using ha c hc

theorem provider_lookup_some (provider_list : List (Option String)) (provider id : String)
    (h : provider_lookup provider_list provider = some id) :
    some id ∈ provider_list ∧ g_ascii_strcasecmp_eq id provider = true := by
  unfold provider_lookup at h
  cases hf : provider_list.find? (fun info =>
      match info with
      | some id => g_ascii_strcasecmp_eq id provider
      | none => false) with
  | none => rw [hf] at h; simp at h
  | some info =>
    rw [hf] at h
    cases info with
    | none => simp at h
    | some id' =>
      have hid : id' = id := by simpa using h
      subst hid
      exact ⟨List.mem_of_find?_eq_some hf, by simpa using List.find?_some hf⟩

theorem session_begin_locator_of_scheme (provider_list : List (Option String))
    (S P T : String) (hS : no_colon S) (hP : no_colon P)
    (hat : P.data.head? ≠ some '@') :
    session_begin_locator provider_list (S ++ "://" ++ P ++ ":" ++ T) =
      some { named_connection := none
             split := some
               { provider := (provider_lookup provider_list P).getD P
                 provider_found := (provider_lookup provider_list P).isSome
                 dsn := T } } := by
  have hdata : (S ++ "://" ++ P ++ ":" ++ T).data =
      S.data ++ ':' :: ('/' :: '/' :: (P.data ++ ':' :: T.data)) := by
    simp only [String.data_append, List.append_assoc]
    rfl
  have hdsn : (P.data ++ ':' :: T.data).head? ≠ some '@' := by
    cases hp : P.data with
    | nil => simp
    | cons c rest =>
      rw [hp] at hat
      simpa using hat
  unfold session_begin_locator
  simp only [hdata, dropWhile_colon_append _ _ hS]
  simp only [List.drop, hdsn, if_false, dropWhile_colon_append _ _ hP,
    takeWhile_colon_append _ _ hP]
  simpa using hat

theorem session_begin_locator_of_plain (provider_list : List (Option String))
    (L : String) (hL : no_colon L) :
    session_begin_locator provider_list L =
      some { named_connection := none
             split := some
               { provider := (provider_lookup provider_list SQLITE_PROVIDER_NAME).getD
                   SQLITE_PROVIDER_NAME
                 provider_found :=
                   (provider_lookup provider_list SQLITE_PROVIDER_NAME).isSome
                 dsn := L } } := by
  unfold session_begin_locator
  simp only [dropWhile_colon_nil _ hL, if_true]

/-- C19 as stated fails: in the locator `gda://sqlite:/tmp/books.db` the text before
`://` is `gda`, yet the provider is `SQLite`, found through the text `sqlite` behind
`://`, and the target is `/tmp/books.db`; and in `gda://oracle:books` the provider
`oracle` is not in the provider list and there is no fall-back to SQLite. -/
theorem session_begin_locator_ignores_scheme :
    session_begin_locator sample_providers "gda://sqlite:/tmp/books.db" =
        some { named_connection := none
               split := some { provider := "SQLite", provider_found := true,
                               dsn := "/tmp/books.db" } } ∧
      session_begin_locator sample_providers "gda://oracle:books" =
        some { named_connection := none
               split := some { provider := "oracle", provider_found := false,
                               dsn := "books" } } := by
  refine ⟨by decide, by decide⟩

/-- C19, amended: for every locator of the form `S://P:T`, where `S` and `P` hold no
colon and `P` does not begin with `@`, the provider requested is `P`, the text
between `://` and the next colon, the provider used is the entry of the provider
list that equals `P` up to the case of ASCII letters, when there is one, and the
target is `T`; the text `S` before `://` is not used.  For every locator without any
colon the provider requested is the default `SQLite` and the target is the whole
locator. -/
theorem session_begin_locator_split (provider_list : List (Option String))
    (S P T L : String) (hS : no_colon S) (hP : no_colon P)
    (hat : P.data.head? ≠ some '@') (hL : no_colon L) :
    session_begin_locator provider_list (S ++ "://" ++ P ++ ":" ++ T) =
        some { named_connection := none
               split := some
                 { provider := (provider_lookup provider_list P).getD P
                   provider_found := (provider_lookup provider_list P).isSome
                   dsn := T } } ∧
      (∀ id, provider_lookup provider_list P = some id →
        some id ∈ provider_list ∧ g_ascii_strcasecmp_eq id P = true) ∧
      session_begin_locator provider_list L =
        some { named_connection := none
               split := some
                 { provider := (provider_lookup provider_list SQLITE_PROVIDER_NAME).getD
                     SQLITE_PROVIDER_NAME
                   provider_found :=
                     (provider_lookup provider_list SQLITE_PROVIDER_NAME).isSome
                   dsn := L } } :=
  ⟨session_begin_locator_of_scheme provider_list S P T hS hP hat,
   fun id h => provider_lookup_some provider_list P id h,
   session_begin_locator_of_plain provider_list L hL⟩

/-- Witness of C19, amended: the locators `gda://sqlite:/tmp/books.db` and
`books.db` against the sample provider list. -/
theorem session_begin_locator_split_witness :
    session_begin_locator sample_providers ("gda" ++ "://" ++ "sqlite" ++ ":" ++ "/tmp/books.db") =
        some { named_connection := none
               split := some
                 { provider := (provider_lookup sample_providers "sqlite").getD "sqlite"
                   provider_found := (provider_lookup sample_providers "sqlite").isSome
                   dsn := "/tmp/books.db" } } ∧
      session_begin_locator sample_providers "books.db" =
        some { named_connection := none
               split := some
                 { provider := (provider_lookup sample_providers SQLITE_PROVIDER_NAME).getD
                     SQLITE_PROVIDER_NAME
                   provider_found :=
                     (provider_lookup sample_providers SQLITE_PROVIDER_NAME).isSome
                   dsn := "books.db" } } :=
  have h := session_begin_locator_split sample_providers "gda" "sqlite" "/tmp/books.db"
    "books.db" (by unfold no_colon; decide) (by unfold no_colon; decide) (by decide)
    (by unfold no_colon; decide)
  ⟨h.1, h.2.2⟩

/-! ## Initial load -/

theorem foldl_initial_load_cb (registry : List (String × GncGdaDataType_t))
    (s : BroadcastData) :
    (qof_object_foreach_backend registry initial_load_cb s).trace =
        s.trace ++ broadcast_events (initial_load_events s.be) registry ∧
      (qof_object_foreach_backend registry initial_load_cb s).be = s.be := by
  induction registry generalizing s with
  | nil => simp [qof_object_foreach_backend, broadcast_events]
  | cons e rest ih =>
    have hstep : (initial_load_cb e.1 e.2 s).trace = s.trace ++ initial_load_events s.be e ∧
        (initial_load_cb e.1 e.2 s).be = s.be := by
      unfold initial_load_cb initial_load_events
      by_cases hv : e.2.version = GNC_GDA_BACKEND_VERSION
      · cases hb : g_ascii_strcasecmp_eq e.1 GNC_ID_BOOK with
        | true => simp [hv]
        | false => cases hc : e.2.initial_load <;> simp [hv]
      · simp [hv]
    obtain ⟨h1, h2⟩ := ih (initial_load_cb e.1 e.2 s)
    simp only [qof_object_foreach_backend, List.foldl_cons] at h1 h2 ⊢
    rw [h1, h2, hstep.1, hstep.2]
    simp [broadcast_events, List.append_assoc]

theorem load_outcome (registry : List (String × GncGdaDataType_t))
    (w : World) (book : Nat) (pData : GncGdaDataType_t)
    (hnone : w.be.primary_book = none)
    (hbook : qof_object_lookup_backend GNC_ID_BOOK registry = some pData) :
    ∃ w', gnc_gda_load registry w book = some w' ∧
      w'.trace = w.trace ++
        (book_load_events { w.be with primary_book := some book, loading := true } pData ++
         broadcast_events
           (initial_load_events { w.be with primary_book := some book, loading := true })
           registry ++
         [Event.book_instance_mark_clean (some book)]) ∧
      w'.be = { w.be with primary_book := some book, loading := false } ∧
      w'.book_dirty = qof_instance_mark_clean_book (some book) w.book_dirty := by
  unfold gnc_gda_load
  simp only [hnone, ne_eq, not_true_eq_false, if_false, hbook]
  refine ⟨_, rfl, ?_, rfl, rfl⟩
  simp only []
  rw [(foldl_initial_load_cb registry _).1]
  cases hl : pData.initial_load <;> simp [book_load_events, hl, List.append_assoc]

/-- C20 as stated fails: with a book already attached to the session the assertion
of `gnc_gda_load` fails and nothing is loaded; and in a session without a book, a
handler of another version and a handler whose key is `book` in lower case are
registered with a load function next to the book handler, yet neither is called. -/
theorem load_asserts_when_book_attached :
    World.start.be.primary_book = some 1 ∧
      (gnc_gda_load load_registry World.start 5).isNone = true ∧
      (gnc_gda_load odd_load_registry World.detached 5).map (new_calls World.detached) =
        some [Event.initial_load "Book" 1
                { loading := true, in_query := false, primary_book := some 5 },
              Event.book_instance_mark_clean (some 5)] := by
  refine ⟨rfl, by decide, by decide⟩

/-- C20, amended: in a session without an attached book, for every registry in which
the look-up of `Book` finds a handler, `gnc_gda_load` returns, and the calls it makes
are: first the `initial_load` of the book handler, when it has one; then, in the
order of the walk, the `initial_load` of every registry entry of the expected version
whose key is not `Book` in any letter case and that has one, once for each entry (the
book handler gets no second call); last the marking of the book.  In every one of
these calls `loading` is set and the book passed in is the attached book; on return
`loading` is cleared, the book is attached and not dirty. -/
theorem load_order (registry : List (String × GncGdaDataType_t))
    (w : World) (book : Nat) (pData : GncGdaDataType_t)
    (hnone : w.be.primary_book = none)
    (hbook : qof_object_lookup_backend GNC_ID_BOOK registry = some pData) :
    ∃ w', gnc_gda_load registry w book = some w' ∧
      new_calls w w' =
        book_load_events { w.be with primary_book := some book, loading := true } pData ++
          broadcast_events
            (initial_load_events { w.be with primary_book := some book, loading := true })
            registry ++
          [Event.book_instance_mark_clean (some book)] ∧
      (∀ e : String × GncGdaDataType_t, e.1 = GNC_ID_BOOK →
        initial_load_events { w.be with primary_book := some book, loading := true } e = []) ∧
      (∀ c ∈ new_calls w w', Event.is_initial_load c = true →
        ∃ be, Event.session c = some be ∧ be.loading = true ∧
          be.primary_book = some book) ∧
      w'.be.loading = false ∧ w'.be.primary_book = some book ∧
      w'.be.in_query = w.be.in_query ∧ w'.book_dirty book = false := by
  obtain ⟨w', hw, ht, hbe, hd⟩ := load_outcome registry w book pData hnone hbook
  have hcalls : new_calls w w' =
      book_load_events { w.be with primary_book := some book, loading := true } pData ++
        broadcast_events
          (initial_load_events { w.be with primary_book := some book, loading := true })
          registry ++
        [Event.book_instance_mark_clean (some book)] := by
    simp [new_calls, ht, List.append_assoc]
  refine ⟨w', hw, hcalls, ?_, ?_, ?_, ?_, ?_, ?_⟩
  · intro e he
    have hb : g_ascii_strcasecmp_eq e.1 GNC_ID_BOOK = true := by
      rw [he]; decide
    simp [initial_load_events, hb]
  · intro c hc hil
    rw [hcalls] at hc
    rcases List.mem_append.1 hc with h | h
    · rcases List.mem_append.1 h with h | h
      · unfold book_load_events at h
        cases hl : pData.initial_load with
        | none => simp [hl] at h
        | some fn =>
          simp only [hl, List.mem_singleton] at h
          rw [h]
          exact ⟨_, rfl, rfl, rfl⟩
      · obtain ⟨e, _, hce⟩ := mem_broadcast_events _ _ _ h
        unfold initial_load_events at hce
        split at hce
        · cases hl : e.2.initial_load with
          | none => simp [hl] at hce
          | some fn =>
            simp only [hl, List.mem_singleton] at hce
            rw [hce]
            exact ⟨_, rfl, rfl, rfl⟩
        · simp at hce
    · simp only [List.mem_singleton] at h
      rw [h] at hil
      simp [Event.is_initial_load] at hil
  · rw [hbe]
  · rw [hbe]
  · rw [hbe]
  · rw [hd]
    simp [qof_instance_mark_clean_book]

/-- Witness of C20, amended: the sample registry, in which the book handler stands
second in the walk, against a session without a book: the book handler's load
function 1 is called first, then the load functions 2 and 3 of the price and split
handlers (the account handler has none), and book 5 is marked. -/
theorem load_order_witness :
    ∃ w', gnc_gda_load load_registry World.detached 5 = some w' ∧
      new_calls World.detached w' =
        [Event.initial_load "Book" 1
           { loading := true, in_query := false, primary_book := some 5 },
         Event.initial_load "Price" 2
           { loading := true, in_query := false, primary_book := some 5 },
         Event.initial_load "Split" 3
           { loading := true, in_query := false, primary_book := some 5 },
         Event.book_instance_mark_clean (some 5)] ∧
      w'.be.loading = false ∧ w'.be.primary_book = some 5 ∧ w'.book_dirty 5 = false := by
  obtain ⟨w', hw, hc, _, _, hl, hp, _, hd⟩ :=
    load_order load_registry World.detached 5 book_handler rfl rfl
  exact ⟨w', hw, hc, hl, hp, hd⟩

/-! ## Connection string -/

theorem g_strrstr_from_of_suffix (stem needle : List Char) :
    g_strrstr_from (stem ++ needle) needle stem.length = some stem.length := by
  cases h : stem.length with
  | zero =>
    have hs : stem = [] := List.length_eq_zero.1 h
    subst hs
    simp [g_strrstr_from]
  | succ n =>
    have hd : (stem ++ needle).drop (n + 1) = needle := by
      rw [← h]; simp
    simp [g_strrstr_from, hd]

theorem g_strrstr_of_suffix (stem needle : String) :
    g_strrstr (stem ++ needle) needle =
      some (if needle.data.length = 0 then 0 else stem.data.length) := by
  unfold g_strrstr
  by_cases hn : needle.data.length = 0
  · simp [hn]
  · have hlen : ¬ (stem ++ needle).data.length < needle.data.length := by
      simp [String.data_append]
    have hsub : (stem ++ needle).data.length - needle.data.length = stem.data.length := by
      simp [String.data_append]
    rw [if_neg hn, if_neg hlen, hsub, if_neg hn]
    simpa [String.data_append] using g_strrstr_from_of_suffix stem.data needle.data

theorem has_suffix_append (stem suffix : String) :
    g_str_has_suffix (stem ++ suffix) suffix = true := by
  unfold g_str_has_suffix
  rw [List.isSuffixOf_iff_suffix]
  exact ⟨stem.data, by simp [String.data_append]⟩

theorem has_suffix_false_of (basename suffix : String)
    (h : ∀ stem : String, basename ≠ stem ++ suffix) :
    g_str_has_suffix basename suffix = false := by
  cases hs : g_str_has_suffix basename suffix with
  | false => rfl
  | true =>
    exfalso
    unfold g_str_has_suffix at hs
    rw [List.isSuffixOf_iff_suffix] at hs
    obtain ⟨t, ht⟩ := hs
    apply h (String.mk t)
    apply String.ext
    simp [String.data_append, ht]

/-- C24: for the SQLite provider and every target whose base name is `stem` followed
by `.db`, the connection string is `DB_DIR=` with the directory of the target, then
`;DB_NAME=` with `stem`, so exactly the final `.db` is removed, also when `.db`
occurs earlier in the name; for every target whose base name does not end in `.db`
the name is the base name unchanged. -/
theorem session_begin_cnc_sqlite (g_path_get_dirname g_path_get_basename : String → String)
    (dsn stem : String) :
    (g_path_get_basename dsn = stem ++ ".db" →
        session_begin_cnc g_path_get_dirname g_path_get_basename SQLITE_PROVIDER_NAME dsn =
          some ("DB_DIR=" ++ g_path_get_dirname dsn ++ ";DB_NAME=" ++ stem)) ∧
      ((∀ s : String, g_path_get_basename dsn ≠ s ++ ".db") →
        session_begin_cnc g_path_get_dirname g_path_get_basename SQLITE_PROVIDER_NAME dsn =
          some ("DB_DIR=" ++ g_path_get_dirname dsn ++ ";DB_NAME=" ++
            g_path_get_basename dsn)) := by
  constructor
  · intro hb
    unfold session_begin_cnc
    simp only [if_true, hb, has_suffix_append, g_strrstr_of_suffix]
    have hne : ¬ (".db" : String).data.length = 0 := by decide
    simp only [if_neg hne]
    have : String.mk ((stem ++ ".db").data.take stem.data.length) = stem := by
      apply String.ext
      simp [String.data_append]
    rw [this]
  · intro hb
    unfold session_begin_cnc
    simp only [if_true, has_suffix_false_of _ _ hb, Bool.false_eq_true, if_false]

/-- Witness of C24: the target `/tmp/my.db.backup.db` gives the name `my.db.backup`,
the target `/tmp/books.gnucash` keeps its base name. -/
theorem session_begin_cnc_sqlite_witness :
    session_begin_cnc sample_dirname sample_basename "SQLite" "/tmp/my.db.backup.db" =
        some "DB_DIR=/tmp;DB_NAME=my.db.backup" ∧
      session_begin_cnc sample_dirname sample_basename "SQLite" "/tmp/books.gnucash" =
        some "DB_DIR=/tmp;DB_NAME=books.gnucash" :=
  ⟨(session_begin_cnc_sqlite sample_dirname sample_basename "/tmp/my.db.backup.db"
      "my.db.backup").1 (by decide),
   (session_begin_cnc_sqlite sample_dirname sample_basename "/tmp/books.gnucash" "").2
      (by
        intro s hs
        have h : g_str_has_suffix (sample_basename "/tmp/books.gnucash") ".db" = true := by
          rw [hs]; exact has_suffix_append s ".db"
        revert h
        decide)⟩

/-! ## Commit protocol: a handler without a commit function -/

/-- C29: for a dirty object such that every registry entry with its type tag has no
commit function, `gnc_gda_commit_edit` makes no call, leaves the object dirty and
leaves session and books as they are, in every session; calls, object, session and
books are those of the same commit against a registry without any handler, the case
of an unknown object type; and outside bulk-load mode the unknown-object-type message
is logged last, after warnings of the callback only. -/
theorem commit_edit_null_commit (registry : List (String × GncGdaDataType_t))
    (w : World) (inst : QofInstance)
    (hdirty : inst.dirty = true)
    (hnull : ∀ e ∈ registry, e.2.type_name = inst.e_type → e.2.commit = none) :
    (gnc_gda_commit_edit registry w inst).1.trace = w.trace ∧
      (gnc_gda_commit_edit registry w inst).2 = inst ∧
      (gnc_gda_commit_edit registry w inst).2.dirty = true ∧
      (gnc_gda_commit_edit registry w inst).1.book_dirty = w.book_dirty ∧
      (gnc_gda_commit_edit registry w inst).1.be = w.be ∧
      (gnc_gda_commit_edit registry w inst).1.trace = (gnc_gda_commit_edit [] w inst).1.trace ∧
      (gnc_gda_commit_edit registry w inst).2 = (gnc_gda_commit_edit [] w inst).2 ∧
      (gnc_gda_commit_edit registry w inst).1.book_dirty =
        (gnc_gda_commit_edit [] w inst).1.book_dirty ∧
      (gnc_gda_commit_edit registry w inst).1.be = (gnc_gda_commit_edit [] w inst).1.be ∧
      (w.be.loading = false →
        (gnc_gda_commit_edit [] w inst).1.log =
          w.log ++ [LogMsg.unknown_object_type inst.e_type] ∧
        ∃ warnings, (∀ m ∈ warnings, LogMsg.is_warning m = true) ∧
          (gnc_gda_commit_edit registry w inst).1.log =
            w.log ++ warnings ++ [LogMsg.unknown_object_type inst.e_type]) := by
  cases hload : w.be.loading with
  | true =>
    rw [commit_edit_of_loading registry w inst hload, commit_edit_of_loading [] w inst hload]
    simp [hdirty]
  | false =>
    have hfind : registry.find? (claims_commit inst) = none := by
      rw [List.find?_eq_none]
      intro e he hc
      simp only [claims_commit, Bool.and_eq_true, decide_eq_true_eq] at hc
      have := hnull e he hc.2
      rw [this] at hc
      simp at hc
    obtain ⟨ws, hws, hr⟩ := commit_edit_dispatch registry w inst hload (Or.inl hdirty)
    obtain ⟨ws0, _, hr0⟩ := commit_edit_dispatch [] w inst hload (Or.inl hdirty)
    rw [hfind] at hr
    have h0 : gnc_gda_commit_edit [] w inst =
        ({ w with log := w.log ++ [LogMsg.unknown_object_type inst.e_type] }, inst) := by
      simp [gnc_gda_commit_edit, hload, hdirty, qof_object_foreach_backend]
    rw [hr, h0]
    exact ⟨rfl, rfl, hdirty, rfl, rfl, rfl, rfl, rfl, rfl, fun _ => ⟨rfl, ws, hws, rfl⟩⟩

/-- Witness of C29: a dirty account against a registry whose account handler has no
commit function. -/
theorem commit_edit_null_commit_witness :
    (gnc_gda_commit_edit null_commit_registry World.start dirty_account).1.trace =
        World.start.trace ∧
      (gnc_gda_commit_edit null_commit_registry World.start dirty_account).2.dirty = true ∧
      ∃ warnings, (∀ m ∈ warnings, LogMsg.is_warning m = true) ∧
        (gnc_gda_commit_edit null_commit_registry World.start dirty_account).1.log =
          World.start.log ++ warnings ++ [LogMsg.unknown_object_type "Account"] :=
  have h := commit_edit_null_commit null_commit_registry World.start dirty_account rfl
    (by
      intro e he ht
      simp only [null_commit_registry, List.mem_cons, List.mem_singleton, List.not_mem_nil,
        or_false] at he
      rcases he with rfl | rfl
      · rfl
      · exact absurd ht (by decide))
  ⟨h.1, h.2.2.1, (h.2.2.2.2.2.2.2.2.2 rfl).2⟩

end GncGda

/-!
# Price import from CSV: properties
-/

namespace GncPriceModel

/-! ## Dates: the year field -/

/-- The turn of the date loop for a year segment of at most four bytes: `tm_year` and
`orig_year` become the value of `tm_year_of_field` at the number read from the
segment. -/
theorem date_segments_with_year_year (date_str : String) (pmatch : List (Int × Int))
    (rest : List Char) (j : Nat) (retvalue : Tm) (orig : Int × Int × Int)
    (h0 : 0 ≤ (pmatch.getD j (0, 0)).2 - (pmatch.getD j (0, 0)).1)
    (h4 : (pmatch.getD j (0, 0)).2 - (pmatch.getD j (0, 0)).1 ≤ 4) :
    date_segments_with_year date_str pmatch ('y' :: rest) j retvalue orig =
      date_segments_with_year date_str pmatch rest (j + 1)
        { retvalue with
          tm_year := tm_year_of_field (atoi (copy_segment date_str (pmatch.getD j (0, 0)))) }
        (tm_year_of_field (atoi (copy_segment date_str (pmatch.getD j (0, 0)))),
          orig.2.1, orig.2.2) := by
  obtain ⟨oy, om, od⟩ := orig
  generalize hm : pmatch.getD j (0, 0) = m at h0 h4 ⊢
  have h1 : ¬ (m.2 - m.1 < 0) := by omega
  have h2 : ¬ (m.2 - m.1 > 4) := by omega
  rw [date_segments_with_year]
  simp only [hm]
  simp [h1, h2]

/-- Dates with a two-digit year, with a four-digit year and without separators, in
the format `y-m-d`: the years 2012, 1969 and 2012. -/
theorem extract_date_year_samples :
    (extract_date sample_env "12-03-04" (gnc_priceline_new 0)).map
        (fun r => (r.1, r.2.datetm.map (fun tm => tm.tm_year + 1900))) = some (1, some 2012) ∧
    (extract_date sample_env "69-03-04" (gnc_priceline_new 0)).map
        (fun r => (r.1, r.2.datetm.map (fun tm => tm.tm_year + 1900))) = some (1, some 1969) ∧
    (extract_date sample_env "2012-03-04" (gnc_priceline_new 0)).map
        (fun r => (r.1, r.2.datetm.map (fun tm => tm.tm_year + 1900))) = some (1, some 2012) ∧
    (extract_date sample_env "20120304" (gnc_priceline_new 0)).map
        (fun r => (r.1, r.2.datetm.map (fun tm => tm.tm_year + 1900))) = some (1, some 2012) := by
  refine ⟨by decide, by decide, by decide, by decide⟩

/-- C27: for a year field of value `y ≥ 0`, the calendar year `1900 + tm_year` that
`extract_date_with_year` stores is `2000 + y` for `y < 69`, `1900 + y` for
`69 ≤ y < 100` and `y` itself for `y ≥ 100`; so every two-digit year lies in
1969..2068, and two different two-digit years give different years. -/
theorem tm_year_of_field_window (y : Int) (hy : 0 ≤ y) :
    (y < 69 → 1900 + tm_year_of_field y = 2000 + y) ∧
    (69 ≤ y → y < 100 → 1900 + tm_year_of_field y = 1900 + y) ∧
    (100 ≤ y → 1900 + tm_year_of_field y = y) ∧
    (y < 100 → 1969 ≤ 1900 + tm_year_of_field y ∧ 1900 + tm_year_of_field y ≤ 2068) ∧
    (∀ z : Int, 0 ≤ z → z < 100 → y < 100 →
      tm_year_of_field y = tm_year_of_field z → y = z) := by
  refine ⟨?_, ?_, ?_, ?_, ?_⟩
  · intro h; unfold tm_year_of_field; rw [if_pos (by omega), if_pos h]; omega
  · intro h1 h2; unfold tm_year_of_field; rw [if_pos h2, if_neg (by omega)]
  · intro h; unfold tm_year_of_field; rw [if_neg (by omega)]; omega
  · intro h; unfold tm_year_of_field; rw [if_pos h]
    by_cases h69 : y < 69
    · rw [if_pos h69]; omega
    · rw [if_neg h69]; omega
  · intro z hz hz100 hy100
    unfold tm_year_of_field
    rw [if_pos hy100, if_pos hz100]
    by_cases h1 : y < 69 <;> by_cases h2 : z < 69
    · rw [if_pos h1, if_pos h2]; omega
    · rw [if_pos h1, if_neg h2]; omega
    · rw [if_neg h1, if_pos h2]; omega
    · rw [if_neg h1, if_neg h2]; omega

/-- C27 at the year field 12: the year 2012. -/
theorem tm_year_of_field_window_witness :
    (0 : Int) ≤ 12 ∧
    ((12 : Int) < 69 → 1900 + tm_year_of_field 12 = 2000 + 12) ∧
    ((69 : Int) ≤ 12 → (12 : Int) < 100 → 1900 + tm_year_of_field 12 = 1900 + 12) ∧
    ((100 : Int) ≤ 12 → 1900 + tm_year_of_field 12 = 12) ∧
    ((12 : Int) < 100 → 1969 ≤ 1900 + tm_year_of_field 12 ∧
      1900 + tm_year_of_field 12 ≤ 2068) ∧
    (∀ z : Int, 0 ≤ z → z < 100 → (12 : Int) < 100 →
      tm_year_of_field 12 = tm_year_of_field z → 12 = z) :=
  ⟨by decide, tm_year_of_field_window 12 (by decide)⟩

/-! ## Dates: a cell that is no date -/

/-- In a format with a year, a cell that the date pattern does not match makes
`gnc_priceline_set` return -1 and leaves the price line as it is. -/
theorem priceline_set_date_no_match_with_year (env : Env) (price : GncPriceLine)
    (str : String)
    (hfmt : price.date_format = 0 ∨ price.date_format = 1 ∨ price.date_format = 2)
    (hno : env.regexec date_regex_with_year str 4 = none) :
    gnc_priceline_set env price str GNC_PRICE_DATE = some (-1, price) := by
  rcases hfmt with h | h | h <;>
    simp [gnc_priceline_set, GNC_PRICE_DATE, extract_date, h, date_format_user,
      extract_date_with_year, hno]

/-- In a format without a year, a cell that the date pattern does not match makes
`gnc_priceline_set` return FALSE and leaves the price line as it is. -/
theorem priceline_set_date_no_match_without_year (env : Env) (price : GncPriceLine)
    (str : String) (hfmt : price.date_format = 3 ∨ price.date_format = 4)
    (hno : env.regexec date_regex_without_year str 3 = none) :
    gnc_priceline_set env price str GNC_PRICE_DATE = some (0, price) := by
  rcases hfmt with h | h <;>
    simp [gnc_priceline_set, GNC_PRICE_DATE, extract_date, h, date_format_user,
      extract_date_without_year, hno]

/-- C21 at a failing input: in the format `y-m-d` the cell `tomorrow`, which the date
pattern does not match, makes `gnc_priceline_set` return -1, not FALSE; the row is
then reported with the message of the essentials check, not with the message that
the Date column could not be understood.  In the format `d-m` the same cell gives
FALSE and that message. -/
theorem priceline_set_date_failure_not_false :
    sample_env.regexec date_regex_with_year "tomorrow" 4 = none ∧
    gnc_priceline_set sample_env (gnc_priceline_new 0) "tomorrow" GNC_PRICE_DATE =
      some (-1, gnc_priceline_new 0) ∧
    parse_row sample_env 0 sample_column_types
      { cells := ["tomorrow", "NASDAQ", "AAPL", "1.5"], parsed_len := 4 } =
      some (RowOutcome.error "No date column. ") ∧
    gnc_priceline_set sample_env (gnc_priceline_new 3) "tomorrow" GNC_PRICE_DATE =
      some (0, gnc_priceline_new 3) ∧
    parse_row sample_env 3 sample_column_types
      { cells := ["tomorrow", "NASDAQ", "AAPL", "1.5"], parsed_len := 4 } =
      some (RowOutcome.error "Date column could not be understood.") := by
  refine ⟨by decide, by decide, by decide, by decide, by decide⟩

/-! ## Essential properties -/

/-- The essentials check returns TRUE exactly when the date, the namespace, the
security and the price are present and the merged date and time are valid; it returns
FALSE otherwise and then hands out a message. -/
theorem verify_essentials_true_iff (env : Env) (pl : GncPriceLine) :
    ((gnc_priceline_verify_essentials env pl).1 = 1 ↔
      (pl.datetm.isSome = true ∧ pl.name_space.isSome = true ∧ pl.mnemonic.isSome = true ∧
        pl.value.isSome = true ∧ (merge_time env pl).2 = false)) ∧
    ((gnc_priceline_verify_essentials env pl).1 ≠ 1 →
      (gnc_priceline_verify_essentials env pl).1 = 0 ∧
      (gnc_priceline_verify_essentials env pl).2.2.isSome = true) := by
  unfold gnc_priceline_verify_essentials
  cases h1 : pl.datetm <;> cases h2 : pl.name_space <;> cases h3 : pl.mnemonic <;>
    cases h4 : pl.value <;> cases h5 : (merge_time env pl).2 <;>
    simp [errors_list, h1, h2, h3, h4, h5]

/-- C22 at a failing input: a price line with a date, a namespace, a security and a
price, and without a currency, passes the essentials check: the return value is TRUE
and no message is set. -/
theorem verify_essentials_accepts_missing_currency (env : Env) :
    (sample_line 3).currency = none ∧
    gnc_priceline_verify_essentials env (sample_line 3) = (1, sample_line 3, none) := by
  exact ⟨rfl, rfl⟩

/-! ## The message of the essentials check -/

/-- The first loop started at `size` adds `full_error_size` to it. -/
theorem full_error_size_foldl (errors : List Nat) (size : Nat) :
    errors.foldl (fun size i => size + (possible_error_lengths i + 1)) size =
      size + full_error_size errors := by
  induction errors generalizing size with
  | nil => simp [full_error_size]
  | cons i rest ih =>
    simp only [full_error_size, List.foldl_cons]
    rw [ih, ih (0 + (possible_error_lengths i + 1))]
    simp only [full_error_size]
    omega

/-- Every applicable message adds its length and one to `full_error_size`. -/
theorem full_error_size_cons (i : Nat) (rest : List Nat) :
    full_error_size (i :: rest) = possible_error_lengths i + 1 + full_error_size rest := by
  have := full_error_size_foldl rest (0 + (possible_error_lengths i + 1))
  simp only [full_error_size, List.foldl_cons] at this ⊢
  rw [this]
  omega

/-- Every message has as many bytes as `strlen` says. -/
theorem copied_message_length (i : Nat) :
    ((possible_errors.getD i "").data.take (possible_error_lengths i)).length =
      possible_error_lengths i := by
  rcases i with _ | _ | _ | _ | _ | i
  · decide
  · decide
  · decide
  · decide
  · decide
  · simp [possible_errors, possible_error_lengths]
    rfl

/-- The second loop advances the pointer by `full_error_size` bytes. -/
theorem write_errors_length (errors : List Nat) (written : List Char) :
    (write_errors errors written).length = written.length + full_error_size errors := by
  induction errors generalizing written with
  | nil => simp [write_errors, full_error_size]
  | cons i rest ih =>
    rw [write_errors, ih, full_error_size_cons]
    simp only [List.length_append, copied_message_length, List.length_singleton]
    omega

/-- The last byte that the second loop writes is a space. -/
theorem write_errors_getLast (errors : List Nat) (written : List Char) (h : errors ≠ []) :
    (write_errors errors written).getLast? = some ' ' := by
  induction errors generalizing written with
  | nil => exact absurd rfl h
  | cons i rest ih =>
    rw [write_errors]
    by_cases hr : rest = []
    · subst hr
      simp [write_errors]
    · exact ih _ hr

/-- Whenever the essentials check fails, the terminator is written at the offset
`full_error_size`, the first byte behind the buffer, and the message read from the
buffer is everything that the second loop wrote, so it ends in a space. -/
theorem verify_essentials_buffer (env : Env) (pl : GncPriceLine) (b : ErrorBuffer)
    (h : (gnc_priceline_verify_essentials env pl).2.2 = some b) :
    b.terminator_offset = b.buffer_size ∧ b.message = String.mk b.written ∧
      b.message.data.getLast? = some ' ' := by
  unfold gnc_priceline_verify_essentials at h
  by_cases he : errors_list pl (merge_time env pl).2 = []
  · simp [he] at h
  · simp only [he, if_false, Option.some.injEq] at h
    subst h
    have hlen := write_errors_length (errors_list pl (merge_time env pl).2) []
    simp only [List.length_nil, Nat.zero_add] at hlen
    refine ⟨hlen, ?_, ?_⟩
    · simp [ErrorBuffer.message]
    · simp only [ErrorBuffer.message, List.take_length]
      exact write_errors_getLast _ _ he

/-- C28 at a failing input: for a price line with nothing set, the buffer has 79 bytes
and the second loop fills them all with the four messages, each followed by a space;
the terminator is then written at offset 79, behind the last byte of the buffer, and
the message that a reader sees ends in a space. -/
theorem verify_essentials_terminator_outside_buffer (env : Env) :
    gnc_priceline_verify_essentials env (gnc_priceline_new 0) =
      (0, gnc_priceline_new 0,
        some { buffer_size := 79,
               written := ("No date column. No namespace column. No security code column. " ++
                 "No price column. ").data,
               terminator_offset := 79 }) ∧
    ("No date column. No namespace column. No security code column. " ++
      "No price column. ").data.length = 79 ∧
    ("No date column. No namespace column. No security code column. " ++
      "No price column. ").data.getLast? = some ' ' := by
  refine ⟨rfl, by decide, by decide⟩

/-! ## The order of the prices -/

/-- A backward search that runs off the front of the list has passed only prices with
a greater line number. -/
theorem search_backward_none (prices : List GncPriceLine) (n : Int) (k : Nat)
    (hk : k < prices.length) (h : search_backward prices n k = none) :
    ∀ x ∈ prices.take (k + 1), n < x.line_no := by
  induction k with
  | zero =>
    cases prices with
    | nil => simp at hk
    | cons a t =>
      simp only [search_backward, List.headD_cons] at h
      by_cases hc : a.line_no > n
      · intro x hx
        simp at hx
        rw [hx]; exact hc
      · rw [if_neg hc] at h; cases h
  | succ k ih =>
    simp only [search_backward] at h
    rw [List.getD_eq_getElem _ _ hk] at h
    by_cases hc : (prices[k + 1]).line_no > n
    · rw [if_pos hc] at h
      intro x hx
      rw [List.take_succ, List.getElem?_eq_getElem hk] at hx
      simp only [Option.toList, List.mem_append, List.mem_singleton] at hx
      rcases hx with hx | hx
      · exact ih (by omega) h x hx
      · rw [hx]; exact hc
    · rw [if_neg hc] at h; cases h

/-- A backward search that stops at a cell: the price there has no greater line number,
and the prices passed have a greater one. -/
theorem search_backward_some (prices : List GncPriceLine) (n : Int) (k s : Nat)
    (hk : k < prices.length) (h : search_backward prices n k = some s) :
    s ≤ k ∧ (∃ y, prices[s]? = some y ∧ y.line_no ≤ n) ∧
      ∀ x ∈ (prices.take (k + 1)).drop (s + 1), n < x.line_no := by
  induction k with
  | zero =>
    cases prices with
    | nil => simp at hk
    | cons a t =>
      simp only [search_backward, List.headD_cons] at h
      by_cases hc : a.line_no > n
      · rw [if_pos hc] at h; cases h
      · rw [if_neg hc] at h
        cases h
        refine ⟨le_refl _, ⟨a, by simp, by omega⟩, ?_⟩
        intro x hx
        simp at hx
  | succ k ih =>
    simp only [search_backward] at h
    rw [List.getD_eq_getElem _ _ hk] at h
    by_cases hc : (prices[k + 1]).line_no > n
    · rw [if_pos hc] at h
      obtain ⟨h1, h2, h3⟩ := ih (by omega) h
      refine ⟨by omega, h2, ?_⟩
      intro x hx
      rw [List.take_succ, List.getElem?_eq_getElem hk] at hx
      rw [List.drop_append_of_le_length (by rw [List.length_take]; omega)] at hx
      simp only [Option.toList, List.mem_append, List.mem_singleton] at hx
      rcases hx with hx | hx
      · exact h3 x hx
      · rw [hx]; exact hc
    · rw [if_neg hc] at h
      cases h
      refine ⟨le_refl _, ⟨prices[k + 1], List.getElem?_eq_getElem hk, by omega⟩, ?_⟩
      intro x hx
      rw [List.drop_eq_nil_of_le (by rw [List.length_take]; omega)] at hx
      simp at hx

/-- An element put between two parts of an ordered list, above the first part and below
the second, gives an ordered list. -/
theorem pairwise_insert {α : Type} (R : α → α → Prop) (l1 l2 : List α) (x : α)
    (h : (l1 ++ l2).Pairwise R) (h1 : ∀ a ∈ l1, R a x) (h2 : ∀ b ∈ l2, R x b) :
    (l1 ++ [x] ++ l2).Pairwise R := by
  rw [List.pairwise_append] at h
  obtain ⟨p1, p2, p12⟩ := h
  rw [List.pairwise_append]
  refine ⟨?_, p2, ?_⟩
  · rw [List.pairwise_append]
    refine ⟨p1, List.pairwise_singleton _ _, ?_⟩
    intro a ha b hb
    simp only [List.mem_singleton] at hb
    rw [hb]; exact h1 a ha
  · intro a ha b hb
    simp only [List.mem_append, List.mem_singleton] at ha
    rcases ha with ha | ha
    · exact p12 a ha b hb
    · rw [ha]; exact h2 b hb

/-- In sorted prices, no price up to index `s` has a greater line number than the
price at `s`. -/
theorem sorted_take_le (prices : List GncPriceLine) (hs : sorted_by_line_no prices) (s : Nat)
    (y : GncPriceLine) (hy : prices[s]? = some y) :
    ∀ a ∈ prices.take (s + 1), a.line_no ≤ y.line_no := by
  intro a ha
  rw [List.mem_take_iff_getElem] at ha
  obtain ⟨i, hi, rfl⟩ := ha
  have hs' := List.pairwise_iff_getElem.mp hs
  obtain ⟨hlt, hys⟩ := List.getElem?_eq_some_iff.mp hy
  by_cases hEq : i = s
  · subst hEq; rw [hys]
  · have := hs' i s (by omega) hlt (by omega)
    rw [hys] at this; exact this

/-- The insertion keeps the order, adds the line, and leaves `last_price` at the last
cell. -/
theorem insert_price_spec (prices : List GncPriceLine) (last_price : Option Nat)
    (pl : GncPriceLine) (hs : sorted_by_line_no prices)
    (hl : last_price = if prices = [] then none else some (prices.length - 1)) :
    ∃ prices', insert_price prices last_price pl = some (prices', some (prices'.length - 1)) ∧
      prices' ≠ [] ∧ sorted_by_line_no prices' ∧ prices'.Perm (prices ++ [pl]) := by
  by_cases hnil : prices = []
  · subst hnil
    simp only [if_true] at hl
    subst hl
    exact ⟨[pl], rfl, by simp, List.pairwise_singleton _ _, List.Perm.refl _⟩
  · rw [if_neg hnil] at hl
    subst hl
    have hlen : 0 < prices.length := List.length_pos.mpr hnil
    have hk : prices.length - 1 < prices.length := by omega
    simp only [insert_price, List.getElem?_eq_getElem hk]
    by_cases hle : (prices[prices.length - 1]).line_no ≤ pl.line_no
    · rw [if_pos hle]
      refine ⟨prices ++ [pl], ?_, by simp, ?_, List.Perm.refl _⟩
      · simp only [List.length_append, List.length_singleton]
        have : prices.length - 1 + 1 = prices.length + 1 - 1 := by omega
        rw [this]
      · have hlast := sorted_take_le prices hs (prices.length - 1) _
          (List.getElem?_eq_getElem hk)
        have htake : prices.take (prices.length - 1 + 1) = prices :=
          List.take_of_length_le (by omega)
        rw [htake] at hlast
        have := pairwise_insert (fun a b : GncPriceLine => a.line_no ≤ b.line_no) prices [] pl
          (by simpa using hs) (fun a ha => le_trans (hlast a ha) hle) (by simp)
        simpa using this
    · rw [if_neg hle]
      have htake : prices.take (prices.length - 1 + 1) = prices :=
        List.take_of_length_le (by omega)
      cases hsb : search_backward prices pl.line_no (prices.length - 1) with
      | none =>
        have hall := search_backward_none prices pl.line_no _ hk hsb
        rw [htake] at hall
        refine ⟨[pl] ++ prices, ?_, by simp, ?_, ?_⟩
        · simp only [List.take_zero, List.drop_zero, List.nil_append, Nat.zero_le, if_true,
            List.length_append, List.length_singleton, List.singleton_append, List.length_cons]
          have : prices.length - 1 + 1 = prices.length + 1 - 1 := by omega
          rw [this]
        · have := pairwise_insert (fun a b : GncPriceLine => a.line_no ≤ b.line_no) [] prices pl
            (by simpa using hs) (by simp) (fun b hb => le_of_lt (hall b hb))
          unfold sorted_by_line_no
          simpa using this
        · exact List.perm_append_comm
      | some s =>
        obtain ⟨hsk, ⟨y, hy, hyn⟩, hgt⟩ := search_backward_some prices pl.line_no _ s hk hsb
        rw [htake] at hgt
        have hslt : s < prices.length - 1 := by
          rcases Nat.lt_or_ge s (prices.length - 1) with h | h
          · exact h
          · exfalso
            have hEq : s = prices.length - 1 := by omega
            rw [hEq, List.getElem?_eq_getElem hk] at hy
            cases hy
            omega
        refine ⟨prices.take (s + 1) ++ [pl] ++ prices.drop (s + 1), ?_, by simp, ?_, ?_⟩
        · have hspot : s + 1 ≤ prices.length - 1 := by omega
          simp only [if_pos hspot, List.length_append, List.length_take, List.length_drop,
            List.length_singleton]
          have : prices.length - 1 + 1 =
              min (s + 1) prices.length + 1 + (prices.length - (s + 1)) - 1 := by
            rw [Nat.min_eq_left (by omega)]; omega
          rw [this]
        · apply pairwise_insert
          · rw [List.take_append_drop]; exact hs
          · intro a ha
            exact le_trans (sorted_take_le prices hs s y hy a ha) hyn
          · intro b hb
            exact le_of_lt (hgt b hb)
        · have h1 : (prices.take (s + 1) ++ [pl] ++ prices.drop (s + 1)).Perm
              (pl :: (prices.take (s + 1) ++ prices.drop (s + 1))) := by
            rw [List.append_assoc]
            exact List.perm_middle
          rw [List.take_append_drop] at h1
          exact h1.trans (@List.perm_append_comm _ [pl] prices)

/-- The turn of the loop for a row that parses to a price line. -/
theorem process_row_price (env : Env) (date_format : Int) (column_types : List Int)
    (orig_row_lengths : List Int) (i : Nat) (st : LoopState) (line : Row)
    (price_line : GncPriceLine) (hline : st.orig_lines[i]? = some line)
    (hrow : parse_row env date_format column_types line = some (RowOutcome.price price_line)) :
    process_row env date_format column_types orig_row_lengths false i st =
      (insert_price st.prices st.last_price { price_line with line_no := i }).map
        (fun r => { st with prices := r.1, last_price := r.2 }) := by
  simp only [process_row, hline, hrow]
  cases insert_price st.prices st.last_price { price_line with line_no := i } <;> rfl

/-- The turn of the loop for a row that has an error. -/
theorem process_row_error (env : Env) (date_format : Int) (column_types : List Int)
    (orig_row_lengths : List Int) (prices_freed : Bool) (i : Nat) (st : LoopState) (line : Row)
    (error_message : String) (hline : st.orig_lines[i]? = some line)
    (hrow : parse_row env date_format column_types line =
      some (RowOutcome.error error_message)) :
    process_row env date_format column_types orig_row_lengths prices_freed i st =
      (orig_row_lengths[i]?).bind (fun stored =>
        if (line.cells.length : Int) > guint_of_int stored then
          if line.cells.length > line.parsed_len then
            some { st with
              error_lines := st.error_lines ++ [i],
              orig_lines := st.orig_lines.set i
                { line with cells := line.cells.take (line.cells.length - 1) ++ [error_message] } }
          else none
        else
          some { st with
            error_lines := st.error_lines ++ [i],
            orig_lines := st.orig_lines.set i
              { line with cells := line.cells ++ [error_message] } }) := by
  simp only [process_row, hline, hrow]
  cases orig_row_lengths[i]? <;> rfl

/-- One turn of the loop, outside a released list: the invariant is kept, only row `i`
changes, and the row goes to the prices or to the error lines. -/
theorem process_row_spec (env : Env) (date_format : Int) (column_types : List Int)
    (orig_row_lengths : List Int) (i : Nat) (st st' : LoopState) (hinv : loop_invariant st)
    (h : process_row env date_format column_types orig_row_lengths false i st = some st') :
    loop_invariant st' ∧ st'.orig_lines.length = st.orig_lines.length ∧
    (∀ j, j ≠ i → st'.orig_lines[j]? = st.orig_lines[j]?) ∧
    ((line_parses env date_format column_types st.orig_lines i = true ∧
        st'.error_lines = st.error_lines ∧
        ∃ pl : GncPriceLine, pl.line_no = (i : Int) ∧ st'.prices.Perm (st.prices ++ [pl])) ∨
     (line_parses env date_format column_types st.orig_lines i = false ∧
        st'.error_lines = st.error_lines ++ [i] ∧ st'.prices = st.prices)) := by
  cases hline : st.orig_lines[i]? with
  | none => simp [process_row, hline] at h
  | some line =>
    cases hrow : parse_row env date_format column_types line with
    | none => simp [process_row, hline, hrow] at h
    | some outcome =>
      cases outcome with
      | price price_line =>
        rw [process_row_price env date_format column_types orig_row_lengths i st line price_line
          hline hrow] at h
        obtain ⟨prices', hins, hne, hsorted, hperm⟩ :=
          insert_price_spec st.prices st.last_price { price_line with line_no := i } hinv.1 hinv.2
        rw [hins] at h
        simp only [Option.map_some', Option.some.injEq] at h
        subst h
        refine ⟨⟨hsorted, by simp only [if_neg hne]⟩, rfl, fun _ _ => rfl, Or.inl ⟨?_, rfl, ?_⟩⟩
        · simp [line_parses, hline, hrow]
        · exact ⟨_, rfl, hperm⟩
      | error error_message =>
        rw [process_row_error env date_format column_types orig_row_lengths false i st line
          error_message hline hrow] at h
        have hparse : line_parses env date_format column_types st.orig_lines i = false := by
          simp [line_parses, hline, hrow]
        cases hlen : orig_row_lengths[i]? with
        | none => simp [hlen] at h
        | some stored =>
          simp only [hlen, Option.some_bind] at h
          by_cases h1 : (line.cells.length : Int) > guint_of_int stored
          · rw [if_pos h1] at h
            by_cases h2 : line.cells.length > line.parsed_len
            · rw [if_pos h2] at h
              simp only [Option.some.injEq] at h
              subst h
              exact ⟨hinv, List.length_set _ _ _,
                fun j hj => List.getElem?_set_ne (Ne.symm hj), Or.inr ⟨hparse, rfl, rfl⟩⟩
            · rw [if_neg h2] at h; cases h
          · rw [if_neg h1] at h
            simp only [Option.some.injEq] at h
            subst h
            exact ⟨hinv, List.length_set _ _ _,
              fun j hj => List.getElem?_set_ne (Ne.symm hj), Or.inr ⟨hparse, rfl, rfl⟩⟩

/-- One turn of the loop is defined when it is defined for the row taken alone. -/
theorem process_row_defined (env : Env) (date_format : Int) (column_types : List Int)
    (orig_row_lengths : List Int) (lines : List Row) (i : Nat) (st : LoopState)
    (hinv : loop_invariant st) (hrow : st.orig_lines[i]? = lines[i]?)
    (hdef : line_defined env date_format column_types orig_row_lengths lines i = true) :
    ∃ st', process_row env date_format column_types orig_row_lengths false i st = some st' := by
  unfold line_defined at hdef
  cases hline : lines[i]? with
  | none => simp [process_row, hline] at hdef
  | some line =>
    rw [hline] at hrow
    cases hparse : parse_row env date_format column_types line with
    | none => simp [process_row, hline, hparse] at hdef
    | some outcome =>
      cases outcome with
      | price price_line =>
        rw [process_row_price env date_format column_types orig_row_lengths i st line price_line
          hrow hparse]
        obtain ⟨prices', hins, -, -, -⟩ :=
          insert_price_spec st.prices st.last_price { price_line with line_no := i } hinv.1 hinv.2
        rw [hins]
        exact ⟨_, rfl⟩
      | error error_message =>
        rw [process_row_error env date_format column_types orig_row_lengths false i st line
          error_message hrow hparse]
        rw [process_row_error env date_format column_types orig_row_lengths false i _ line
          error_message hline hparse] at hdef
        cases hlen : orig_row_lengths[i]? with
        | none => simp [hlen] at hdef
        | some stored =>
          simp only [hlen, Option.some_bind] at hdef ⊢
          by_cases h1 : (line.cells.length : Int) > guint_of_int stored
          · rw [if_pos h1] at hdef ⊢
            by_cases h2 : line.cells.length > line.parsed_len
            · rw [if_pos h2]; exact ⟨_, rfl⟩
            · rw [if_neg h2] at hdef; simp at hdef
          · rw [if_neg h1]; exact ⟨_, rfl⟩


/-- Whether row `i` parses depends on row `i` only. -/
theorem line_parses_congr (env : Env) (date_format : Int) (column_types : List Int)
    (lines lines' : List Row) (i : Nat) (h : lines[i]? = lines'[i]?) :
    line_parses env date_format column_types lines i =
      line_parses env date_format column_types lines' i := by
  unfold line_parses
  rw [h]

/-- The loop, outside a released list: the invariant is kept, and every visited row
goes to the prices or to the error lines. -/
theorem process_rows_spec (env : Env) (date_format : Int) (column_types : List Int)
    (orig_row_lengths : List Int) (lines : List Row) (rows : List Nat) (st st' : LoopState)
    (hinv : loop_invariant st)
    (h : process_rows env date_format column_types orig_row_lengths false rows st = some st') :
    loop_invariant st' ∧ st'.orig_lines.length = st.orig_lines.length ∧
    ∃ added : List GncPriceLine, ∃ errs : List Nat,
      st'.prices.Perm (st.prices ++ added) ∧ st'.error_lines = st.error_lines ++ errs ∧
      (added.map (fun pl => pl.line_no) ++ errs.map (fun j : Nat => (j : Int))).Perm (rows.map (fun j : Nat => (j : Int))) ∧
      (rows.Nodup → (∀ j ∈ rows, st.orig_lines[j]? = lines[j]?) →
        added.map (fun pl => pl.line_no) =
          (rows.filter (line_parses env date_format column_types lines)).map (fun j : Nat => (j : Int)) ∧
        errs = rows.filter (fun j => !line_parses env date_format column_types lines j)) := by
  induction rows generalizing st with
  | nil =>
    simp only [process_rows, Option.some.injEq] at h
    subst h
    exact ⟨hinv, rfl, [], [], by simp, by simp, by simp, fun _ _ => by simp⟩
  | cons i rest ih =>
    simp only [process_rows] at h
    cases hrow : process_row env date_format column_types orig_row_lengths false i st with
    | none => simp [hrow] at h
    | some st1 =>
      simp only [hrow] at h
      obtain ⟨hinv1, hlen1, hframe, hcase⟩ :=
        process_row_spec env date_format column_types orig_row_lengths i st st1 hinv hrow
      obtain ⟨hinv', hlen', added, errs, hperm, herr, hrows, hexact⟩ := ih st1 hinv1 h
      refine ⟨hinv', by rw [hlen', hlen1], ?_⟩
      rcases hcase with ⟨hp, he, pl, hpl, hpp⟩ | ⟨hp, he, hpp⟩
      · refine ⟨pl :: added, errs, ?_, by rw [herr, he], ?_, ?_⟩
        · refine hperm.trans ?_
          have := hpp.append_right added
          simpa [List.append_assoc] using this
        · simp only [List.map_cons, List.cons_append, hpl]
          exact List.Perm.cons _ hrows
        · intro hnd hall
          rw [List.nodup_cons] at hnd
          have hi : st.orig_lines[i]? = lines[i]? := hall i (List.mem_cons_self _ _)
          have hp' : line_parses env date_format column_types lines i = true := by
            rw [← line_parses_congr env date_format column_types _ _ i hi]; exact hp
          obtain ⟨h1, h2⟩ := hexact hnd.2 (fun j hj => by
            rw [hframe j (fun hji => hnd.1 (hji ▸ hj))]
            exact hall j (List.mem_cons_of_mem _ hj))
          refine ⟨?_, ?_⟩
          · simp only [List.map_cons, hpl, List.filter_cons, hp', if_true, h1]
          · simp only [List.filter_cons, hp', Bool.not_true, h2]
            simp
      · refine ⟨added, i :: errs, ?_, by rw [herr, he]; simp, ?_, ?_⟩
        · rw [hpp] at hperm; exact hperm
        · simp only [List.map_cons]
          exact List.perm_middle.trans (List.Perm.cons _ hrows)
        · intro hnd hall
          rw [List.nodup_cons] at hnd
          have hi : st.orig_lines[i]? = lines[i]? := hall i (List.mem_cons_self _ _)
          have hp' : line_parses env date_format column_types lines i = false := by
            rw [← line_parses_congr env date_format column_types _ _ i hi]; exact hp
          obtain ⟨h1, h2⟩ := hexact hnd.2 (fun j hj => by
            rw [hframe j (fun hji => hnd.1 (hji ▸ hj))]
            exact hall j (List.mem_cons_of_mem _ hj))
          refine ⟨?_, ?_⟩
          · simp only [List.filter_cons, hp', h1]
            simp
          · simp only [List.filter_cons, hp', Bool.not_false, if_true, h2]

/-- The loop is defined when every visited row is defined taken alone and no row is
visited twice. -/
theorem process_rows_defined (env : Env) (date_format : Int) (column_types : List Int)
    (orig_row_lengths : List Int) (lines : List Row) (rows : List Nat) (st : LoopState)
    (hinv : loop_invariant st) (hnd : rows.Nodup)
    (hall : ∀ j ∈ rows, st.orig_lines[j]? = lines[j]?)
    (hdef : ∀ j ∈ rows,
      line_defined env date_format column_types orig_row_lengths lines j = true) :
    ∃ st', process_rows env date_format column_types orig_row_lengths false rows st =
      some st' := by
  induction rows generalizing st with
  | nil => exact ⟨st, rfl⟩
  | cons i rest ih =>
    rw [List.nodup_cons] at hnd
    obtain ⟨st1, hst1⟩ := process_row_defined env date_format column_types orig_row_lengths
      lines i st hinv (hall i (List.mem_cons_self _ _)) (hdef i (List.mem_cons_self _ _))
    obtain ⟨hinv1, -, hframe, -⟩ :=
      process_row_spec env date_format column_types orig_row_lengths i st st1 hinv hst1
    obtain ⟨st', hst'⟩ := ih st1 hinv1 hnd.2
      (fun j hj => by
        rw [hframe j (fun hji => hnd.1 (hji ▸ hj))]
        exact hall j (List.mem_cons_of_mem _ hj))
      (fun j hj => hdef j (List.mem_cons_of_mem _ hj))
    exact ⟨st', by simp only [process_rows, hst1, hst']⟩


/-- The pass over the error lines as a loop over the visited rows. -/
theorem parse_to_prices_redo_eq (env : Env) (pd : GncPriceParseData) (ct : List Int)
    (hct : pd.column_types = some ct)
    (hfreed : (pd.prices_freed && !pd.prices.isEmpty) = false) :
    gnc_price_parse_to_prices env pd true =
      (process_rows env pd.date_format ct pd.orig_row_lengths false (visited_rows pd true)
        { orig_lines := pd.orig_lines, error_lines := [], prices := pd.prices,
          last_price := if pd.prices = [] then none else some (pd.prices.length - 1) }).map
        (fun st => { pd with
          orig_lines := st.orig_lines,
          error_lines := st.error_lines,
          prices := st.prices,
          prices_freed := false,
          column_types := some (resize_column_types ct (max_cols st.orig_lines)) }) := by
  have hlast : (if pd.prices.isEmpty = true then none else some (pd.prices.length - 1)) =
      (if pd.prices = [] then (none : Option Nat) else some (pd.prices.length - 1)) := by
    by_cases h : pd.prices = []
    · simp [h]
    · have : pd.prices.isEmpty = false := by
        cases hp : pd.prices with
        | nil => exact absurd hp h
        | cons a t => rfl
      simp [h, this]
  unfold gnc_price_parse_to_prices
  simp only [hct, hfreed, Bool.false_eq_true, if_false, Bool.not_true, Bool.false_and, if_true,
    hlast]
  cases process_rows env pd.date_format ct pd.orig_row_lengths false (visited_rows pd true)
    { orig_lines := pd.orig_lines, error_lines := [], prices := pd.prices,
      last_price := if pd.prices = [] then none else some (pd.prices.length - 1) } <;> rfl

/-- No row is visited twice when no row is listed twice. -/
theorem visited_rows_nodup (pd : GncPriceParseData) (h : pd.error_lines.Nodup) :
    (visited_rows pd true).Nodup := by
  simp only [visited_rows, if_true]
  exact List.Nodup.sublist (List.takeWhile_sublist _) h

/-- C25: when `prices` is sorted by line number (or empty), every result of
`gnc_price_parse_to_prices` with `redo_errors = TRUE` has `prices` sorted by line
number again; it holds every previous entry and in addition one entry for each
visited row that is not in the new `error_lines`, with the index of the row as its
line number; when no row is listed twice in the old `error_lines`, the added entries
are those of exactly the visited rows that now parse, and the new `error_lines` are
the other visited rows.  The call does return when the list has not been released,
the column types exist, no row is listed twice and the turn of every visited row is
defined. -/
theorem parse_to_prices_redo_keeps_sorted (env : Env) (pd : GncPriceParseData)
    (hsorted : sorted_by_line_no pd.prices) :
    (∀ pd', gnc_price_parse_to_prices env pd true = some pd' →
      sorted_by_line_no pd'.prices ∧
      ∃ added : List GncPriceLine,
        pd'.prices.Perm (pd.prices ++ added) ∧
        (added.map (fun pl => pl.line_no) ++ pd'.error_lines.map (fun j : Nat => (j : Int))).Perm
          ((visited_rows pd true).map (fun j : Nat => (j : Int))) ∧
        (pd.error_lines.Nodup →
          added.map (fun pl => pl.line_no) =
            ((visited_rows pd true).filter (row_parses env pd)).map (fun j : Nat => (j : Int)) ∧
          pd'.error_lines = (visited_rows pd true).filter (fun j => !row_parses env pd j))) ∧
    (pd.prices_freed = false → pd.column_types ≠ none → pd.error_lines.Nodup →
      (∀ j ∈ visited_rows pd true, row_defined env pd j = true) →
      ∃ pd', gnc_price_parse_to_prices env pd true = some pd') := by
  have hinv : loop_invariant
      { orig_lines := pd.orig_lines, error_lines := [], prices := pd.prices,
        last_price := if pd.prices = [] then none else some (pd.prices.length - 1) } :=
    ⟨hsorted, rfl⟩
  constructor
  · intro pd' h
    cases hct : pd.column_types with
    | none => simp [gnc_price_parse_to_prices, hct] at h
    | some ct =>
      cases hfreed : (pd.prices_freed && !pd.prices.isEmpty) with
      | true => simp [gnc_price_parse_to_prices, hct, hfreed] at h
      | false =>
        rw [parse_to_prices_redo_eq env pd ct hct hfreed] at h
        cases hrows : process_rows env pd.date_format ct pd.orig_row_lengths false
            (visited_rows pd true)
            { orig_lines := pd.orig_lines, error_lines := [], prices := pd.prices,
              last_price := if pd.prices = [] then none else some (pd.prices.length - 1) } with
        | none => simp [hrows] at h
        | some st =>
          rw [hrows] at h
          simp only [Option.map_some', Option.some.injEq] at h
          subst h
          obtain ⟨hinv', -, added, errs, hperm, herr, hvis, hexact⟩ :=
            process_rows_spec env pd.date_format ct pd.orig_row_lengths pd.orig_lines
              (visited_rows pd true) _ st hinv hrows
          simp only [List.nil_append] at herr
          refine ⟨hinv'.1, added, hperm, by rw [herr]; exact hvis, ?_⟩
          intro hnd
          have hrp : row_parses env pd = line_parses env pd.date_format ct pd.orig_lines := by
            funext j
            simp only [row_parses, hct]
          rw [hrp, herr]
          exact hexact (visited_rows_nodup pd hnd) (fun _ _ => rfl)
  · intro hfreed hcol hnd hdef
    cases hct : pd.column_types with
    | none => exact absurd hct hcol
    | some ct =>
      have hfreed' : (pd.prices_freed && !pd.prices.isEmpty) = false := by simp [hfreed]
      rw [parse_to_prices_redo_eq env pd ct hct hfreed']
      obtain ⟨st', hst'⟩ := process_rows_defined env pd.date_format ct pd.orig_row_lengths
        pd.orig_lines (visited_rows pd true) _ hinv (visited_rows_nodup pd hnd)
        (fun _ _ => rfl)
        (fun j hj => by
          have := hdef j hj
          simpa only [row_defined, hct] using this)
      rw [hst']
      exact ⟨_, rfl⟩

/-- C25 on the sample data: the price of row 1 is there, rows 0 and 2 are error lines
that now parse. -/
theorem parse_to_prices_redo_keeps_sorted_witness :
    sorted_by_line_no sample_redo_data.prices ∧
    ((∀ pd', gnc_price_parse_to_prices sample_env sample_redo_data true = some pd' →
      sorted_by_line_no pd'.prices ∧
      ∃ added : List GncPriceLine,
        pd'.prices.Perm (sample_redo_data.prices ++ added) ∧
        (added.map (fun pl => pl.line_no) ++ pd'.error_lines.map (fun j : Nat => (j : Int))).Perm
          ((visited_rows sample_redo_data true).map (fun j : Nat => (j : Int))) ∧
        (sample_redo_data.error_lines.Nodup →
          added.map (fun pl => pl.line_no) =
            ((visited_rows sample_redo_data true).filter
              (row_parses sample_env sample_redo_data)).map (fun j : Nat => (j : Int)) ∧
          pd'.error_lines = (visited_rows sample_redo_data true).filter
            (fun j => !row_parses sample_env sample_redo_data j))) ∧
    (sample_redo_data.prices_freed = false → sample_redo_data.column_types ≠ none →
      sample_redo_data.error_lines.Nodup →
      (∀ j ∈ visited_rows sample_redo_data true,
        row_defined sample_env sample_redo_data j = true) →
      ∃ pd', gnc_price_parse_to_prices sample_env sample_redo_data true = some pd')) :=
  ⟨List.pairwise_singleton _ _,
    parse_to_prices_redo_keeps_sorted sample_env sample_redo_data (List.pairwise_singleton _ _)⟩

/-- The pass over the error lines of the sample data: the corrected rows 0 and 2 are
put before and behind the price of row 1, and no error line is left. -/
theorem parse_to_prices_redo_sample :
    (gnc_price_parse_to_prices sample_env sample_redo_data true).map
        (fun pd => (pd.prices.map (fun pl => pl.line_no), pd.error_lines)) =
      some ([0, 1, 2], []) := by
  decide

/-! ## The classification of the rows -/

/-- The pass over all rows as a loop over the rows; the list `prices` counts as
released when it was not empty. -/
theorem parse_to_prices_all_eq (env : Env) (pd : GncPriceParseData) (ct : List Int)
    (hct : pd.column_types = some ct)
    (hfreed : (pd.prices_freed && !pd.prices.isEmpty) = false) :
    gnc_price_parse_to_prices env pd false =
      (process_rows env pd.date_format ct pd.orig_row_lengths (!pd.prices.isEmpty)
        (List.range pd.orig_lines.length)
        { orig_lines := pd.orig_lines, error_lines := [], prices := pd.prices,
          last_price := none }).map
        (fun st => { pd with
          orig_lines := st.orig_lines,
          error_lines := st.error_lines,
          prices := st.prices,
          prices_freed := !pd.prices.isEmpty,
          column_types := some (resize_column_types ct (max_cols st.orig_lines)) }) := by
  unfold gnc_price_parse_to_prices
  simp only [hct, hfreed, Bool.false_eq_true, if_false, Bool.not_false, Bool.true_and,
    visited_rows]
  cases process_rows env pd.date_format ct pd.orig_row_lengths (!pd.prices.isEmpty)
    (List.range pd.orig_lines.length)
    { orig_lines := pd.orig_lines, error_lines := [], prices := pd.prices,
      last_price := none } <;> rfl

/-- When `prices` is empty before the call, every result of `gnc_price_parse_to_prices`
with `redo_errors = FALSE` classifies the rows: the line numbers of the prices are the
rows that parse, in order, and `error_lines` are the other rows. -/
theorem parse_to_prices_classifies_of_no_prices (env : Env) (pd pd' : GncPriceParseData)
    (hprices : pd.prices = [])
    (h : gnc_price_parse_to_prices env pd false = some pd') :
    sorted_by_line_no pd'.prices ∧ pd'.prices_freed = false ∧
    (pd'.prices.map (fun pl => pl.line_no)).Perm
      (((List.range pd.orig_lines.length).filter (row_parses env pd)).map
        (fun j : Nat => (j : Int))) ∧
    pd'.error_lines = (List.range pd.orig_lines.length).filter
      (fun j => !row_parses env pd j) := by
  cases hct : pd.column_types with
  | none => simp [gnc_price_parse_to_prices, hct] at h
  | some ct =>
    have hfreed : (pd.prices_freed && !pd.prices.isEmpty) = false := by simp [hprices]
    rw [parse_to_prices_all_eq env pd ct hct hfreed] at h
    have hempty : (!pd.prices.isEmpty) = false := by simp [hprices]
    rw [hempty] at h
    have hinv : loop_invariant
        { orig_lines := pd.orig_lines, error_lines := [], prices := pd.prices,
          last_price := none } := by
      refine ⟨by simp only [hprices]; exact List.Pairwise.nil, ?_⟩
      simp only [hprices, if_true]
    cases hrows : process_rows env pd.date_format ct pd.orig_row_lengths false
        (List.range pd.orig_lines.length)
        { orig_lines := pd.orig_lines, error_lines := [], prices := pd.prices,
          last_price := none } with
    | none => simp [hrows] at h
    | some st =>
      rw [hrows] at h
      simp only [Option.map_some', Option.some.injEq] at h
      subst h
      obtain ⟨hinv', -, added, errs, hperm, herr, -, hexact⟩ :=
        process_rows_spec env pd.date_format ct pd.orig_row_lengths pd.orig_lines
          (List.range pd.orig_lines.length) _ st hinv hrows
      simp only [List.nil_append] at herr
      simp only [hprices, List.nil_append] at hperm
      obtain ⟨h1, h2⟩ := hexact (List.nodup_range _) (fun _ _ => rfl)
      have hrp : row_parses env pd = line_parses env pd.date_format ct pd.orig_lines := by
        funext j
        simp only [row_parses, hct]
      refine ⟨hinv'.1, rfl, ?_, ?_⟩
      · rw [hrp, ← h1]
        exact hperm.map _
      · rw [hrp, herr]; exact h2

/-- C23 at a failing input: the table of one row that parses, with `prices` and
`error_lines` empty, gives one price and no error line; `prices` then holds that
price.  A second call with `redo_errors = FALSE` releases the cells of `prices` and
appends the price of the row to the released list, which is undefined.  When the
Price column has been set to `None` in between, the row fails, and the call returns
with row 0 in `error_lines` and with `prices` still pointing to the released list of
the earlier price of row 0. -/
theorem parse_to_prices_keeps_released_prices :
    (gnc_price_parse sample_parse_data sample_table_one_row false).map
        (fun pd => (pd.orig_lines.length, pd.prices, pd.error_lines)) = some (1, [], []) ∧
    sample_first_pass.map (fun pd => (pd.prices, pd.error_lines, pd.prices_freed)) =
      some ([sample_line 0], [], false) ∧
    sample_first_pass.bind (fun pd => gnc_price_parse_to_prices sample_env pd false) = none ∧
    (sample_first_pass.bind (fun pd => gnc_price_parse_to_prices sample_env
        { pd with column_types := some [GNC_PRICE_DATE, GNC_PRICE_NAMESPACE,
            GNC_PRICE_MNEMONIC, GNC_PRICE_NONE] } false)).map
        (fun pd => (pd.orig_lines.length, pd.prices, pd.error_lines, pd.prices_freed)) =
      some (1, [sample_line 0], [0], true) := by
  refine ⟨by decide, by decide, by decide, by decide⟩

/-! ## Error cells -/

/-- C26 at a failing input: a table with a header line of five cells and one data row of
three cells, parsed with a guess of the column types.  The header line is detected
and removed, and the stored lengths stay `[5, 3]`, so that row 0 is compared with the
length of the header line.  The row has no price; the first pass appends an error
message, and so do the second and the third pass: the row then has six cells, three
more than when it was parsed. -/
theorem parse_to_prices_appends_more_error_cells :
    sample_header_parsed.map
        (fun pd => (pd.skip_headerline, pd.orig_lines, pd.orig_row_lengths)) =
      some (true, [{ cells := ["2012-03-04", "NASDAQ", "AAPL"], parsed_len := 3 }], [5, 3]) ∧
    (sample_header_pass 0).map (fun pd => pd.orig_lines.map (fun line => line.cells.length)) =
      some [4] ∧
    (sample_header_pass 1).map (fun pd => pd.orig_lines.map (fun line => line.cells.length)) =
      some [5] ∧
    (sample_header_pass 2).map (fun pd => pd.orig_lines) =
      some [{ cells := ["2012-03-04", "NASDAQ", "AAPL", "No price column. ",
                        "Price column could not be understood.",
                        "Price column could not be understood."],
              parsed_len := 3 }] := by
  refine ⟨by decide, by decide, by decide, by decide⟩

/-! ## Error cells: rows whose stored length is their own -/

/-- A stored length below 128 is read back as it was written. -/
theorem guint_of_stored_length (n : Nat) (h : n < 128) :
    gchar_of_int (n : Int) = n ∧ guint_of_int (n : Int) = n := by
  unfold gchar_of_int guint_of_int
  constructor <;> omega

/-- One turn of the loop keeps the stored lengths aligned with the rows: an error
message is appended to a row without one and replaces the message of a row with
one. -/
theorem process_row_aligned (env : Env) (date_format : Int) (column_types : List Int)
    (orig_row_lengths : List Int) (prices_freed : Bool) (i : Nat) (st st' : LoopState)
    (hal : row_lengths_aligned st.orig_lines orig_row_lengths)
    (h : process_row env date_format column_types orig_row_lengths prices_freed i st =
      some st') :
    row_lengths_aligned st'.orig_lines orig_row_lengths := by
  cases hline : st.orig_lines[i]? with
  | none => simp [process_row, hline] at h
  | some line =>
    obtain ⟨hstored, h128, hlen⟩ := hal i line hline
    have hi : i < st.orig_lines.length := by
      rcases Nat.lt_or_ge i st.orig_lines.length with hlt | hge
      · exact hlt
      · rw [List.getElem?_eq_none hge] at hline; cases hline
    cases hrow : parse_row env date_format column_types line with
    | none => simp [process_row, hline, hrow] at h
    | some outcome =>
      cases outcome with
      | price price_line =>
        simp only [process_row, hline, hrow] at h
        cases prices_freed with
        | true => simp at h
        | false =>
          simp only [Bool.false_eq_true, if_false] at h
          cases hins : insert_price st.prices st.last_price
              { price_line with line_no := i } with
          | none => simp [hins] at h
          | some r =>
            obtain ⟨prices, last_price⟩ := r
            simp only [hins, Option.some.injEq] at h
            subst h
            exact hal
      | error error_message =>
        rw [process_row_error env date_format column_types orig_row_lengths prices_freed i st
          line error_message hline hrow, hstored] at h
        simp only [Option.some_bind, (guint_of_stored_length line.parsed_len h128).2] at h
        have hset : ∀ (cells : List String), cells.length ≤ line.parsed_len + 1 →
            row_lengths_aligned
              (st.orig_lines.set i { line with cells := cells }) orig_row_lengths := by
          intro cells hcells j line' hj
          rw [List.getElem?_set] at hj
          by_cases hij : i = j
          · subst hij
            simp only [if_true, hi, Option.some.injEq] at hj
            subst hj
            exact ⟨hstored, h128, hcells⟩
          · simp only [hij, if_false] at hj
            exact hal j line' hj
        by_cases h1 : ((line.cells.length : Int) > (line.parsed_len : Int))
        · rw [if_pos h1] at h
          have h2 : line.cells.length > line.parsed_len := by omega
          rw [if_pos h2] at h
          simp only [Option.some.injEq] at h
          subst h
          apply hset
          simp only [List.length_append, List.length_take, List.length_singleton]
          omega
        · rw [if_neg h1] at h
          simp only [Option.some.injEq] at h
          subst h
          apply hset
          simp only [List.length_append, List.length_singleton]
          omega

/-- The loop keeps the stored lengths aligned with the rows. -/
theorem process_rows_aligned (env : Env) (date_format : Int) (column_types : List Int)
    (orig_row_lengths : List Int) (prices_freed : Bool) (rows : List Nat) (st st' : LoopState)
    (hal : row_lengths_aligned st.orig_lines orig_row_lengths)
    (h : process_rows env date_format column_types orig_row_lengths prices_freed rows st =
      some st') :
    row_lengths_aligned st'.orig_lines orig_row_lengths := by
  induction rows generalizing st with
  | nil =>
    simp only [process_rows, Option.some.injEq] at h
    subst h
    exact hal
  | cons i rest ih =>
    simp only [process_rows] at h
    cases hrow : process_row env date_format column_types orig_row_lengths prices_freed i st with
    | none => simp [hrow] at h
    | some st1 =>
      simp only [hrow] at h
      exact ih st1 (process_row_aligned env date_format column_types orig_row_lengths
        prices_freed i st st1 hal hrow) h

/-- When the stored lengths are aligned with the rows, every call of
`gnc_price_parse_to_prices` that returns leaves them aligned: every row keeps at most
one error cell. -/
theorem parse_to_prices_keeps_aligned (env : Env) (pd pd' : GncPriceParseData)
    (redo_errors : Bool) (hal : row_lengths_aligned pd.orig_lines pd.orig_row_lengths)
    (h : gnc_price_parse_to_prices env pd redo_errors = some pd') :
    row_lengths_aligned pd'.orig_lines pd'.orig_row_lengths := by
  unfold gnc_price_parse_to_prices at h
  cases hct : pd.column_types with
  | none => rw [hct] at h; cases h
  | some ct =>
    rw [hct] at h
    simp only at h
    split at h
    · cases h
    · split at h
      · cases h
      · rename_i st hrows
        simp only [Option.some.injEq] at h
        subst h
        exact process_rows_aligned env pd.date_format ct pd.orig_row_lengths _ _ _ st hal hrows

/-- The rows and the stored lengths after `gnc_price_parse`: one length for every line
of the file, and the rows without the first line when the header line is skipped. -/
theorem parse_rows (pd pd' : GncPriceParseData) (lines : List (List String))
    (guessColTypes : Bool) (h : gnc_price_parse pd lines guessColTypes = some pd') :
    pd'.orig_row_lengths = lines.map (fun cells => gchar_of_int (cells.length : Int)) ∧
    pd'.orig_lines =
      if pd'.skip_headerline = true ∧ lines.length ≠ 0
      then (lines.map (fun cells => ({ cells := cells, parsed_len := cells.length } : Row))).drop 1
      else lines.map (fun cells => ({ cells := cells, parsed_len := cells.length } : Row)) := by
  have hmap : List.map (fun line : Row => gchar_of_int (line.cells.length : Int))
      (List.map (fun cells => ({ cells := cells, parsed_len := cells.length } : Row)) lines) =
      lines.map (fun cells => gchar_of_int (cells.length : Int)) := by
    rw [List.map_map]; rfl
  have hrem : ∀ q : GncPriceParseData,
      q.orig_row_lengths = lines.map (fun cells => gchar_of_int (cells.length : Int)) →
      q.orig_lines =
        lines.map (fun cells => ({ cells := cells, parsed_len := cells.length } : Row)) →
      (remove_headerline q).orig_row_lengths =
        lines.map (fun cells => gchar_of_int (cells.length : Int)) ∧
      (remove_headerline q).orig_lines =
        if (remove_headerline q).skip_headerline = true ∧ lines.length ≠ 0
        then (lines.map
          (fun cells => ({ cells := cells, parsed_len := cells.length } : Row))).drop 1
        else lines.map (fun cells => ({ cells := cells, parsed_len := cells.length } : Row)) := by
    intro q h1 h2
    unfold remove_headerline
    by_cases hc : (q.skip_headerline && decide (q.orig_lines.length ≠ 0)) = true
    · rw [if_pos hc]
      simp only [Bool.and_eq_true, decide_eq_true_eq, h2, List.length_map] at hc
      exact ⟨h1, by simp only [h2]; rw [if_pos hc]⟩
    · rw [if_neg hc]
      simp only [Bool.and_eq_true, decide_eq_true_eq, h2, List.length_map] at hc
      exact ⟨h1, by rw [if_neg hc]; exact h2⟩
  cases guessColTypes with
  | true =>
    simp only [gnc_price_parse, if_true, Option.some.injEq] at h
    subst h
    exact hrem _ hmap rfl
  | false =>
    simp only [gnc_price_parse, Bool.false_eq_true, if_false] at h
    split at h
    · cases h
    · simp only [Option.some.injEq] at h
      subst h
      exact hrem _ hmap rfl

/-- After `gnc_price_parse` that removes no header line, on a table whose rows have
fewer than 128 cells, the stored lengths are aligned with the rows. -/
theorem parse_aligned (pd pd' : GncPriceParseData) (lines : List (List String))
    (guessColTypes : Bool) (hshort : ∀ cells ∈ lines, cells.length < 128)
    (h : gnc_price_parse pd lines guessColTypes = some pd')
    (hskip : pd'.skip_headerline = false) :
    row_lengths_aligned pd'.orig_lines pd'.orig_row_lengths := by
  obtain ⟨h1, h2⟩ := parse_rows pd pd' lines guessColTypes h
  rw [hskip] at h2
  simp only [Bool.false_eq_true, false_and, if_false] at h2
  rw [h1, h2]
  intro i line hi
  rw [List.getElem?_map] at hi
  cases hl : lines[i]? with
  | none => simp [hl] at hi
  | some cells =>
    simp only [hl, Option.map_some', Option.some.injEq] at hi
    subst hi
    have hmem : cells ∈ lines := by
      obtain ⟨hlt, heq⟩ := List.getElem?_eq_some_iff.mp hl
      rw [← heq]
      exact List.getElem_mem hlt
    have h128 := hshort cells hmem
    refine ⟨?_, h128, Nat.le_succ _⟩
    simp only [List.getElem?_map, hl, Option.map_some',
      (guint_of_stored_length cells.length h128).1]

/-! ## Import into the price database -/

/-- One turn of the import loop for a line with a date and a value: the line is added
when no existing price has its value, and counted as skipped otherwise. -/
theorem import_loop_cons {Book : Type} (engine : Engine Book) (pl : GncPriceLine)
    (rest : List GncPriceLine) (st : ImportState Book) (d : Tm) (v : gnc_numeric)
    (hd : pl.datetm = some d) (hv : pl.value = some v) :
    ∃ created : Int,
      import_loop engine (pl :: rest) st =
        if equal_existing engine st.book pl = 0 then
          import_loop engine rest
            { book := engine.add_price (book_at_lookup engine st.book pl) pl,
              report := { nb_imported := st.report.nb_imported + 1,
                          nb_skipped := st.report.nb_skipped,
                          nb_securities_created := created },
              calls := (if st.report.nb_imported = 0
                then st.calls ++ [DbCall.gnc_pricedb_begin_edit] else st.calls) ++
                [DbCall.gnc_pricedb_add_price pl] }
        else
          import_loop engine rest
            { book := book_at_lookup engine st.book pl,
              report := { nb_imported := st.report.nb_imported,
                          nb_skipped := st.report.nb_skipped + equal_existing engine st.book pl,
                          nb_securities_created := created },
              calls := st.calls } := by
  refine ⟨if engine.commodity_known st.book pl then st.report.nb_securities_created
    else st.report.nb_securities_created + 1, ?_⟩
  rw [import_loop]
  simp only [hd, hv, equal_existing, book_at_lookup]
  by_cases hk : engine.commodity_known st.book pl = true
  · simp only [hk, if_true]
    by_cases he : (List.filter (fun x => engine.gnc_numeric_equal v x)
        (engine.lookup_at_time st.book pl)) = []
    · simp [he]
    · simp [he]
  · simp only [hk, if_false]
    have hk' : engine.commodity_known st.book pl = false := by simpa using hk
    by_cases he : (List.filter (fun x => engine.gnc_numeric_equal v x)
        (engine.lookup_at_time (engine.commodity_insert st.book pl) pl)) = []
    · simp [he, hk']
    · simp [he, hk']

/-- The decisions for a list of lines, first line first. -/
theorem import_decisions_cons {Book : Type} (engine : Engine Book) (pl : GncPriceLine)
    (rest : List GncPriceLine) (book : Book) :
    import_decisions engine (pl :: rest) book =
      (pl, equal_existing engine book pl) ::
        import_decisions engine rest
          (if equal_existing engine book pl = 0
            then engine.add_price (book_at_lookup engine book pl) pl
            else book_at_lookup engine book pl) := rfl

/-- A line with no existing price of equal value is an added line. -/
theorem added_lines_cons_zero (pl : GncPriceLine) (n : Nat) (ds : List (GncPriceLine × Nat))
    (hn : n = 0) : added_lines ((pl, n) :: ds) = pl :: added_lines ds := by
  simp [added_lines, hn]

/-- A line with an existing price of equal value is no added line. -/
theorem added_lines_cons_pos (pl : GncPriceLine) (n : Nat) (ds : List (GncPriceLine × Nat))
    (hn : ¬ n = 0) : added_lines ((pl, n) :: ds) = added_lines ds := by
  simp [added_lines, hn]

/-- The skipped count of a list of decisions, first decision first. -/
theorem skipped_count_cons (d : GncPriceLine × Nat) (ds : List (GncPriceLine × Nat)) :
    skipped_count (d :: ds) = d.2 + skipped_count ds := rfl

/-- The import loop: the counters and the calls it adds, for lines that all have a date
and a value. -/
theorem import_loop_spec {Book : Type} (engine : Engine Book) (prices : List GncPriceLine)
    (h : ∀ pl ∈ prices, pl.datetm.isSome = true ∧ pl.value.isSome = true)
    (st : ImportState Book) (h0 : 0 ≤ st.report.nb_imported) :
    ∃ st', import_loop engine prices st = some st' ∧
      st'.report.nb_imported = st.report.nb_imported +
        (added_lines (import_decisions engine prices st.book)).length ∧
      st'.report.nb_skipped = st.report.nb_skipped +
        skipped_count (import_decisions engine prices st.book) ∧
      st'.calls = st.calls ++
        (if st.report.nb_imported = 0 ∧
            added_lines (import_decisions engine prices st.book) ≠ []
          then [DbCall.gnc_pricedb_begin_edit] else []) ++
        (added_lines (import_decisions engine prices st.book)).map
          DbCall.gnc_pricedb_add_price := by
  induction prices generalizing st with
  | nil =>
    exact ⟨st, rfl, by simp [import_decisions, added_lines],
      by simp [import_decisions, skipped_count], by simp [import_decisions, added_lines]⟩
  | cons pl rest ih =>
    have hpl := h pl (List.mem_cons_self _ _)
    have hrest : ∀ q ∈ rest, q.datetm.isSome = true ∧ q.value.isSome = true :=
      fun q hq => h q (List.mem_cons_of_mem _ hq)
    obtain ⟨d, hd⟩ := Option.isSome_iff_exists.mp hpl.1
    obtain ⟨v, hv⟩ := Option.isSome_iff_exists.mp hpl.2
    obtain ⟨created, hcons⟩ := import_loop_cons engine pl rest st d v hd hv
    rw [hcons]
    by_cases hn : equal_existing engine st.book pl = 0
    · rw [if_pos hn]
      obtain ⟨st', hst', h1, h2, h3⟩ := ih hrest
        { book := engine.add_price (book_at_lookup engine st.book pl) pl,
          report := { nb_imported := st.report.nb_imported + 1,
                      nb_skipped := st.report.nb_skipped,
                      nb_securities_created := created },
          calls := (if st.report.nb_imported = 0
            then st.calls ++ [DbCall.gnc_pricedb_begin_edit] else st.calls) ++
            [DbCall.gnc_pricedb_add_price pl] } (by simp only; omega)
      rw [import_decisions_cons, if_pos hn, added_lines_cons_zero _ _ _ hn, skipped_count_cons]
      refine ⟨st', hst', ?_, ?_, ?_⟩
      · rw [h1]; simp only [List.length_cons]; push_cast; omega
      · rw [h2]; simp only [hn]; push_cast; omega
      · rw [h3]
        have hne : ¬ (st.report.nb_imported + 1 = 0) := by omega
        by_cases hz : st.report.nb_imported = 0
        · simp [hz]
        · simp [hz, hne]
    · rw [if_neg hn]
      obtain ⟨st', hst', h1, h2, h3⟩ := ih hrest
        { book := book_at_lookup engine st.book pl,
          report := { nb_imported := st.report.nb_imported,
                      nb_skipped := st.report.nb_skipped + equal_existing engine st.book pl,
                      nb_securities_created := created },
          calls := st.calls } h0
      rw [import_decisions_cons, if_neg hn, added_lines_cons_pos _ _ _ hn, skipped_count_cons]
      refine ⟨st', hst', ?_, ?_, ?_⟩
      · rw [h1]
      · rw [h2]; push_cast; omega
      · rw [h3]


/-- Every line gets one decision, in the order of the lines. -/
theorem import_decisions_fst {Book : Type} (engine : Engine Book) (prices : List GncPriceLine)
    (book : Book) : (import_decisions engine prices book).map Prod.fst = prices := by
  induction prices generalizing book with
  | nil => rfl
  | cons pl rest ih => rw [import_decisions_cons, List.map_cons, ih]

/-- Every line that is not added counts at least once in the skipped count. -/
theorem nonzero_le_skipped_count (ds : List (GncPriceLine × Nat)) :
    (ds.filter (fun d => decide (d.2 ≠ 0))).length ≤ skipped_count ds := by
  induction ds with
  | nil => simp [skipped_count]
  | cons d rest ih =>
    rw [skipped_count_cons]
    by_cases h : d.2 = 0
    · simp only [List.filter_cons, h, ne_eq, not_true_eq_false, decide_False]
      simp only [ne_eq] at ih
      simpa using ih
    · simp only [List.filter_cons, ne_eq, h, not_false_eq_true, decide_True, if_true,
        List.length_cons]
      simp only [ne_eq] at ih
      omega

/-- C30: for a non-null report and price lines that all have a date and a value (as
the essentials check guarantees), `gnc_price_do_import` returns; every line gets one
decision, the number of existing prices that the lookup at its turn returns with a
value equal to its own; the calls to the price database are none when no line has the
number zero, and otherwise `gnc_pricedb_begin_edit`, then `gnc_pricedb_add_price` for
exactly the lines with the number zero, in order, then `gnc_pricedb_commit_edit`;
`nb_imported` is the number of added lines, `nb_skipped` is the sum of the numbers
over the lines, which is at least the number of lines not added; begin and commit are
each called once when `nb_imported > 0` and not at all otherwise. -/
theorem do_import_accounting {Book : Type} (engine : Engine Book) (book : Book)
    (prices : List GncPriceLine) (report0 : GncPriceImportReport)
    (h : ∀ pl ∈ prices, pl.datetm.isSome = true ∧ pl.value.isSome = true) :
    ∃ book' report calls,
      gnc_price_do_import engine book prices (some report0) =
        some (book', some report, calls) ∧
      (import_decisions engine prices book).map Prod.fst = prices ∧
      calls = (if added_lines (import_decisions engine prices book) = [] then []
        else [DbCall.gnc_pricedb_begin_edit] ++
          (added_lines (import_decisions engine prices book)).map DbCall.gnc_pricedb_add_price ++
          [DbCall.gnc_pricedb_commit_edit]) ∧
      report.nb_imported = (added_lines (import_decisions engine prices book)).length ∧
      report.nb_skipped = skipped_count (import_decisions engine prices book) ∧
      ((import_decisions engine prices book).filter (fun d => decide (d.2 ≠ 0))).length ≤
        skipped_count (import_decisions engine prices book) ∧
      calls.count DbCall.gnc_pricedb_begin_edit = (if 0 < report.nb_imported then 1 else 0) ∧
      calls.count DbCall.gnc_pricedb_commit_edit = (if 0 < report.nb_imported then 1 else 0) := by
  obtain ⟨st', hst', h1, h2, h3⟩ := import_loop_spec engine prices h
    { book := book,
      report := { nb_imported := 0, nb_skipped := 0, nb_securities_created := 0 },
      calls := [] } (le_refl _)
  simp only [zero_add, List.nil_append, true_and] at h1 h2 h3
  have hbegin : ∀ l : List GncPriceLine,
      (l.map DbCall.gnc_pricedb_add_price).count DbCall.gnc_pricedb_begin_edit = 0 := by
    intro l
    rw [List.count_eq_zero]
    simp
  have hcommit : ∀ l : List GncPriceLine,
      (l.map DbCall.gnc_pricedb_add_price).count DbCall.gnc_pricedb_commit_edit = 0 := by
    intro l
    rw [List.count_eq_zero]
    simp
  by_cases hadd : added_lines (import_decisions engine prices book) = []
  · have himp : st'.report.nb_imported = 0 := by rw [h1, hadd]; rfl
    refine ⟨st'.book, st'.report, st'.calls, ?_, import_decisions_fst engine prices book, ?_,
      h1, h2, nonzero_le_skipped_count _, ?_, ?_⟩
    · simp only [gnc_price_do_import, hst', himp]
      simp
    · rw [h3, hadd]; simp
    · rw [h3, hadd, himp]; simp
    · rw [h3, hadd, himp]; simp
  · have hpos : 0 < st'.report.nb_imported := by
      rw [h1]
      have := List.length_pos.mpr hadd
      omega
    refine ⟨st'.book, st'.report, st'.calls ++ [DbCall.gnc_pricedb_commit_edit], ?_,
      import_decisions_fst engine prices book, ?_, h1, h2, nonzero_le_skipped_count _, ?_, ?_⟩
    · simp only [gnc_price_do_import, hst']
      simp [hpos]
    · rw [h3, if_neg hadd]; simp [hadd]
    · rw [h3, if_pos hpos]
      simp [hadd, List.count_append, hbegin, List.count_cons]
    · rw [h3, if_pos hpos]
      simp [hadd, List.count_append, hcommit, List.count_cons]

/-- C30 on the sample prices: three lines, the second with the security and the value
of the first. -/
theorem do_import_accounting_witness :
    (∀ pl ∈ sample_prices, pl.datetm.isSome = true ∧ pl.value.isSome = true) ∧
    ∃ book' report calls,
      gnc_price_do_import sample_engine [] sample_prices
          (some { nb_imported := 7, nb_skipped := 7, nb_securities_created := 7 }) =
        some (book', some report, calls) ∧
      (import_decisions sample_engine sample_prices []).map Prod.fst = sample_prices ∧
      calls = (if added_lines (import_decisions sample_engine sample_prices []) = [] then []
        else [DbCall.gnc_pricedb_begin_edit] ++
          (added_lines (import_decisions sample_engine sample_prices [])).map
            DbCall.gnc_pricedb_add_price ++
          [DbCall.gnc_pricedb_commit_edit]) ∧
      report.nb_imported = (added_lines (import_decisions sample_engine sample_prices [])).length ∧
      report.nb_skipped = skipped_count (import_decisions sample_engine sample_prices []) ∧
      ((import_decisions sample_engine sample_prices []).filter
          (fun d => decide (d.2 ≠ 0))).length ≤
        skipped_count (import_decisions sample_engine sample_prices []) ∧
      calls.count DbCall.gnc_pricedb_begin_edit = (if 0 < report.nb_imported then 1 else 0) ∧
      calls.count DbCall.gnc_pricedb_commit_edit = (if 0 < report.nb_imported then 1 else 0) :=
  ⟨by decide, do_import_accounting sample_engine [] sample_prices
    { nb_imported := 7, nb_skipped := 7, nb_securities_created := 7 } (by decide)⟩

/-- The import of the sample prices: lines 0 and 2 are added between one begin and one
commit, line 1 is skipped. -/
theorem do_import_sample :
    gnc_price_do_import sample_engine [] sample_prices
        (some { nb_imported := 7, nb_skipped := 7, nb_securities_created := 7 }) =
      some ([sample_line 0, { sample_line 2 with mnemonic := some "MSFT" }],
        some { nb_imported := 2, nb_skipped := 1, nb_securities_created := 0 },
        [DbCall.gnc_pricedb_begin_edit, DbCall.gnc_pricedb_add_price (sample_line 0),
         DbCall.gnc_pricedb_add_price { sample_line 2 with mnemonic := some "MSFT" },
         DbCall.gnc_pricedb_commit_edit]) := by
  decide

end GncPriceModel
